import Mathlib

/-! QWICS load module executor (`src/tpmserver/cobexec.c`): a shallow embedding.

The definitions below are a shallow embedding of the C functions of `cobexec.c`.  C strings
are lists of characters (the terminating NUL is implicit), memory that a function receives
through a pointer is a function from offsets to cells, and `int` variables are integers.
Code that can leave through `longjmp`, wait for ever or touch `NULL` has an `Outcome`.
Collaborators that are not part of `cobexec.c` (the lock manager, the database pool, the
loader and the artifacts it loads, the allocator) are parameters, gathered in `Env`. -/


namespace Qwics

/-! ## C strings and character buffers -/

/-- The NUL character that terminates a C string. -/
def NUL : Char := Char.ofNat 0

/-- The character `s[p]` of the C string `s`: the terminator at and after its length. -/
def cstrAt (s : List Char) (p : Int) : Char :=
  if p < 0 then NUL else s.getD p.toNat NUL

/-- The C library `strchr(s, c)` for `c` other than NUL: the offset of the first `c`. -/
def strchr (s : List Char) (c : Char) : Option Nat :=
  if c ∈ s then some (s.indexOf c) else none

/-- A character buffer reached through a `char *`: a cell for every offset. -/
abbrev CharBuf := Nat → Char

/-- The assignment `buf[i] = c`. -/
def bufSet (buf : CharBuf) (i : Nat) (c : Char) : CharBuf :=
  fun j => if j = i then c else buf j

/-- The C string that starts at `buf[0]`, given that a NUL lies at or before offset `n`. -/
def readCStr (buf : CharBuf) (n : Nat) : List Char :=
  ((List.range (n + 1)).map buf).takeWhile (fun c => c != NUL)

/-! ## `convertNumeric` (cobexec.c 173-210) -/

/-- The loop `while ((*pos) != 0x00 && i < scale)` of `convertNumeric`, which copies the
fraction digits; the first argument bounds the iterations left (at most `scale - i`). -/
def convertNumeric_copyFrac (val : List Char) (digits scale : Int) :
    Nat → Int → Int → CharBuf → Int × CharBuf
  | 0, _, i, buf => (i, buf)
  | n + 1, pos, i, buf =>
    if cstrAt val pos ≠ NUL ∧ i < scale then
      convertNumeric_copyFrac val digits scale n (pos + 1) (i + 1)
        (bufSet buf (digits - scale + i).toNat (cstrAt val pos))
    else (i, buf)

/-- The loop `while (i < scale)` of `convertNumeric`: pad to the right with 0. -/
def convertNumeric_padRight (digits scale : Int) : Nat → Int → CharBuf → CharBuf
  | 0, _, buf => buf
  | n + 1, i, buf =>
    if i < scale then
      convertNumeric_padRight digits scale n (i + 1) (bufSet buf (digits - scale + i).toNat '0')
    else buf

/-- The loop `while ((pos >= val) && (i >= 0))` of `convertNumeric`, which copies the
integer digits from right to left; `pos` is the offset of the pointer from `val`. -/
def convertNumeric_copyInt (val : List Char) : Nat → Int → Int → CharBuf → Int × CharBuf
  | 0, _, i, buf => (i, buf)
  | n + 1, pos, i, buf =>
    if pos ≥ 0 ∧ i ≥ 0 then
      convertNumeric_copyInt val n (pos - 1) (i - 1) (bufSet buf i.toNat (cstrAt val pos))
    else (i, buf)

/-- The loop `while (i >= 0)` of `convertNumeric`: pad to the left with 0. -/
def convertNumeric_padLeft : Nat → Int → CharBuf → CharBuf
  | 0, _, buf => buf
  | n + 1, i, buf =>
    if i ≥ 0 then convertNumeric_padLeft n (i - 1) (bufSet buf i.toNat '0') else buf

/-- The function `convertNumeric(val, digits, scale, buf)`: the buffer it leaves. -/
def convertNumeric (val : List Char) (digits scale : Int) (buf : CharBuf) : CharBuf :=
  let sep : Option Nat := strchr val '.'
  -- pos = sep; if (sep == NULL) pos = val + strlen(val) - 1; pos++;
  let pos : Int := (match sep with
    | some k => (k : Int)
    | none => (val.length : Int) - 1) + 1
  let r1 := convertNumeric_copyFrac val digits scale scale.toNat pos 0 buf
  let buf1 := convertNumeric_padRight digits scale (scale - r1.1).toNat r1.1 r1.2
  -- pos = sep; if (sep == NULL) pos = val + strlen(val); pos--;
  let pos2 : Int := (match sep with
    | some k => (k : Int)
    | none => (val.length : Int)) - 1
  let r2 := convertNumeric_copyInt val (digits - scale).toNat pos2 (digits - scale - 1) buf1
  let buf2 := convertNumeric_padLeft (r2.1 + 1).toNat r2.1 r2.2
  bufSet buf2 digits.toNat NUL

/-- The C string that `convertNumeric` returns (it returns `buf`). -/
def convertNumericStr (val : List Char) (digits scale : Int) (buf : CharBuf) : List Char :=
  readCStr (convertNumeric val digits scale buf) digits.toNat

/-- The text `sprintf(buf, "%ld", v)` writes. -/
def sprintf_ld (v : Int) : List Char :=
  if v < 0 then '-' :: Nat.toDigits 10 v.natAbs else Nat.toDigits 10 v.toNat

/-- Reading a string of decimal digits back as a number. -/
def parseDigits (l : List Char) : Nat :=
  l.foldl (fun a c => 10 * a + (c.toNat - 48)) 0

/-- The digits left of the decimal point in `val`. -/
def intPart (val : List Char) : List Char :=
  match strchr val '.' with
  | some k => val.take k
  | none => val

/-- The digits right of the decimal point in `val`. -/
def fracPart (val : List Char) : List Char :=
  match strchr val '.' with
  | some k => val.drop (k + 1)
  | none => []

/-- The layout the specification gives for `convertNumeric`: the last `k` characters of the
integer digits `I` padded on the left with '0', then the first `s` characters of the
fraction digits `F` padded on the right with '0'. -/
def zonedLayout (I F : List Char) (k s : Nat) : List Char :=
  (List.replicate (k - I.length) '0' ++ I.drop (I.length - k)) ++
    (F.take s ++ List.replicate (s - F.length) '0')

/-! ## The running-module registry: `startModule`, `endModule` (cobexec.c 89-93, 295-336) -/

/-- The globals `char runningModules[500][9]` and `int runningModuleCnt`.  The array is kept
as its bytes, row after row: row `i` is the bytes `9 * i` to `9 * i + 8`, so a row has room
for a name of 8 characters and its NUL.  Nothing cuts a name to its row: a longer name runs
on into the next row.  Bytes from 4500 on lie behind the array and are never read. -/
structure ModuleRegistry where
  runningModules : CharBuf
  runningModuleCnt : Nat

/-- The C string that starts at `buf[a]`: the bytes before the first NUL, which is looked
for among the next `n` bytes. -/
def cstrFrom (buf : CharBuf) : Nat → Nat → List Char
  | _, 0 => []
  | a, n + 1 => if buf a = NUL then [] else buf a :: cstrFrom buf (a + 1) n

/-- The call `sprintf(&buf[a], "%s", s)`: the characters of `s` and the terminating NUL
are stored from `buf[a]` on. -/
def storeStr (buf : CharBuf) (a : Nat) (s : List Char) : CharBuf :=
  fun x => if a ≤ x ∧ x < a + s.length then s.getD (x - a) NUL
           else if x = a + s.length then NUL else buf x

/-- The C string `runningModules[i]`, as `strcmp` and `sprintf` read it: from the first
byte of row `i` to the first NUL, wherever in the array that is. -/
def slotGet (rows : CharBuf) (i : Nat) : List Char :=
  cstrFrom rows (9 * i) (4500 - 9 * i)

/-- The assignment `sprintf(runningModules[i], "%s", name)`. -/
def slotSet (rows : CharBuf) (i : Nat) (name : List Char) : CharBuf :=
  storeStr rows (9 * i) name

/-- The registry at monitor start: `runningModuleCnt = 0`, the array zeroed. -/
def ModuleRegistry.empty : ModuleRegistry :=
  { runningModules := fun _ => NUL, runningModuleCnt := 0 }

/-- The records of the registry: the strings of the rows below `runningModuleCnt`, in
order. -/
def ModuleRegistry.names (r : ModuleRegistry) : List String :=
  (List.range r.runningModuleCnt).map (fun i => String.mk (slotGet r.runningModules i))

/-- The scan of `startModule`: does `strcmp(runningModules[i], progname) == 0` hold for a
row below `runningModuleCnt`?  The program name is a C string (it holds no NUL). -/
def moduleFound (r : ModuleRegistry) (progname : String) : Bool :=
  (List.range r.runningModuleCnt).any (fun i => slotGet r.runningModules i == progname.data)

/-- The function `startModule(progname)`.  While the name is found the caller waits on
`waitForModuleChange`: the result is `none` (the call has not completed).  Otherwise the
name is recorded when fewer than 500 rows are in use, and the call completes. -/
def startModule (r : ModuleRegistry) (progname : String) : Option ModuleRegistry :=
  if moduleFound r progname then none
  else if r.runningModuleCnt < 500 then
    some { runningModules := slotSet r.runningModules r.runningModuleCnt progname.data,
           runningModuleCnt := r.runningModuleCnt + 1 }
  else some r

/-- One iteration (index `i`) of the loop of `endModule` on `(found, runningModules)`.
The string of row `i` is read and then stored into row `i - 1` (for a string of more than
8 characters the two overlap, which `sprintf` leaves undefined). -/
def endModule_step (progname : String) (st : Bool × CharBuf) (i : Nat) : Bool × CharBuf :=
  -- if (found == 1) sprintf(runningModules[i-1], "%s", runningModules[i]);
  let rows := if st.1 then slotSet st.2 (i - 1) (slotGet st.2 i) else st.2
  -- if ((found == 0) && (strcmp(runningModules[i], progname) == 0)) found = 1;
  let found := if !st.1 && slotGet rows i == progname.data then true else st.1
  (found, rows)

/-- The function `endModule(progname)`. -/
def endModule (r : ModuleRegistry) (progname : String) : ModuleRegistry :=
  let st := (List.range r.runningModuleCnt).foldl (endModule_step progname)
    (false, r.runningModules)
  { runningModules := st.2,
    runningModuleCnt := if r.runningModuleCnt > 0 then r.runningModuleCnt - 1
                        else r.runningModuleCnt }

/-- Every row in use holds a name of at most 8 characters, so that its NUL lies inside the
row, and at most 500 rows are in use. -/
def ModuleRegistry.RowsFit (r : ModuleRegistry) : Prop :=
  r.runningModuleCnt ≤ 500 ∧
    ∀ i, i < r.runningModuleCnt → (slotGet r.runningModules i).length ≤ 8

/-- The module serializer seen by all tasks: the registry, and the names for which a task
has completed `startModule` and not yet issued its `endModule`. -/
structure Serializer where
  reg : ModuleRegistry
  held : List String

/-- A call on the serializer by some task. -/
inductive SerializerOp where
  | enter (name : String)
  | leave (name : String)

/-- One call on the serializer while fewer than 500 names are registered: `enter` is
`startModule` and has to complete, `leave` is `endModule` and is issued only by a task
that completed `startModule` for that name. -/
def Serializer.step (s : Serializer) : SerializerOp → Option Serializer
  | .enter name =>
    if s.reg.runningModuleCnt < 500 then
      match startModule s.reg name with
      | some r => some { reg := r, held := name :: s.held }
      | none => none
    else none
  | .leave name =>
    if name ∈ s.held then some { reg := endModule s.reg name, held := s.held.erase name }
    else none

/-- A sequence of calls from a given serializer state. -/
def Serializer.run (s : Serializer) : List SerializerOp → Option Serializer
  | [] => some s
  | op :: ops =>
    match s.step op with
    | some s1 => s1.run ops
    | none => none

/-- The serializer at monitor start. -/
def Serializer.init : Serializer := { reg := ModuleRegistry.empty, held := [] }

/-- A serializer state reached by four calls: two tasks enter `A` and `B`, the first leaves
and a third task enters `A` again. -/
def Serializer.sample : Serializer :=
  (Serializer.init.run [.enter "A", .enter "B", .leave "A", .enter "A"]).getD Serializer.init

/-- A registry whose 500 slots are all in use, by the programs `M0` ... `M499`. -/
def ModuleRegistry.full : ModuleRegistry :=
  { runningModules := fun a => ('M' :: Nat.toDigits 10 (a / 9)).getD (a % 9) NUL,
    runningModuleCnt := 500 }

/-! ## The task state (cobexec.c 48-124, 3152-3217)

Storage that the monitor and the artifact share (the cells of COBOL fields, the
communication area, the EIB, the blocks of the memory pools) is one flat memory, addressed
by natural numbers; address 0 is `NULL`. -/

/-- The apostrophe, written `'\''` in the source. -/
def APOS : Char := Char.ofNat 39

/-- The flat memory. -/
abbrev Mem := Nat → Char

/-- The cells `mem[a .. a+n)`. -/
def memRead (mem : Mem) (a n : Nat) : List Char :=
  (List.range n).map (fun i => mem (a + i))

/-- Storing the cells `l` at `mem[a ..]`. -/
def memWrite (mem : Mem) (a : Nat) (l : List Char) : Mem :=
  fun x => if a ≤ x ∧ x < a + l.length then l.getD (x - a) NUL else mem x

/-- A loop `for (i = 0; i < n; i++) dst[i] = src[i];`, cell by cell in this order. -/
def copyCells (mem : Mem) (dst src n : Nat) : Mem :=
  (List.range n).foldl (fun m i => fun x => if x = dst + i then m (src + i) else m x) mem

/-- Storing a pointer (8 cells, least significant first) at address `a`. -/
def storePtr (mem : Mem) (a p : Nat) : Mem :=
  memWrite mem a ((List.range 8).map (fun i => Char.ofNat (p / 256 ^ i % 256)))

/-- Loading the pointer stored at address `a`. -/
def loadPtr (mem : Mem) (a : Nat) : Nat :=
  ((List.range 8).map (fun i => (mem (a + i)).toNat * 256 ^ i)).sum

/-- The field types of libcob that the monitor tests (`COB_TYPE_*`). -/
inductive CobType where
  | group
  | numeric
  | numericBinary
  | numericPacked
  | numericComp5
  | alphanumeric
  | other
  deriving DecidableEq, Repr

/-- A `cob_field` with the attributes the monitor reads. -/
structure CobField where
  /-- The member `size`. -/
  size : Nat
  /-- The member `data`, an address of the flat memory. -/
  data : Nat
  /-- The member `attr->type`. -/
  type : CobType
  /-- The member `attr->digits`. -/
  digits : Int
  /-- The member `attr->scale`. -/
  scale : Int
  /-- The flag `COB_FIELD_BINARY_SWAP`. -/
  binarySwap : Bool
  deriving DecidableEq, Repr

/-- A `void *` value held in the parameter slots of the task. -/
inductive Ptr where
  /-- A plain address; `addr 0` is `NULL`, `addr 1` is the flag `(void*)1`. -/
  | addr (a : Nat)
  /-- A `cob_field *`: the field with this number in the artifact. -/
  | field (id : Nat)
  /-- The buffer `&paramsBuf[i]`. -/
  | paramsBuf (i : Nat)
  deriving DecidableEq, Repr

/-- The pointer `NULL`. -/
def Ptr.null : Ptr := Ptr.addr 0

/-- The key handed to `enq` and `deq`. -/
inductive EnqKey where
  /-- A name captured from a literal into `paramsBuf[1]`. -/
  | name (s : List Char)
  /-- The bytes of the `cob_field` structure itself (`(char*)cobvar`). -/
  | fieldStruct (id : Nat)
  /-- The first `len` cells of a field (`cobvar->data`). -/
  | bytes (l : List Char)
  deriving DecidableEq, Repr

/-- The lock scopes `UOW` and `TASK` of `enqdeq.h`. -/
inductive LockScope where
  | UOW
  | TASK
  deriving DecidableEq, Repr

/-- A call the task makes into a collaborator outside `cobexec.c`, in program order. -/
inductive Event where
  | enq (key : EnqKey) (len nosuspend type : Int)
  | deq (key : EnqKey) (len type : Int)
  | releaseLocks (scope : LockScope)
  | getDBConnection
  | beginDBConnection
  | returnDBConnection (commit : Int)
  | syncDBConnection (commit : Int)
  | execSQLQuery (sql : List Char)
  | execSQLCmd (sql : List Char)
  | execSQL (sql : List Char)
  | malloc (length : Int)
  | sharedMalloc (length : Int)
  | free (p : Nat)
  | sharedFree (p : Nat) (length : Int)
  | dlopen (name : List Char)
  | dlclose (name : List Char)
  | globalCallCleanup
  | clearChnBufList
  deriving DecidableEq, Repr

/-- The state of one task: its thread-specific data (the `pthread_key_t` slots set up by
`execTransaction`), the globals of `cobexec.c` it works on, the client channel, and the log
of its calls into the collaborators. -/
structure Task where
  /-- What the task has written to the client channel `childfd`. -/
  out : List Char
  /-- What the client has sent and the task has not read yet. -/
  inp : List Char
  cmdbuf : List Char
  cmdState : Int
  runState : Int
  xctlState : Int
  retrieveState : Int
  /-- The 9-byte name buffer `xctlParams[0]`. -/
  progname : List Char
  /-- The slot `xctlParams[1]`: the COMMAREA field of LINK. -/
  xctlParams1 : Ptr
  /-- The address of the 150-byte EIB. -/
  eibbuf : Nat
  /-- The address of the 32768-byte communication area. -/
  commArea : Nat
  /-- The link stack `linkStack[900]`, as its 100 entries of 9 bytes. -/
  linkStack : Nat → List Char
  linkStackPtr : Int
  memParamsState : Int
  /-- The int `memParam` that `memParams[0]` points to. -/
  memParam : Int
  /-- The slots `memParams[1..9]`. -/
  memParams : Nat → Ptr
  /-- The global `paramsBuf[10][256]`. -/
  paramsBuf : Nat → List Char
  respFieldsState : Int
  /-- The slots `respFields[0]` and `respFields[1]`. -/
  respFields : Nat → Ptr
  /-- The task pool `allocMem` (0 is a null slot) and its high-water index. -/
  allocMem : Nat → Nat
  allocMemPtr : Nat
  /-- The shared pool. -/
  sharedAllocMem : Nat → Nat
  sharedAllocMemLen : Nat → Int
  sharedAllocMemPtr : Nat
  /-- The channel buffer list `chnBufList[256]` and its length. -/
  chnBufList : Nat → Nat
  chnBufListPtr : Nat
  /-- The global `condHandler[100]`: the saved context registered for a condition. -/
  condHandler : Nat → Option Nat
  /-- The `cob_field` structures of the artifact. -/
  fields : Nat → CobField
  /-- The flat memory. -/
  mem : Mem
  /-- The global running-module registry. -/
  registry : ModuleRegistry
  /-- The calls into the collaborators so far, oldest first. -/
  events : List Event

/-- How a piece of the monitor's code ends. -/
inductive Outcome (α : Type) where
  /-- It runs to its end (for a function: it returns to its caller). -/
  | ret (a : α)
  /-- It leaves through `longjmp`: to the context saved in `condHandler[resp]` (`some c`),
  or to the anchor `taskState` of the task (`none`). -/
  | jump (ctx : Option Nat) (t : Task)
  /-- It never ends: a read loop on a client channel at end of input, or a wait in
  `startModule` that no other task ends. -/
  | hang
  /-- The process exits (`exit(0)` in `segv_handler`). -/
  | exit
  /-- The C code has no defined behaviour from here on (an index outside an array, a slot
  read as a pointer of the wrong kind): the task as it is at that point.  What the task has
  written to the client before stays written. -/
  | undefined (t : Task)

/-- Sequencing: the rest runs only after a normal end. -/
def Outcome.bind {α β : Type} (o : Outcome α) (f : α → Outcome β) : Outcome β :=
  match o with
  | .ret a => f a
  | .jump c t => .jump c t
  | .hang => .hang
  | .exit => .exit
  | .undefined t => .undefined t

/-- Does the code run to its end (return to its caller)? -/
def Outcome.returns {α : Type} : Outcome α → Bool
  | .ret _ => true
  | _ => false

/-- The result of `dlopen` and `dlsym` for a program name. -/
inductive LoadResult where
  /-- `dlopen` fails: load module not found. -/
  | notFound
  /-- `dlsym` fails: the entry symbol is missing. -/
  | noSymbol
  /-- The entry of the artifact: what a call `(*loadmod)(commArea, ...)` does to the task,
  including every command the artifact issues through `execCallback`. -/
  | ok (entry : Task → Outcome Task)

/-- The collaborators of `cobexec.c` that are not under `src/`: each result may depend on
the calls made so far. -/
structure Env where
  /-- The macro `MEM_POOL_SIZE` (`config.h`, default 100). -/
  MEM_POOL_SIZE : Nat
  /-- The C library `malloc`: the address of the block, 0 when it refuses. -/
  malloc : List Event → Int → Nat
  /-- The function `sharedMalloc` of `shm/shmtpm.h`. -/
  sharedMalloc : List Event → Int → Nat
  /-- The function `enq` of `enqdeq/enqdeq.h`: negative when the resource is held by
  another task and `nosuspend` is set. -/
  enq : List Event → EnqKey → Int → Int → Int → Int
  /-- The loader: `dlopen` of the load module and `dlsym` of its entry. -/
  load : List Char → LoadResult
  /-- The function `returnDBConnection(conn, commit)` of `db/conpool.h`. -/
  returnDBConnection : List Event → Int → Int
  /-- The function `syncDBConnection(conn, commit)` of `db/conpool.h`. -/
  syncDBConnection : List Event → Int → Int
  /-- The function `execSQLQuery`: the column names and the rows, `none` for `NULL`. -/
  execSQLQuery : List Event → List Char → Option (List (List Char) × List (List (List Char)))
  /-- The function `execSQLCmd`: the command tag, `none` for `NULL`. -/
  execSQLCmd : List Event → List Char → Option (List Char)
  /-- The load module directory (`QWICS_LOADMODDIR`). -/
  loadmodDir : List Char
  /-- The text of `dlerror()` after a failed `dlsym` of the name. -/
  dlerror : List Char → List Char
  /-- The content of an uninitialised local buffer such as `hbuf[256]`. -/
  stack : CharBuf
  /-- The function `display_cobfield` of the COBOL runtime: the text it prints for a
  field. -/
  display : CobField → Mem → List Char

/-- The call `write(childfd, s, strlen(s))`. -/
def Task.write (t : Task) (s : List Char) : Task :=
  { t with out := t.out ++ s }

/-- Appending a call to the log. -/
def Task.log (t : Task) (e : Event) : Task :=
  { t with events := t.events ++ [e] }

/-- The assignment `slots[i] = p` on a table of pointers. -/
def ptrSet (slots : Nat → Ptr) (i : Nat) (p : Ptr) : Nat → Ptr :=
  fun j => if j = i then p else slots j

/-- The C library `strstr(hay, needle)`: the offset of the first occurrence. -/
def strstrIdx (hay needle : List Char) : Option Nat :=
  (List.range (hay.length + 1)).find? (fun i => needle.isPrefixOf (hay.drop i))

/-- The test `strstr(hay, needle) != NULL`. -/
def strstr (hay needle : List Char) : Bool :=
  (strstrIdx hay needle).isSome

/-- The C library `isspace`. -/
def isspace (c : Char) : Bool :=
  c = ' ' ∨ (9 ≤ c.toNat ∧ c.toNat ≤ 13)

/-- The C library `strtol(s, NULL, 10)` on a host with 64-bit `long`: white space, an
optional sign, the decimal digits; a value outside the range of `long` is replaced by
`LONG_MAX` or `LONG_MIN`. -/
def strtol (s : List Char) : Int :=
  let s1 := s.dropWhile isspace
  let v : Int := match s1 with
    | '-' :: r => - (parseDigits (r.takeWhile Char.isDigit) : Int)
    | '+' :: r => (parseDigits (r.takeWhile Char.isDigit) : Int)
    | _ => (parseDigits (s1.takeWhile Char.isDigit) : Int)
  if v > 2 ^ 63 - 1 then 2 ^ 63 - 1 else if v < -(2 ^ 63) then -(2 ^ 63) else v

/-- The C library `atoi`, which is `(int) strtol(s, NULL, 10)`: the cast keeps the low 32
bits of the value, read as a signed number. -/
def atoi (s : List Char) : Int :=
  (strtol s + 2 ^ 31) % 2 ^ 32 - 2 ^ 31

/-- The cast `(int)n` of a `size_t`. -/
def intOfSize (n : Nat) : Int :=
  if n % 2 ^ 32 < 2 ^ 31 then (n % 2 ^ 32 : Nat) else ((n % 2 ^ 32 : Nat) : Int) - 2 ^ 32

/-! ## libcob stores and `setNumericValue` (cobexec.c 158-169, 213-230) -/

/-- Modelled from the spec: `cob_put_picx` of libcob (not under `src/`), the byte copy of a
text into an alphanumeric field (spec 4.5): the text, cut to the field size, then spaces. -/
def cob_put_picx (mem : Mem) (data size : Nat) (s : List Char) : Mem :=
  memWrite mem data (s.take size ++ List.replicate (size - s.length) ' ')

/-- Modelled from the spec: `cob_put_u64_compx` of libcob (not under `src/`), the store of
a binary number of `len` bytes in big-endian order (spec 3, EIB resp: big-endian binary,
4 bytes; spec 4.8).  The value is taken modulo 2^64. -/
def cob_put_u64_compx (mem : Mem) (v : Int) (data len : Nat) : Mem :=
  memWrite mem data
    ((List.range len).map (fun i => Char.ofNat ((v % 2 ^ 64).toNat / 256 ^ (len - 1 - i) % 256)))

/-- Modelled from the spec: `cob_put_s64_comp5` of libcob (not under `src/`), the store of
a binary number in native order (spec 4.8), least significant byte first. -/
def cob_put_s64_comp5 (mem : Mem) (v : Int) (data len : Nat) : Mem :=
  memWrite mem data
    ((List.range len).map (fun i => Char.ofNat ((v % 2 ^ 64).toNat / 256 ^ i % 256)))

/-- Modelled from the spec: `cob_put_s64_comp3` of libcob (not under `src/`), the standard
packed encoding (spec 4.8): two decimal digits a byte, the sign nibble (C plus, D minus)
in the low half of the last byte. -/
def cob_put_s64_comp3 (mem : Mem) (v : Int) (data len : Nat) : Mem :=
  memWrite mem data
    ((List.range len).map (fun j =>
      let k := len - 1 - j
      if k = 0 then Char.ofNat (v.natAbs % 10 * 16 + (if v < 0 then 13 else 12))
      else Char.ofNat (v.natAbs / 10 ^ (2 * k) % 10 * 16 + v.natAbs / 10 ^ (2 * k - 1) % 10)))

/-- The function `getCobType` (on a little-endian host, `WORDS_BIGENDIAN` undefined). -/
def getCobType (f : CobField) : CobType :=
  if f.type = CobType.numericBinary then
    if f.binarySwap then CobType.numericBinary else CobType.numericComp5
  else f.type

/-- The function `setNumericValue(v, cobvar)`; `hbuf` is the content of its local buffer
`hbuf[256]` on entry. -/
def setNumericValue (hbuf : CharBuf) (v : Int) (f : CobField) (mem : Mem) : Mem :=
  let mem1 := if f.type = CobType.numeric then
      cob_put_picx mem f.data f.size (convertNumericStr (sprintf_ld v) f.digits f.scale hbuf)
    else mem
  let mem2 := if f.type = CobType.numericPacked then cob_put_s64_comp3 mem1 v f.data f.size
    else mem1
  let mem3 := if getCobType f = CobType.numericBinary then cob_put_u64_compx mem2 v f.data f.size
    else mem2
  if getCobType f = CobType.numericComp5 then cob_put_s64_comp5 mem3 v f.data f.size else mem3

/-! ## `setJmpAbend`, `abend`, `segv_handler` (cobexec.c 661-729, 3059-3070) -/

/-- The assignment `condHandler[i] = h`. -/
def handlerSet (tab : Nat → Option Nat) (i : Nat) (h : Option Nat) : Nat → Option Nat :=
  fun j => if j = i then h else tab j

/-- The function `setJmpAbend(errcond, bufVar)`: the context `bufVar` is copied into the
entry `condHandler[*errcond]` of the 100-entry table. -/
def setJmpAbend (errcond : Int) (bufVar : Nat) (t : Task) : Outcome Task :=
  if 0 ≤ errcond ∧ errcond < 100 then
    .ret { t with condHandler := handlerSet t.condHandler errcond.toNat (some bufVar) }
  else .undefined t

/-- The `switch (resp)` of `abend`: the abend code. -/
def abcode (resp : Int) : List Char :=
  if resp = 16 then "A47B".toList
  else if resp = 22 then "AEIV".toList
  else if resp = 23 then "AEIW".toList
  else if resp = 26 then "AEIZ".toList
  else if resp = 27 then "AEI0".toList
  else if resp = 28 then "AEI1".toList
  else if resp = 44 then "AEYH".toList
  else "ASRA".toList

/-- The end of `abend`: `h = condHandler[resp]`, then `longjmp(*h, 1)` or
`longjmp(taskState, 1)`. -/
def abend_longjmp (resp : Int) (t : Task) : Outcome Task :=
  if 0 ≤ resp ∧ resp < 100 then
    match t.condHandler resp.toNat with
    | some h => .jump (some h) t
    | none => .jump none t
  else .undefined t

/-- The function `abend(resp, resp2)`. -/
def abend (resp _resp2 : Int) (t : Task) : Outcome Task :=
  if t.cmdState ≠ -17 then
    -- ABEND not triggered by explicit ABEND command
    if t.respFieldsState > 0 then
      -- RESP param set, continue
      .ret t
    else
      let t1 := t.write "ABEND\n".toList
      let t2 := t1.write "ABCODE\n".toList
      let t3 := t2.write ("='".toList ++ abcode resp ++ "'\n\n".toList)
      let t4 := if t3.runState = 3 then t3.write "\nSTOP\n".toList else t3
      abend_longjmp resp t4
  else abend_longjmp resp t

/-- The function `segv_handler(SIGSEGV)`, which the task runs when it touches the address
`NULL`. -/
def segv_handler {α : Type} (t : Task) : Outcome α :=
  (abend 16 1 { t with runState := 3, respFieldsState := 0 }).bind (fun _ => .exit)

/-! ## Reading the client channel (cobexec.c 732-744) -/

/-- The loop of `readLine` on the pending input: the line and the rest of the input, or
`none` when the input ends before a newline (`read` then returns 0 for ever). -/
def readLine_loop : List Char → Nat → List Char → Option (List Char × List Char)
  | [], _, _ => none
  | c :: rest, pos, buf =>
    if c = '\n' then some (buf, rest)
    else if pos < 2047 ∧ c ≠ '\r' ∧ c ≠ APOS then readLine_loop rest (pos + 1) (buf ++ [c])
    else readLine_loop rest pos buf

/-- The function `readLine(buf, childfd)`: the line read. -/
def readLine (t : Task) : Outcome (List Char × Task) :=
  match readLine_loop t.inp 0 [] with
  | some (line, rest) => .ret (line, { t with inp := rest })
  | none => .hang

/-- The pair of lines every dialogue ends with: `resp = atoi(buf)`, `resp2 = atoi(buf)`. -/
def readResp (t : Task) : Outcome ((Int × Int) × Task) :=
  (readLine t).bind (fun r1 =>
    (readLine r1.2).bind (fun r2 => .ret ((atoi r1.1, atoi r2.1), r2.2)))

/-- A loop `while (i < n) { n = read(childfd,&c,1); if (n == 1) { ...; i++; } }`: the `n`
bytes read. -/
def readBytes (n : Nat) (t : Task) : Outcome (List Char × Task) :=
  if n ≤ t.inp.length then .ret (t.inp.take n, { t with inp := t.inp.drop n }) else .hang

/-! ## The memory pools (cobexec.c 465-563) -/

/-- The scan `for (i = 0; i < (*allocMemPtr); i++) if (allocMem[i] == NULL) break;`. -/
def firstNull (allocMem : Nat → Nat) (allocMemPtr : Nat) : Nat :=
  ((List.range allocMemPtr).find? (fun i => allocMem i = 0)).getD allocMemPtr

/-- The assignment `allocMem[i] = p`. -/
def slotPut {α : Type} (slots : Nat → α) (i : Nat) (p : α) : Nat → α :=
  fun j => if j = i then p else slots j

/-- The function `getmain(length, shared)`: the pointer returned (0 for `NULL`). -/
def getmain (env : Env) (length : Int) (shared : Bool) (t : Task) : Nat × Task :=
  if shared then
    let i := firstNull t.sharedAllocMem t.sharedAllocMemPtr
    if i < env.MEM_POOL_SIZE then
      let p := env.sharedMalloc t.events length
      let t1 := { t.log (.sharedMalloc length) with
                    sharedAllocMemLen := slotPut t.sharedAllocMemLen i length }
      if p ≠ 0 then
        (p, { t1 with sharedAllocMem := slotPut t1.sharedAllocMem i p,
                      sharedAllocMemPtr := if i = t1.sharedAllocMemPtr
                        then t1.sharedAllocMemPtr + 1 else t1.sharedAllocMemPtr })
      else (p, t1)
    else (0, t)
  else
    let i := firstNull t.allocMem t.allocMemPtr
    if i < env.MEM_POOL_SIZE then
      let p := env.malloc t.events length
      let t1 := t.log (.malloc length)
      if p ≠ 0 then
        (p, { t1 with allocMem := slotPut t1.allocMem i p,
                      allocMemPtr := if i = t1.allocMemPtr then t1.allocMemPtr + 1
                                     else t1.allocMemPtr })
      else (p, t1)
    else (0, t)

/-- The first slot below the high-water index that holds `p`. -/
def findSlot (allocMem : Nat → Nat) (allocMemPtr p : Nat) : Option Nat :=
  (List.range allocMemPtr).find? (fun i => p ≠ 0 ∧ allocMem i = p)

/-- The function `freemain(p)`: its result (0, or -1 when `p` is in neither pool). -/
def freemain (p : Nat) (t : Task) : Int × Task :=
  match findSlot t.allocMem t.allocMemPtr p with
  | some i =>
    (0, { t.log (.free p) with
            allocMem := slotPut t.allocMem i 0,
            allocMemPtr := if i = t.allocMemPtr - 1 then t.allocMemPtr - 1 else t.allocMemPtr })
  | none =>
    match findSlot t.sharedAllocMem t.sharedAllocMemPtr p with
    | some i =>
      (0, { t.log (.sharedFree p (t.sharedAllocMemLen i)) with
              sharedAllocMem := slotPut t.sharedAllocMem i 0,
              sharedAllocMemPtr := if i = t.sharedAllocMemPtr - 1 then t.sharedAllocMemPtr - 1
                                   else t.sharedAllocMemPtr })
    | none => (-1, t)

/-! ## `_execSql` (cobexec.c 566-658) -/

/-- The lines `_execSql` writes for a query result: `OK`, the number of columns, the
column names, the number of rows and the values row by row. -/
def _execSql_rows (cols : List (List Char)) (rows : List (List (List Char))) : List Char :=
  "OK\n".toList ++ (Nat.toDigits 10 cols.length ++ ['\n'])
    ++ (cols.map (fun c => c ++ ['\n'])).flatten
    ++ (Nat.toDigits 10 rows.length ++ ['\n'])
    ++ (rows.map (fun row =>
          ((List.range cols.length).map (fun j => row.getD j [] ++ ['\n'])).flatten)).flatten

/-- The function `_execSql(sql, fd, sendRes, sync)`. -/
def _execSql (env : Env) (sql : List Char) (sendRes sync : Int) (t : Task) : Task :=
  if strstr sql "BEGIN".toList then
    if sync = 0 then t.log .getDBConnection else t.log .beginDBConnection
  else if strstr sql "COMMIT".toList then
    let r := if sync = 0 then env.returnDBConnection t.events 1
             else env.syncDBConnection t.events 1
    let t1 := if sync = 0 then t.log (.returnDBConnection 1) else t.log (.syncDBConnection 1)
    if sendRes = 1 then
      if r = 0 then t1.write "ERROR\n".toList else t1.write "OK\n".toList
    else t1
  else if strstr sql "ROLLBACK".toList then
    let r := if sync = 0 then env.returnDBConnection t.events 0
             else env.syncDBConnection t.events 0
    let t1 := if sync = 0 then t.log (.returnDBConnection 0) else t.log (.syncDBConnection 0)
    if sendRes = 1 then
      if r = 0 then t1.write "ERROR\n".toList else t1.write "OK\n".toList
    else t1
  else if (strstr sql "SELECT".toList || strstr sql "FETCH".toList
            || strstr sql "select".toList || strstr sql "fetch".toList)
          && !(strstr sql "DECLARE".toList) && !(strstr sql "declare".toList) then
    let t1 := t.log (.execSQLQuery sql)
    match env.execSQLQuery t.events sql with
    | some (cols, rows) => t1.write (_execSql_rows cols rows)
    | none => t1.write "ERROR\n".toList
  else
    let t1 := t.log (.execSQLCmd sql)
    match env.execSQLCmd t.events sql with
    | none => t1.write "ERROR\n".toList
    | some r => t1.write ("OK:".toList ++ r ++ ['\n'])

/-! ## `execLoadModule` (cobexec.c 861-944) -/

/-- The path `fname` of a load module. -/
def loadModulePath (env : Env) (name : List Char) : List Char :=
  env.loadmodDir ++ "/".toList ++ name ++ ".so".toList

/-- What the argument `char *name` of `execLoadModule` points to. -/
inductive NamePtr where
  /-- A buffer of the caller that nothing the task runs writes to, holding this name: the
  argument of `execTransaction` and `execInTransaction`. -/
  | buffer (s : List Char)
  /-- The name buffer of the task, `xctlParams[0]`: the PROGRAM argument of every XCTL and
  LINK of the task is stored into it. -/
  | xctlParams0
  deriving DecidableEq, Repr

/-- The string that `name` points to while the task is in state `t`. -/
def NamePtr.read (name : NamePtr) (t : Task) : List Char :=
  match name with
  | .buffer s => s
  | .xctlParams0 => t.progname

/-- The end of `execLoadModule` after the entry has been called: `endModule(name)`, which
reads the name through the pointer as the entry has left it, the `STOP` line of the outer
dispatch, `dlclose` of the library that was opened (under the name `opened`), and
`return res` with `res = 0`. -/
def execLoadModule_finish (opened : List Char) (name : NamePtr) (mode : Int) (t : Task) :
    Outcome (Int × Task) :=
  let t1 := { t with registry := endModule t.registry (String.mk (name.read t)) }
  let t2 := if mode = 0 ∧ t1.runState < 3 then t1.write "\nSTOP\n".toList else t1
  .ret (0, t2.log (.dlclose opened))

/-- The function `execLoadModule(name, mode, parCount)` in thread mode
(`_USE_ONLY_PROCESSES_` undefined): its result `res`.  The positional parameters of the
outer call live in `paramList` and do not change what the monitor does.  The string at
`name` is read when the path is built, for `dlsym` and in `startModule` (the name `opened`
below), and once more in `endModule` after the entry has run. -/
def execLoadModule (env : Env) (name : NamePtr) (mode _parCount : Int) (t : Task) :
    Outcome (Int × Task) :=
  let opened := name.read t
  let t0 := t.log (.dlopen opened)
  match env.load opened with
  | .notFound =>
    let t1 := if mode = 0 then
        t0.write ("ERROR: Load module ".toList ++ loadModulePath env opened
          ++ " not found!\n".toList)
      else t0
    .ret (-1, t1)
  | .noSymbol =>
    let t1 := if mode = 0 then t0.write ("ERROR: ".toList ++ env.dlerror opened ++ ['\n'])
      else t0
    -- res = -2; if (mode == 1) abend(27,1);
    (if mode = 1 then abend 27 1 t1 else .ret t1).bind
      (fun t2 => .ret (-2, t2.log (.dlclose opened)))
  | .ok entry =>
    let t1 := if mode = 0 then t0.write "OK\n".toList else t0
    match startModule t1.registry (String.mk opened) with
    | none => .hang
    | some reg =>
      let t2 := { t1 with registry := reg }
      if mode = 0 then
        -- if (setjmp(taskState) == 0) { (*loadmod)(commArea, ...); }
        match entry t2 with
        | .ret t3 => execLoadModule_finish opened name mode t3
        | .jump none t3 => execLoadModule_finish opened name mode t3
        | .jump (some c) t3 => .jump (some c) t3
        | .hang => .hang
        | .exit => .exit
        | .undefined t3 => .undefined t3
      else
        (entry t2).bind (execLoadModule_finish opened name mode)

/-! ## `execCallback`: the END-EXEC commit of a CICS command (cobexec.c 1481-1968) -/

/-- The state inside the END-EXEC branch: the task and the locals `resp`, `resp2`. -/
structure EndExec where
  t : Task
  resp : Int
  resp2 : Int

/-- The cast `(cob_field*)p` followed by a read of the structure: the field for a field
pointer, a segmentation fault for `NULL`, undefined for any other slot content. -/
def derefField {α : Type} (t : Task) (p : Ptr) (k : CobField → Outcome α) : Outcome α :=
  match p with
  | .field id => k (t.fields id)
  | .addr 0 => segv_handler t
  | _ => .undefined t

/-- The statement `if (resp > 0) { abend(resp,resp2); }`. -/
def abendIfResp (s : EndExec) : Outcome EndExec :=
  if s.resp > 0 then (abend s.resp s.resp2 s.t).bind (fun t1 => .ret { s with t := t1 })
  else .ret s

/-- The lines `readLine; resp = atoi(buf); readLine; resp2 = atoi(buf);`. -/
def readRespInto (s : EndExec) : Outcome EndExec :=
  (readResp s.t).bind (fun r => .ret { t := r.2, resp := r.1.1, resp2 := r.1.2 })

/-- The length `l` used by the data transfers: `len` when `0 <= len <= size`, else `size`. -/
def clampLen (len : Int) (size : Nat) : Nat :=
  if len ≥ 0 ∧ len ≤ size then len.toNat else size

/-- RECEIVE (tag -2), cobexec.c 1487-1520. -/
def endExec_RECEIVE (s : EndExec) : Outcome EndExec :=
  if s.t.cmdState = -2 ∧ s.t.memParamsState ≥ 1 then
    derefField s.t (s.t.memParams 1) (fun cobvar =>
      let l := clampLen s.t.memParam cobvar.size
      (readBytes l s.t).bind (fun r1 =>
        let t1 := { r1.2 with mem := memWrite r1.2.mem cobvar.data r1.1 }
        (readBytes (cobvar.size - l) t1).bind (fun r2 =>
          (readRespInto { s with t := r2.2 }).bind abendIfResp)))
  else .ret s

/-- XCTL (tag -3), cobexec.c 1521-1527. -/
def endExec_XCTL (env : Env) (s : EndExec) : Outcome EndExec :=
  if s.t.cmdState = -3 ∧ s.t.xctlState ≥ 1 then
    let t1 := { s.t with xctlState := 0, cmdState := 0 }
    (execLoadModule env .xctlParams0 1 0 t1).bind (fun r => .ret { s with t := r.2 })
  else .ret s

/-- RETRIEVE (tag -4), cobexec.c 1528-1540. -/
def endExec_RETRIEVE (s : EndExec) : Outcome EndExec :=
  if s.t.cmdState = -4 ∧ s.t.retrieveState ≥ 1 then
    (readRespInto { s with t := { s.t with retrieveState := 0 } }).bind abendIfResp
  else .ret s

/-- The part of the LINK commit under `if (resp == 0)`: the resp binding is saved in
locals, the target is called in mode 1, the binding and the LINK tag are restored, and the
communication area is copied back into the COMMAREA field. -/
def endExec_LINK_call (env : Env) (s : EndExec) : Outcome EndExec :=
  let respFieldsStateLocal := s.t.respFieldsState
  let respFieldsLocal0 := s.t.respFields 0
  let respFieldsLocal1 := s.t.respFields 1
  let cobvar := s.t.xctlParams1
  let commArea := s.t.commArea
  (execLoadModule env .xctlParams0 1 0 s.t).bind (fun r =>
    let t1 := { r.2 with
      respFieldsState := respFieldsStateLocal,
      respFields := ptrSet (ptrSet r.2.respFields 0 respFieldsLocal0) 1 respFieldsLocal1,
      cmdState := -5 }
    let s1 : EndExec := if r.1 < 0 then { t := t1, resp := 27, resp2 := 3 } else { s with t := t1 }
    if s1.resp = 0 ∧ cobvar ≠ Ptr.null then
      -- for (int i = 0; i < cobvar->size; i++) cobvar->data[i] = commArea[i];
      derefField t1 cobvar (fun f =>
        .ret { s1 with t := { t1 with mem := copyCells t1.mem f.data commArea f.size } })
    else .ret s1)

/-- The push of the LINK commit: `sprintf(&(linkStack[9*(*linkStackPtr)]),"%s",
xctlParams[0]); if ((*linkStackPtr) < 99) (*linkStackPtr)++;`. -/
def endExec_LINK_push (t : Task) : Task :=
  let t1 := { t with linkStack := slotPut t.linkStack t.linkStackPtr.toNat t.progname }
  if t1.linkStackPtr < 99 then { t1 with linkStackPtr := t1.linkStackPtr + 1 } else t1

/-- The check of the COMMAREA field in the LINK commit: a field of more than 32768 bytes
(or of a size that is negative as an `int`) gives resp 22 and resp2 11. -/
def endExec_LINK_check (s : EndExec) : Outcome EndExec :=
  if s.t.xctlParams1 ≠ Ptr.null then
    derefField s.t s.t.xctlParams1 (fun cobvar =>
      if intOfSize cobvar.size < 0 ∨ cobvar.size > 32768 then
        .ret { s with resp := 22, resp2 := 11 }
      else .ret s)
  else .ret s

/-- The pop of the LINK commit: `if ((*linkStackPtr) > 0) (*linkStackPtr)--;`. -/
def endExec_LINK_pop (s : EndExec) : EndExec :=
  if s.t.linkStackPtr > 0 then { s with t := { s.t with linkStackPtr := s.t.linkStackPtr - 1 } }
  else s

/-- LINK (tag -5), cobexec.c 1541-1585. -/
def endExec_LINK (env : Env) (s : EndExec) : Outcome EndExec :=
  if s.t.cmdState = -5 ∧ s.t.xctlState ≥ 1 then
    let t1 := { s.t with xctlState := 0, cmdState := 0 }
    -- the entry linkStack[9*(*linkStackPtr)] lies inside linkStack[900]
    if 0 ≤ t1.linkStackPtr ∧ t1.linkStackPtr < 100 then
      (endExec_LINK_check { s with t := endExec_LINK_push t1 }).bind (fun s1 =>
        (if s1.resp = 0 then endExec_LINK_call env s1 else .ret s1).bind (fun s2 =>
          abendIfResp (endExec_LINK_pop s2)))
    else .undefined t1
  else .ret s

/-- GETMAIN (tag -6), cobexec.c 1586-1604. -/
def endExec_GETMAIN (env : Env) (s : EndExec) : Outcome EndExec :=
  if s.t.cmdState = -6 ∧ s.t.memParamsState ≥ 1 then
    derefField s.t (s.t.memParams 1) (fun cobvar =>
      let s1 : EndExec := if s.t.memParam < 1 then { s with resp := 22 } else s
      let g := getmain env s.t.memParam (decide (s.t.memParams 2 ≠ Ptr.null)) s.t
      -- (*((unsigned char**)cobvar->data)) = getmain(...)
      if cobvar.data = 0 then segv_handler g.2
      else
        let t1 := { g.2 with mem := storePtr g.2.mem cobvar.data g.1 }
        -- if (cobvar->data == NULL) resp = 22;  (the data pointer is not NULL here)
        (abendIfResp { s1 with t := t1 }).bind (fun s2 =>
          if s2.t.memParams 3 ≠ Ptr.null then
            -- INITIMG
            match s2.t.memParams 3 with
            | .paramsBuf i =>
              if s2.t.memParam ≥ 1 then
                if g.1 = 0 then segv_handler s2.t
                else
                  let img := List.replicate s2.t.memParam.toNat ((s2.t.paramsBuf i).headD NUL)
                  .ret { s2 with t := { s2.t with mem := memWrite s2.t.mem g.1 img } }
              else .ret s2
            | _ => .undefined s2.t
          else .ret s2))
  else .ret s

/-- FREEMAIN (tag -7), cobexec.c 1605-1611. -/
def endExec_FREEMAIN (s : EndExec) : Outcome EndExec :=
  if s.t.cmdState = -7 ∧ s.t.memParamsState ≥ 1 then
    let r : Int × Task := match s.t.memParams 1 with
      | .addr a => freemain a s.t
      | _ => (-1, s.t)
    if r.1 < 0 then
      (abend 16 1 r.2).bind (fun t1 => .ret { t := t1, resp := 16, resp2 := 1 })
    else .ret { s with t := r.2 }
  else .ret s

/-- The data a PUT, WRITEQ or START sends: `l` cells of the field, then `len - l` zero
bytes when `l < len`. -/
def sendData (t : Task) (cobvar : CobField) (len : Int) (pad : Bool) : Task :=
  let l := clampLen len cobvar.size
  let t1 := t.write (memRead t.mem cobvar.data l)
  if pad ∧ (l : Int) < len then t1.write (List.replicate (len.toNat - l) NUL) else t1

/-- PUT (tag -9), cobexec.c 1612-1636. -/
def endExec_PUT (s : EndExec) : Outcome EndExec :=
  if s.t.cmdState = -9 ∧ s.t.memParamsState ≥ 1 then
    derefField s.t (s.t.memParams 1) (fun cobvar =>
      (readRespInto { s with t := sendData s.t cobvar s.t.memParam true }).bind (fun s1 =>
        .ret { s1 with t := (s1.t.write ['\n']).write ['\n'] }))
  else .ret s

/-- The function `getNextChnBuf(size)` (cobexec.c 127-137). -/
def getNextChnBuf (env : Env) (size : Int) (t : Task) : Nat × Task :=
  if t.chnBufListPtr < 256 then
    let p := env.malloc t.events size
    (p, { t.log (.malloc size) with
            chnBufList := slotPut t.chnBufList t.chnBufListPtr p,
            chnBufListPtr := t.chnBufListPtr + 1 })
  else (0, t)

/-- The conversion of an `int` to `size_t`. -/
def sizeOfInt (n : Int) : Nat := (n % 2 ^ 64).toNat

/-- The locals of the GET commit: `len`, the receiving area `cobvar` (its size and data
address, `none` for `NULL`) and the data pointer of the local field `dummy`. -/
structure GetLocals where
  len : Int
  cobvar : Option (Nat × Nat)
  dummyData : Nat

/-- GET (tag -10), cobexec.c 1637-1699. -/
def endExec_GET (env : Env) (s : EndExec) : Outcome EndExec :=
  if s.t.cmdState = -10 ∧ s.t.memParamsState ≥ 1 then
    -- if (memParams[1] != NULL) cobvar = (cob_field*)memParams[1];
    let start : Outcome GetLocals :=
      if s.t.memParams 1 ≠ Ptr.null then
        derefField s.t (s.t.memParams 1) (fun f =>
          .ret { len := s.t.memParam, cobvar := some (f.size, f.data), dummyData := 0 })
      else .ret { len := s.t.memParam, cobvar := none, dummyData := 0 }
    start.bind (fun g0 =>
      -- SET mode
      let setMode : Outcome (GetLocals × Task) :=
        if s.t.memParams 2 ≠ Ptr.null then
          (readLine s.t).bind (fun r =>
            derefField r.2 (r.2.memParams 2) (fun f =>
              let len := atoi r.1
              let b := getNextChnBuf env len r.2
              .ret ({ len := len, cobvar := some (sizeOfInt len, b.1), dummyData := b.1 },
                    { b.2 with mem := storePtr b.2.mem f.data b.1 })))
        else .ret (g0, s.t)
      setMode.bind (fun m =>
        -- NODATA mode
        let noData : Outcome (GetLocals × Task) :=
          if m.2.memParams 4 ≠ Ptr.null then
            (readLine m.2).bind (fun r =>
              .ret ({ len := atoi r.1, cobvar := some (sizeOfInt (atoi r.1), m.1.dummyData),
                      dummyData := m.1.dummyData }, r.2))
          else .ret m
        noData.bind (fun n =>
          let l : Nat := match n.1.cobvar with
            | some a => clampLen n.1.len a.1
            | none => 0
          let flen : Outcome Task :=
            if n.2.memParams 3 ≠ Ptr.null then
              derefField n.2 (n.2.memParams 3) (fun f =>
                if f.data ≠ 0 then
                  .ret { n.2 with mem := setNumericValue env.stack l f n.2.mem }
                else .ret n.2)
            else .ret n.2
          flen.bind (fun t1 =>
            let l1 : Nat := if t1.memParams 4 ≠ Ptr.null then 0 else l
            let len1 : Int := if t1.memParams 4 ≠ Ptr.null then 0 else n.1.len
            (readBytes l1 t1).bind (fun r1 =>
              let t2 := match n.1.cobvar with
                | some a => { r1.2 with mem := memWrite r1.2.mem a.2 r1.1 }
                | none => r1.2
              (readBytes (len1.toNat - l1) t2).bind (fun r2 =>
                readRespInto { s with t := r2.2 }))))))
  else .ret s

/-- The key of an ENQ or DEQ without a positive LENGTH: `(char*)cobvar`. -/
def enqKeyOfSlot (t : Task) (p : Ptr) : Outcome EnqKey :=
  match p with
  | .paramsBuf i => .ret (.name (t.paramsBuf i))
  | .field id => .ret (.fieldStruct id)
  | .addr 0 => segv_handler t
  | .addr _ => .undefined t

/-- The key of an ENQ or DEQ with a positive LENGTH: `(char*)cobvar->data` and `len`. -/
def enqKeyOfData (t : Task) (p : Ptr) (len : Int) : Outcome EnqKey :=
  match p with
  | .field id => .ret (.bytes (memRead t.mem (t.fields id).data len.toNat))
  | .addr 0 => segv_handler t
  | _ => .undefined t

/-- The flag test `((int)memParams[i] == 1) ? 1 : 0`. -/
def flagOf (p : Ptr) : Int := if p = Ptr.addr 1 then 1 else 0

/-- ENQ (tag -11), cobexec.c 1700-1718. -/
def endExec_ENQ (env : Env) (s : EndExec) : Outcome EndExec :=
  if s.t.cmdState = -11 ∧ s.t.memParamsState ≥ 1 then
    let len := s.t.memParam
    let type := flagOf (s.t.memParams 4)
    let nosuspend := flagOf (s.t.memParams 2)
    if len ≤ 0 then
      (enqKeyOfSlot s.t (s.t.memParams 1)).bind (fun key =>
        .ret { s with t := s.t.log (.enq key 0 nosuspend type) })
    else if len > 255 then .ret { s with resp := 22, resp2 := 1 }
    else
      (enqKeyOfData s.t (s.t.memParams 1) len).bind (fun key =>
        let r := env.enq s.t.events key len nosuspend type
        let t1 := s.t.log (.enq key len nosuspend type)
        if r < 0 then .ret { s with t := t1, resp := 55 } else .ret { s with t := t1 })
  else .ret s

/-- DEQ (tag -12), cobexec.c 1719-1733. -/
def endExec_DEQ (s : EndExec) : Outcome EndExec :=
  if s.t.cmdState = -12 ∧ s.t.memParamsState ≥ 1 then
    let len := s.t.memParam
    let type := flagOf (s.t.memParams 4)
    if len ≤ 0 then
      (enqKeyOfSlot s.t (s.t.memParams 1)).bind (fun key =>
        .ret { s with t := s.t.log (.deq key 0 type) })
    else if len > 255 then .ret { s with resp := 22, resp2 := 1 }
    else
      (enqKeyOfData s.t (s.t.memParams 1) len).bind (fun key =>
        .ret { s with t := s.t.log (.deq key len type) })
  else .ret s

/-- The inner read loop of the SYNCPOINT dialogue: one line (a quote is kept). -/
def syncpoint_line : List Char → Nat → List Char → Option (List Char × List Char)
  | [], _, _ => none
  | c :: rest, pos, buf =>
    if c = '\n' then some (buf, rest)
    else if pos < 2047 ∧ c ≠ '\r' then syncpoint_line rest (pos + 1) (buf ++ [c])
    else syncpoint_line rest pos buf

/-- The bytes of the local `buf[2048]` after the read loop has stored a line and its NUL
(`buf[pos] = 0x00`): the bytes behind the NUL keep what they held. -/
def syncpoint_store (bytes : CharBuf) (line : List Char) : CharBuf :=
  fun i => if i < line.length then line.getD i NUL
           else if i = line.length then NUL else bytes i

/-- The loop `while (strstr(buf,"END-SYNCPOINT") == NULL)` of the SYNCPOINT commit, from
given bytes of `buf[2048]`: the line in `buf` when the loop ends.  The first argument
bounds the lines left to read.  The statement handed to `_execSql` is the C string at
`cmd + 4`, four bytes behind the match of `sql`: the rest of the line, or, for a line that
ends with `sql`, the bytes that lie behind the NUL of the line, up to the next NUL in the
buffer. -/
def syncpoint_loopFrom (env : Env) : Nat → CharBuf → Task → Outcome (List Char × Task)
  | 0, _, _ => .hang
  | n + 1, bytes, t =>
    match syncpoint_line t.inp 0 [] with
    | none => .hang
    | some (buf, rest) =>
      let bytes1 := syncpoint_store bytes buf
      let t1 := { t with inp := rest }
      let t2 := if buf.length > 0 then
          match strstrIdx buf "sql".toList with
          | some k => _execSql env (cstrFrom bytes1 (k + 4) (2048 - (k + 4))) 1 1 t1
          | none => t1
        else t1
      if strstr buf "END-SYNCPOINT".toList then .ret (buf, t2)
      else syncpoint_loopFrom env n bytes1 t2

/-- The loop of the SYNCPOINT commit after `char buf[2048]; buf[0] = 0x00;`: the other
bytes of the local are whatever the stack holds. -/
def syncpoint_loop (env : Env) (n : Nat) (t : Task) : Outcome (List Char × Task) :=
  syncpoint_loopFrom env n (bufSet env.stack 0 NUL) t

/-- SYNCPOINT (tag -13), cobexec.c 1734-1764. -/
def endExec_SYNCPOINT (env : Env) (s : EndExec) : Outcome EndExec :=
  if s.t.cmdState = -13 then
    (syncpoint_loop env (s.t.inp.length + 1) s.t).bind (fun r =>
      let t1 := r.2.log (.releaseLocks .UOW)
      if strstr r.1 "ROLLBACK".toList ∧ t1.memParamsState = 0 then
        let s1 : EndExec := if t1.memParamsState = 0 then { s with t := t1, resp := 82 }
          else { s with t := t1 }
        (abend s1.resp s1.resp2 s1.t).bind (fun t2 => .ret { s1 with t := t2 })
      else .ret { s with t := t1 })
  else .ret s

/-- The store of the ITEM number of WRITEQ and READQ into `memParams[3]`. -/
def storeItem (t : Task) (item : Int) : Outcome Task :=
  if t.memParams 3 ≠ Ptr.null then
    derefField t (t.memParams 3) (fun f =>
      let mem1 := if getCobType f = CobType.numericBinary
        then cob_put_u64_compx t.mem item f.data 2 else t.mem
      let mem2 := if getCobType f = CobType.numericComp5
        then cob_put_s64_comp5 mem1 item f.data 2 else mem1
      .ret { t with mem := mem2 })
  else .ret t

/-- WRITEQ (tag -14), cobexec.c 1765-1802. -/
def endExec_WRITEQ (s : EndExec) : Outcome EndExec :=
  if s.t.cmdState = -14 ∧ s.t.memParamsState ≥ 1 then
    derefField s.t (s.t.memParams 1) (fun cobvar =>
      (readLine (sendData s.t cobvar s.t.memParam true)).bind (fun r =>
        (storeItem r.2 (atoi r.1)).bind (fun t1 =>
          (readRespInto { s with t := t1 }).bind (fun s1 =>
            abendIfResp { s1 with t := (s1.t.write ['\n']).write ['\n'] }))))
  else .ret s

/-- READQ (tag -15), cobexec.c 1803-1850. -/
def endExec_READQ (s : EndExec) : Outcome EndExec :=
  if s.t.cmdState = -15 ∧ s.t.memParamsState ≥ 1 then
    derefField s.t (s.t.memParams 1) (fun cobvar =>
      let len := s.t.memParam
      let l := clampLen len cobvar.size
      (readBytes l s.t).bind (fun r1 =>
        let t1 := { r1.2 with mem := memWrite r1.2.mem cobvar.data r1.1 }
        (readBytes (len.toNat - l) t1).bind (fun r2 =>
          (readLine r2.2).bind (fun r3 =>
            (storeItem r3.2 (atoi r3.1)).bind (fun t2 =>
              (readRespInto { s with t := t2 }).bind (fun s1 =>
                if s1.resp > 0 then
                  (abend s1.resp s1.resp2 s1.t).bind (fun t3 =>
                    let fill := if cobvar.type = CobType.alphanumeric then ' ' else NUL
                    .ret { s1 with t := { t3 with
                      mem := memWrite t3.mem cobvar.data (List.replicate cobvar.size fill) } })
                else .ret s1))))))
  else .ret s

/-- DELETEQ (tag -16), cobexec.c 1851-1857. -/
def endExec_DELETEQ (s : EndExec) : Outcome EndExec :=
  if s.t.cmdState = -16 then readRespInto s else .ret s

/-- ABEND (tag -17), cobexec.c 1858-1860. -/
def endExec_ABEND (s : EndExec) : Outcome EndExec :=
  if s.t.cmdState = -17 then
    (abend s.resp s.resp2 s.t).bind (fun t1 => .ret { s with t := t1 })
  else .ret s

/-- ASKTIME, INQUIRE, ASSIGN, FORMATTIME (tag -18), cobexec.c 1861-1867. -/
def endExec_READONLY (s : EndExec) : Outcome EndExec :=
  if s.t.cmdState = -18 then readRespInto s else .ret s

/-- START, CANCEL (tag -19), cobexec.c 1868-1890. -/
def endExec_START (s : EndExec) : Outcome EndExec :=
  if s.t.cmdState = -19 then
    let sent : Outcome Task :=
      if s.t.memParams 1 ≠ Ptr.null then
        derefField s.t (s.t.memParams 1) (fun cobvar =>
          .ret (sendData s.t cobvar s.t.memParam false))
      else .ret s.t
    sent.bind (fun t1 => (readRespInto { s with t := t1 }).bind abendIfResp)
  else .ret s

/-- SOAPFAULT (tag -21), cobexec.c 1891-1900. -/
def endExec_SOAPFAULT (s : EndExec) : Outcome EndExec :=
  if s.t.cmdState = -21 then (readRespInto s).bind abendIfResp else .ret s

/-- INVOKE (tag -22), cobexec.c 1901-1910. -/
def endExec_INVOKE (s : EndExec) : Outcome EndExec :=
  if s.t.cmdState = -22 then (readRespInto s).bind abendIfResp else .ret s

/-- One answer of QUERY SECURITY: a line is read and stored into the field of the slot. -/
def queryAnswer (env : Env) (slot : Nat) (t : Task) : Outcome Task :=
  (readLine t).bind (fun r =>
    if r.2.memParams slot ≠ Ptr.null then
      derefField r.2 (r.2.memParams slot) (fun f =>
        if f.data ≠ 0 then
          .ret { r.2 with mem := setNumericValue env.stack (atoi r.1) f r.2.mem }
        else .ret r.2)
    else .ret r.2)

/-- QUERY (tag -23), cobexec.c 1911-1952. -/
def endExec_QUERY (env : Env) (s : EndExec) : Outcome EndExec :=
  if s.t.cmdState = -23 then
    (queryAnswer env 1 s.t).bind (fun t1 =>
      (queryAnswer env 2 t1).bind (fun t2 =>
        (queryAnswer env 3 t2).bind (fun t3 =>
          (queryAnswer env 4 t3).bind (fun t4 =>
            (readRespInto { s with t := t4 }).bind abendIfResp))))
  else .ret s

/-- The call `setNumericValue(v, (cob_field*)respFields[i])`. -/
def setRespField (env : Env) (v : Int) (i : Nat) (t : Task) : Outcome Task :=
  derefField t (t.respFields i) (fun f =>
    .ret { t with mem := setNumericValue env.stack v f t.mem })

/-- The end of the END-EXEC branch, cobexec.c 1954-1967: the EIB receives resp and resp2,
the bound RESP fields are set, the command state and the resp binding are reset, and the
callback returns 1.  The stores go through the local `eibbuf`, which the callback read
from the key `eibbufKey` when it was entered (cobexec.c 957): a program called by the
commit that binds another EIB block does not change it. -/
def endExec_finish (env : Env) (eibbuf : Nat) (s : EndExec) : Outcome Task :=
  -- SET EIBRESP and EIBRESP2
  let mem1 := cob_put_u64_compx s.t.mem s.resp (eibbuf + 76) 4
  let mem2 := cob_put_u64_compx mem1 s.resp2 (eibbuf + 80) 4
  let t1 : Task := { s.t with mem := mem2 }
  let o1 : Outcome Task :=
    if t1.respFieldsState = 1 then setRespField env s.resp 0 t1 else .ret t1
  o1.bind (fun t2 =>
    let o2 : Outcome Task :=
      if t2.respFieldsState = 2 then
        (setRespField env s.resp 0 t2).bind (fun t3 => setRespField env s.resp 1 t3)
      else .ret t2
    o2.bind (fun t4 => .ret { t4 with cmdState := 0, respFieldsState := 0 }))

/-- The branch `if (strstr(cmd,"END-EXEC"))` of `execCallback` for a CICS command
(`cmdState < 0`), cobexec.c 1481-1968: the commit of the command. -/
def execCallback_endExec (env : Env) (t : Task) : Outcome Task :=
  -- char *eibbuf = (char*)pthread_getspecific(eibbufKey);  (at the entry of the callback)
  let eibbuf := t.eibbuf
  -- int resp = 0; int resp2 = 0; cmdbuf[0] = 0x00; outputVars[0] = NULL; write "\n"
  let s0 : EndExec := { t := { t with cmdbuf := [] }.write ['\n'], resp := 0, resp2 := 0 }
  (endExec_RECEIVE s0).bind (fun s1 =>
  (endExec_XCTL env s1).bind (fun s2 =>
  (endExec_RETRIEVE s2).bind (fun s3 =>
  (endExec_LINK env s3).bind (fun s4 =>
  (endExec_GETMAIN env s4).bind (fun s5 =>
  (endExec_FREEMAIN s5).bind (fun s6 =>
  (endExec_PUT s6).bind (fun s7 =>
  (endExec_GET env s7).bind (fun s8 =>
  (endExec_ENQ env s8).bind (fun s9 =>
  (endExec_DEQ s9).bind (fun s10 =>
  (endExec_SYNCPOINT env s10).bind (fun s11 =>
  (endExec_WRITEQ s11).bind (fun s12 =>
  (endExec_READQ s12).bind (fun s13 =>
  (endExec_DELETEQ s13).bind (fun s14 =>
  (endExec_ABEND s14).bind (fun s15 =>
  (endExec_READONLY s15).bind (fun s16 =>
  (endExec_START s16).bind (fun s17 =>
  (endExec_SOAPFAULT s17).bind (fun s18 =>
  (endExec_INVOKE s18).bind (fun s19 =>
  (endExec_QUERY env s19).bind (fun s20 =>
  endExec_finish env eibbuf s20))))))))))))))))))))

/-! ## `execCallback`: the tokens that bind the resp fields and the COMMAREA of LINK -/

/-- The handling of NOHANDLE, RESP and RESP2 (cobexec.c 2003-2018) for a token `cmd` that
comes with the field pointer `var`. -/
def execCallback_respBinding (cmd : List Char) (var : Ptr) (t : Task) : Outcome Task :=
  let t1 := if cmd = "NOHANDLE".toList ∧ t.respFieldsState = 0
    then { t with respFieldsState := 3 } else t
  if var ≠ Ptr.null then
    derefField t1 var (fun cobvar =>
      let t2 := if cmd = "RESP".toList then
          { t1 with mem := cob_put_u64_compx t1.mem 0 cobvar.data 4,
                    respFields := ptrSet t1.respFields 0 var,
                    respFieldsState := 1 }
        else t1
      let t3 := if cmd = "RESP2".toList then
          { t2 with mem := cob_put_u64_compx t2.mem 0 cobvar.data 4,
                    respFields := ptrSet t2.respFields 1 var,
                    respFieldsState := 2 }
        else t2
      .ret t3)
  else .ret t1

/-- The capture of the COMMAREA field of LINK (cobexec.c 2567-2575) for a token that comes
with the field pointer `var`. -/
def execCallback_linkCommarea (var : Ptr) (t : Task) : Outcome Task :=
  if t.cmdState = -5 ∧ t.xctlState = 2 then
    derefField t var (fun cobvar =>
      let t1 := { t with xctlParams1 := var }
      let t2 := if intOfSize cobvar.size ≥ 0 ∧ cobvar.size < 32768 then
          { t1 with mem := copyCells t1.mem t1.commArea cobvar.data cobvar.size }
        else t1
      .ret { t2 with xctlState := 10 })
  else .ret t

/-! ## Sample tasks, used to evaluate the commit on concrete inputs -/

/-- A test on the task a piece of code returns; false when it does not return. -/
def Outcome.check {α : Type} (o : Outcome α) (p : α → Bool) : Bool :=
  match o with
  | .ret a => p a
  | _ => false

/-- A test on the task with which a piece of code leaves through `longjmp` to the anchor
`taskState`; false when it ends in another way. -/
def Outcome.checkAnchor {α : Type} (o : Outcome α) (p : Task → Bool) : Bool :=
  match o with
  | .jump none t => p t
  | _ => false

/-- The task a piece of code returns, or `d` when it does not return. -/
def Outcome.getD {α : Type} (o : Outcome α) (d : α) : α :=
  match o with
  | .ret a => a
  | _ => d

/-- A task as `execTransaction` sets it up (cobexec.c 3152-3217): idle, nothing bound, the
EIB at address 1000 and the communication area at address 40000, with two binary fields
(numbers 1 and 2, four bytes each, at 3000 and 3004) for RESP and RESP2 and one
alphanumeric field (number 0, at 2000) of the given size. -/
def Task.start (size0 : Nat) : Task :=
  { out := [], inp := [], cmdbuf := [], cmdState := 0, runState := 0, xctlState := 0,
    retrieveState := 0, progname := [], xctlParams1 := Ptr.null, eibbuf := 1000,
    commArea := 40000, linkStack := fun _ => [], linkStackPtr := 0, memParamsState := 0,
    memParam := 0, memParams := fun _ => Ptr.null, paramsBuf := fun _ => [],
    respFieldsState := 0, respFields := fun _ => Ptr.null, allocMem := fun _ => 0,
    allocMemPtr := 0, sharedAllocMem := fun _ => 0, sharedAllocMemLen := fun _ => 0,
    sharedAllocMemPtr := 0, chnBufList := fun _ => 0, chnBufListPtr := 0,
    condHandler := fun _ => none,
    fields := fun id =>
      if id = 0 then
        { size := size0, data := 2000, type := .alphanumeric, digits := 0, scale := 0,
          binarySwap := false }
      else
        { size := 4, data := 3000 + 4 * (id - 1), type := .numericBinary, digits := 9,
          scale := 0, binarySwap := true },
    mem := fun a => if 2000 ≤ a ∧ a < 3000 then 'N' else if 40000 ≤ a then 'O' else NUL,
    registry := ModuleRegistry.empty, events := [] }

/-- Collaborators for the sample tasks: every `enq` reports a conflict, `malloc` hands out
the address 5000, the loader knows the one program `entry`, and a field is displayed as
its bytes. -/
def Env.sample (entry : Task → Outcome Task) : Env :=
  { MEM_POOL_SIZE := 100, malloc := fun _ _ => 5000, sharedMalloc := fun _ _ => 6000,
    enq := fun _ _ _ _ _ => -1, load := fun _ => .ok entry,
    returnDBConnection := fun _ _ => 1, syncDBConnection := fun _ _ => 1,
    execSQLQuery := fun _ _ => none, execSQLCmd := fun _ _ => none,
    loadmodDir := "../loadmod".toList, dlerror := fun _ => [], stack := fun _ => NUL,
    display := fun f mem => memRead mem f.data f.size }

/-- The state at the END-EXEC of `ENQ RESOURCE(field 0) LENGTH(2) NOSUSPEND`, no RESP
field bound and no NOHANDLE. -/
def Task.enqNosuspend : Task :=
  { Task.start 2 with
    cmdState := -11, memParamsState := 10, memParam := 2,
    memParams := fun i => if i = 1 then .field 0 else if i = 2 then .addr 1 else Ptr.null }

/-- The state at the END-EXEC of a DELETEQ, no RESP field bound and no NOHANDLE; the client
answers resp 44 and resp2 0. -/
def Task.deleteq : Task :=
  { Task.start 2 with cmdState := -16, inp := "44\n0\n".toList }

/-- The state at the END-EXEC of a SOAPFAULT, no RESP field bound and no NOHANDLE; the
client answers resp 44 and resp2 0. -/
def Task.soapfault : Task :=
  { Task.start 2 with cmdState := -21, inp := "44\n0\n".toList }

/-- The state at the END-EXEC of `FREEMAIN DATA(...)` for the address 7000, which is in no
pool, with RESP bound to field 1 and RESP2 bound to field 2. -/
def Task.freemainBound : Task :=
  { Task.start 2 with
    cmdState := -7, memParamsState := 10,
    memParams := fun i => if i = 1 then .addr 7000 else Ptr.null,
    respFieldsState := 2,
    respFields := fun i => if i = 0 then .field 1 else .field 2 }

/-- A linked program that issues commands of its own (each resets the resp binding and
ends in the idle command state) and leaves `RESULT!!` in the communication area. -/
def subProgram (t : Task) : Outcome Task :=
  .ret { t with
    cmdState := 0, respFieldsState := 0, respFields := fun _ => Ptr.null,
    out := t.out ++ "SEND\n\n".toList,
    mem := memWrite t.mem t.commArea "RESULT!!".toList }

/-- The state at the END-EXEC of `LINK PROGRAM('SUB1') COMMAREA(field 0)` with a field of
8 bytes and RESP bound to field 1. -/
def Task.linkBound : Task :=
  { Task.start 8 with
    cmdState := -5, xctlState := 10, progname := "SUB1".toList, xctlParams1 := .field 0,
    respFieldsState := 1,
    respFields := fun i => if i = 0 then .field 1 else Ptr.null }

/-- The task after that LINK commit. -/
def Task.linkBoundDone : Task :=
  (execCallback_endExec (Env.sample subProgram) Task.linkBound).getD Task.linkBound

/-- The state when the COMMAREA field token of a LINK arrives, for a field of 32768
bytes. -/
def Task.linkCommarea32768 : Task :=
  { Task.start 32768 with cmdState := -5, xctlState := 2, progname := "SUB1".toList }

/-- The state at the END-EXEC of `XCTL PROGRAM('SUB1')`. -/
def Task.xctl : Task :=
  { Task.start 8 with cmdState := -3, xctlState := 10, progname := "SUB1".toList }

/-- The task after that XCTL commit. -/
def Task.xctlDone : Task :=
  (execCallback_endExec (Env.sample subProgram) Task.xctl).getD Task.xctl

/-- The task as the entry of a nested program (mode 1) receives it from `execLoadModule`:
the load is logged and the name is registered as running. -/
def execLoadModule_callState (name : List Char) (reg : ModuleRegistry) (t : Task) : Task :=
  { t.log (.dlopen name) with registry := reg }

/-- The task at the XCTL block of the commit: the empty line of the commit is written and
`xctlState`, `cmdState` are reset. -/
def endExec_XCTL_state (t : Task) : Task :=
  { { t with cmdbuf := [] }.write ['\n'] with xctlState := 0, cmdState := 0 }

/-- The registry after `startModule("SUB1")` on the empty registry. -/
def ModuleRegistry.sub1 : ModuleRegistry :=
  { runningModules := slotSet ModuleRegistry.empty.runningModules 0 "SUB1".toList,
    runningModuleCnt := 1 }

/-! ## Sequences of pool calls -/

/-- The state at the END-EXEC of `ENQ RESOURCE('R1') NOSUSPEND`: the literal has been
captured into `paramsBuf[1]`, no LENGTH was given (the length slot keeps the -1 of the
verb), and RESP is bound to field 1. -/
def Task.enqLiteralBound : Task :=
  { Task.start 2 with
    cmdState := -11, memParamsState := 10, memParam := -1,
    memParams := fun i => if i = 1 then .paramsBuf 1 else if i = 2 then .addr 1 else Ptr.null,
    paramsBuf := fun i => if i = 1 then "R1".toList else [],
    respFieldsState := 1,
    respFields := fun i => if i = 0 then .field 1 else Ptr.null }

/-- The state at the END-EXEC of `ENQ RESOURCE(field 0) LENGTH(2) NOSUSPEND` with RESP
bound to field 1. -/
def Task.enqFieldBound : Task :=
  { Task.enqNosuspend with
    respFieldsState := 1,
    respFields := fun i => if i = 0 then .field 1 else Ptr.null }

/-! ## Sample tasks for abend -/

/-- A test on the task with which a piece of code leaves through `longjmp` to the
condition handler context `h`; false when it ends in another way. -/
def Outcome.checkHandler {α : Type} (o : Outcome α) (h : Nat) (p : Task → Bool) : Bool :=
  match o with
  | .jump (some c) t => c == h && p t
  | _ => false

/-- The state at the END-EXEC of `ABEND ABCODE('XY01')`: the verb and its tokens have been
echoed to the client as they arrived (cobexec.c 1385-1394 and 2001, 2409-2414). -/
def Task.abendVerb : Task :=
  { Task.start 2 with cmdState := -17, out := "ABEND\nABCODE\n='XY01'\n".toList }

/-- The task after `setJmpAbend` has registered the context 77 for resp 22. -/
def Task.handler22 : Task :=
  (setJmpAbend 22 77 (Task.start 8)).getD (Task.start 8)

/-- The state at the END-EXEC of `GETMAIN SET(field 0) LENGTH(0)` with no RESP field and
no NOHANDLE, in a task that has a handler registered for resp 22. -/
def Task.getmainZeroHandled : Task :=
  { Task.handler22 with
    cmdState := -6, memParamsState := 10, memParam := 0,
    memParams := fun i => if i = 1 then .field 0 else Ptr.null }

/-- The task with which a piece of code stops without returning to its caller: at the
`longjmp`, or at the point from which the C code has no defined behaviour. -/
def Outcome.stoppedWith {α : Type} : Outcome α → Option Task
  | .jump _ t => some t
  | .undefined t => some t
  | _ => none

/-! ## The task: `execTransaction` and `execInTransaction` (cobexec.c 3152-3402) -/

/-- The function `initMain()`. -/
def initMain (t : Task) : Task :=
  { t with allocMemPtr := 0 }

/-- The function `clearMain()`: every non-null slot below the high-water index is freed,
then the index is reset. -/
def clearMain (t : Task) : Task :=
  { t with
    events := t.events ++
      ((List.range t.allocMemPtr).filter (fun i => t.allocMem i ≠ 0)).map
        (fun i => Event.free (t.allocMem i)),
    allocMemPtr := 0 }

/-- The function `clearChnBufList()`: every channel buffer handed out is freed. -/
def clearChnBufList (t : Task) : Task :=
  { t with
    events := t.events ++
      (List.range t.chnBufListPtr).map (fun i => Event.free (t.chnBufList i)) }

/-- The locals of `execTransaction` that it initialises before it publishes them as the
thread-specific data of the task (the arrays it leaves uninitialised keep the content
they have in `t`, the EIB is zeroed). -/
def execTransaction_init (t : Task) : Task :=
  { t with
    cmdbuf := [], cmdState := 0, runState := 0, xctlState := 0, linkStackPtr := 0,
    memParamsState := 0, memParam := 0, allocMemPtr := 0, respFieldsState := 0,
    chnBufListPtr := 0, mem := memWrite t.mem t.eibbuf (List.replicate 150 NUL) }

/-- The optional read of the communication area: `COMMAREA\n` is written and 32768 bytes
are read from the client. -/
def execTransaction_commArea (setCommArea : Int) (t : Task) : Outcome Task :=
  if setCommArea = 1 then
    (readBytes 32768 (t.write "COMMAREA\n".toList)).bind (fun r =>
      .ret { r.2 with mem := memWrite r.2.mem r.2.commArea r.1 })
  else .ret t

/-- The read loop for one parameter length: the number of characters stored in `len[10]`
and the rest of the input, or `none` when the input ends before a newline. -/
def readParamLen : List Char → Nat → Option (Nat × List Char)
  | [], _ => none
  | c :: rest, pos =>
    if c = '\n' then some (pos, rest)
    else if c ≠ '\r' ∧ c ≠ APOS ∧ pos < 10 then readParamLen rest (pos + 1)
    else readParamLen rest pos

/-- The loop `for (i = 0; i < parCount; i++)` that reads the lengths of the positional
parameters (the link area they partition is not part of the state). A line of ten stored
characters makes `len[pos] = 0x00` write behind the array. -/
def execTransaction_paramLoop : Nat → Task → Outcome Task
  | 0, t => .ret t
  | n + 1, t =>
    match readParamLen t.inp 0 with
    | none => .hang
    | some (pos, rest) =>
      if pos = 10 then .undefined { t with inp := rest }
      else execTransaction_paramLoop n { t with inp := rest }

/-- The optional initialisation of the call parameters. -/
def execTransaction_params (parCount : Int) (t : Task) : Outcome Task :=
  if parCount > 0 ∧ parCount ≤ 10 then execTransaction_paramLoop parCount.toNat t
  else .ret t

/-- The steps after `execLoadModule` that both task functions share:
`releaseLocks(TASK,taskLocks); globalCallCleanup(); clearMain(); free(allocMem);
free(linkArea); clearChnBufList();` (the call stack that `globalCallCleanup` closes is
not part of the state, the call is logged as one event; the two arrays freed are locals
of the task function). -/
def execTransaction_cleanup (t : Task) : Task :=
  clearChnBufList (clearMain ((t.log (.releaseLocks .TASK)).log .globalCallCleanup))

/-- The function `execTransaction(name, fd, setCommArea, parCount)`: a standalone task
with a database connection of its own, committed at the end. -/
def execTransaction (env : Env) (name : List Char) (setCommArea parCount : Int) (t : Task) :
    Outcome Task :=
  (execTransaction_commArea setCommArea (execTransaction_init t)).bind (fun t1 =>
    (execTransaction_params parCount t1).bind (fun t2 =>
      (execLoadModule env (.buffer name) 0 parCount (initMain (t2.log .getDBConnection))).bind
        (fun r => .ret ((execTransaction_cleanup r.2).log (.returnDBConnection 1)))))

/-- The function `execInTransaction(name, fd, setCommArea, parCount)`: a task inside the
database transaction of its caller. -/
def execInTransaction (env : Env) (name : List Char) (setCommArea parCount : Int)
    (t : Task) : Outcome Task :=
  (execTransaction_commArea setCommArea (execTransaction_init t)).bind (fun t1 =>
    (execTransaction_params parCount t1).bind (fun t2 =>
      (execLoadModule env (.buffer name) 0 parCount (initMain t2)).bind
        (fun r => .ret (execTransaction_cleanup r.2))))

/-! ## Sample artifacts for the task functions -/

/-- An artifact that touches the address `NULL` while no command is open. -/
def faultIdle (t : Task) : Outcome Task :=
  segv_handler t

/-- An artifact that opens an ABEND command (the verb is echoed and the command state is
-17, cobexec.c 1385-1394) and touches the address `NULL` before the END-EXEC. -/
def faultInAbendVerb (t : Task) : Outcome Task :=
  segv_handler { t.write "ABEND\n".toList with cmdState := -17, respFieldsState := 0 }

/-- An artifact that takes a lock in UOW scope (`ENQ RESOURCE('R1') UOW`, committed by
`execCallback_endExec`) and returns without a SYNCPOINT. -/
def enqUowAndReturn (t : Task) : Outcome Task :=
  execCallback_endExec (Env.sample (fun u => .ret u))
    { t with
      cmdState := -11, memParamsState := 10, memParam := -1,
      memParams := fun i =>
        if i = 1 then .paramsBuf 1 else if i = 3 then .addr 1 else Ptr.null,
      paramsBuf := fun i => if i = 1 then "R1".toList else [] }

/-! ## SYNCPOINT: the ROLLBACK option and the lines of the dialogue -/

/-- The handling of a keyword token while a SYNCPOINT is open (cobexec.c 2280-2284): the
option ROLLBACK sets the parameter state to 1. -/
def execCallback_syncpointOption (cmd : List Char) (t : Task) : Task :=
  if t.cmdState = -13 then
    if cmd = "ROLLBACK".toList then { t with memParamsState := 1 } else t
  else t

/-- The content of `buf` after the read loop of the SYNCPOINT dialogue has taken the
line `line` (carriage returns dropped, at most 2047 characters kept). -/
def syncpoint_buf (line : List Char) : List Char :=
  ((syncpoint_line (line ++ ['\n']) 0 []).map Prod.fst).getD []

/-- The client's part of a dialogue: the lines in order, each closed by a newline. -/
def dialogue (lines : List (List Char)) : List Char :=
  (lines.map (fun l => l ++ ['\n'])).flatten

/-- The state at the END-EXEC of a SYNCPOINT without the ROLLBACK option whose dialogue
forwards a rollback to the SQL bridge and then ends. -/
def Task.syncpointEarlyRollback : Task :=
  { Task.start 2 with
    cmdState := -13, memParamsState := 0,
    inp := dialogue ["sql ROLLBACK".toList, "END-SYNCPOINT".toList] }

/-- The state at the END-EXEC of a SYNCPOINT without the ROLLBACK option whose dialogue
ends with a line that holds both END-SYNCPOINT and ROLLBACK. -/
def Task.syncpointLastRollback : Task :=
  { Task.start 2 with
    cmdState := -13, memParamsState := 0,
    inp := dialogue ["sql COMMIT".toList, "END-SYNCPOINT ROLLBACK".toList] }

/-! ## `execCallback`: the tokens of a RECEIVE command -/

/-- The substrings that send a token to the keyword branch of `execCallback` (cobexec.c
1969-2000), in the order of the source; the quote and the pair EIB / EIBAID are tested
apart. -/
def keywordTokens : List String :=
  ["MAP", "MAPSET", "DATAONLY", "ERASE", "MAPONLY", "RETURN", "FROM", "INTO", "HANDLE",
   "CONDITION", "ERROR", "SET", "MAPFAIL", "NOTFND", "ASSIGN", "SYSID", "TRANSID",
   "COMMAREA", "LENGTH", "CONTROL", "FREEKB", "PROGRAM", "XCTL", "ABEND", "ABCODE",
   "NODUMP", "LINK", "FLENGTH", "DATA", "DATAPOINTER", "SHARED", "CWA", "TWA", "TCTUA",
   "TCTUALENG", "PUT", "GET", "CONTAINER", "CHANNEL", "BYTEOFFSET", "NODATA-FLENGTH",
   "INTOCCSID", "INTOCODEPAGE", "CONVERTST", "CCSID", "FROMCCSID", "FROMCODEPAGE",
   "DATATYPE", "APPEND", "BIT", "CHAR", "CANCEL", "RESP", "RESP2", "RESOURCE", "UOW",
   "TASK", "NOSUSPEND", "INITIMG", "USERDATAKEY", "CICSDATAKEY", "MAXLIFETIME", "ROLLBACK",
   "ITEM", "QUEUE", "SYSID", "TS", "TD", "REWRITE", "NEXT", "QNAME", "MAIN", "AUXILIARY",
   "ABSTIME", "YYMMDD", "YEAR", "TIME", "DDMMYY", "DATESEP", "TIMESEP", "DB2CONN",
   "CONNECTST", "TRANSID", "REQID", "INTERVAL", "USERID", "NOHANDLE", "CREATE", "CLIENT",
   "SERVER", "SENDER", "RECEIVER", "FAULTCODE", "FAULTCODESTR", "FAULTCODELEN",
   "FAULTSTRING", "FAULTSTRLEN", "NATLANG", "FAULTCODE", "ROLE", "ROLELENGTH", "FAULTACTOR",
   "FAULTACTLEN", "DETAIL", "DETAILLENGTH", "FROMCCSID", "SERVICE", "WEBSERVICE",
   "OPERATION", "URI", "URIMAP", "SCOPE", "SCOPELEN", "NODATA", "SECURITY", "RESTYPE",
   "RESCLASS", "RESIDLENGTH", "RESID", "LOGMESSAGE", "READ", "UPDATE", "UPDATE", "ALTER"]

/-- The test that opens the keyword branch: no field comes with the token, or the token
holds a quote or one of the keyword substrings. -/
def isKeywordToken (cmd : List Char) (var : Ptr) : Bool :=
  decide (var = Ptr.null) || strstr cmd [APOS]
    || keywordTokens.any (fun k => strstr cmd k.toList)
    || (strstr cmd "EIB".toList && !strstr cmd "EIBAID".toList)

/-- The verb RECEIVE (cobexec.c 1196-1207), reached in a CICS command (`cmdState < 0`). -/
def execCallback_RECEIVE (t : Task) : Task :=
  { t.write "RECEIVE\n".toList with
    cmdbuf := [], cmdState := -2, memParamsState := 0, respFieldsState := 0, memParam := -1,
    respFields := ptrSet (ptrSet t.respFields 0 Ptr.null) 1 Ptr.null }

/-- The block `if (((*cmdState) == 2) && ((*memParamsState) == 1))` of the keyword
branch (cobexec.c 2019-2023, commented `RECEIVE INTO LENGTH param value`). -/
def execCallback_keyword_length (cmd : List Char) (t : Task) : Task :=
  if t.cmdState = 2 ∧ t.memParamsState = 1 then
    { t with memParam := atoi cmd, memParamsState := 10 }
  else t

/-- The block `if ((*cmdState) == -2)` of the keyword branch (cobexec.c 2024-2031). -/
def execCallback_keyword_receive (cmd : List Char) (t : Task) : Task :=
  if t.cmdState = -2 then
    let u : Task := if cmd = "LENGTH".toList then { t with memParamsState := 1 } else t
    if cmd = "INTO".toList then { u with memParamsState := 2 } else u
  else t

/-- The end of the keyword branch (cobexec.c 2408-2413): the command buffer is sent to
the client, after a `=` when it starts with a quote, and emptied. -/
def execCallback_keyword_send (t : Task) : Task :=
  let t1 : Task := if t.cmdbuf.head? = some APOS then t.write ['='] else t
  { t1.write t1.cmdbuf with cmdbuf := [] }

/-- The keyword branch (cobexec.c 2001-2420) for a token that arrives in command state
-2: the blocks of the other command states do nothing there. -/
def execCallback_keyword_RECEIVE (cmd : List Char) (var : Ptr) (t : Task) : Outcome Task :=
  -- sprintf(end,"%s%s",cmd,"\n");
  let t0 : Task := { t with cmdbuf := t.cmdbuf ++ cmd ++ ['\n'] }
  (execCallback_respBinding cmd var t0).bind (fun t1 =>
    .ret (execCallback_keyword_send
      (execCallback_keyword_receive cmd (execCallback_keyword_length cmd t1))))

/-- The field branch (cobexec.c 2421-2937) for a token that arrives in command state -2:
its three blocks for that state, in the order of the source, and the statement that
empties the command buffer at its end. `display` stands for `display_cobfield` of the
COBOL runtime. -/
def execCallback_field_RECEIVE (display : CobField → Mem → List Char) (cmd : List Char)
    (var : Ptr) (t : Task) : Outcome Task :=
  let o1 : Outcome Task :=
    if t.cmdState = -2 ∧ t.memParamsState = 0 then
      derefField t var (fun cobvar =>
        let t1 : Task := { t with cmdbuf := t.cmdbuf ++ cmd ++ ['\n'] }
        -- Read in client response value
        (readLine (t1.write t1.cmdbuf)).bind (fun r =>
          .ret { r.2 with mem := cob_put_picx r.2.mem cobvar.data cobvar.size r.1 }))
    else .ret t
  o1.bind (fun t2 =>
    let o2 : Outcome Task :=
      if t2.cmdState = -2 ∧ t2.memParamsState = 2 then
        derefField t2 var (fun cobvar =>
          let t3 := (t2.write "SIZE\n".toList).write
            ("=".toList ++ sprintf_ld (intOfSize cobvar.size) ++ ['\n'])
          .ret { t3 with memParams := ptrSet t3.memParams 1 var, memParamsState := 10 })
      else .ret t2
    let o3 : Outcome Task := o2.bind (fun t4 =>
      if t4.cmdState = -2 ∧ t4.memParamsState = 1 then
        derefField t4 var (fun cobvar =>
          let shown := if t4.mem cobvar.data ≠ NUL
                ∨ getCobType cobvar = CobType.numericBinary
                ∨ getCobType cobvar = CobType.numericComp5
                ∨ getCobType cobvar = CobType.numeric
                ∨ getCobType cobvar = CobType.numericPacked
            then display cobvar t4.mem else []
          let t5 : Task := { t4 with cmdbuf := t4.cmdbuf ++ cmd ++ ['='] ++ shown }
          .ret { (t5.write t5.cmdbuf).write ['\n'] with
                 memParam := atoi shown, memParamsState := 10 })
      else .ret t4)
    -- cmdbuf[0] = 0x00;  (the end of the field branch)
    o3.bind (fun t6 => .ret { t6 with cmdbuf := [] }))

/-- A token of a RECEIVE command that is neither a verb nor END-EXEC. -/
def execCallback_token_RECEIVE (display : CobField → Mem → List Char) (cmd : List Char)
    (var : Ptr) (t : Task) : Outcome Task :=
  if isKeywordToken cmd var then execCallback_keyword_RECEIVE cmd var t
  else if var ≠ Ptr.null then execCallback_field_RECEIVE display cmd var t
  else .ret t

/-- A whole RECEIVE command: the verb, its tokens in order, and END-EXEC. -/
def execCallback_command_RECEIVE (env : Env) (display : CobField → Mem → List Char)
    (tokens : List (List Char × Ptr)) (t : Task) : Outcome Task :=
  (tokens.foldl
    (fun (o : Outcome Task) (tok : List Char × Ptr) =>
      o.bind (execCallback_token_RECEIVE display tok.1 tok.2))
    (.ret (execCallback_RECEIVE t))).bind (execCallback_endExec env)

/-! ## Sample task for RECEIVE -/

/-- A display routine for the sample: the decimal value of a big-endian binary field. -/
def displayBinary (f : CobField) (mem : Mem) : List Char :=
  sprintf_ld ((memRead mem f.data f.size).foldl (fun v c => v * 256 + (c.toNat : Int)) 0)

/-- A task inside a CICS command with a field B (number 0) of 20 bytes, all `N`, and a
binary field LEN (number 1) that holds 10; the client is about to send 20 bytes and the
two resp lines. -/
def Task.receive : Task :=
  { Task.start 20 with
    cmdState := -1,
    mem := memWrite (Task.start 20).mem 3000 [NUL, NUL, NUL, Char.ofNat 10],
    inp := "HELLOWORLD0123456789".toList ++ "0\n0\n".toList }

/-- The tokens of `RECEIVE INTO(B) LENGTH(10)`. -/
def receiveLiteral : List (List Char × Ptr) :=
  [("INTO".toList, Ptr.null), ("B".toList, .field 0), ("LENGTH".toList, Ptr.null),
   ("10".toList, Ptr.null)]

/-- The tokens of `RECEIVE INTO(B) LENGTH(LEN)`. -/
def receiveField : List (List Char × Ptr) :=
  [("INTO".toList, Ptr.null), ("B".toList, .field 0), ("LENGTH".toList, Ptr.null),
   ("LEN".toList, .field 1)]

/-! ## Sample task for LINK at the top of the link stack -/

/-- The state at the END-EXEC of `LINK PROGRAM('SUB1') COMMAREA(field 0)` issued at
link-stack depth 99, the depth a chain of 99 nested LINK commands leaves. -/
def Task.linkDeep : Task :=
  { Task.linkBound with linkStackPtr := 99 }

/-! ## `adjustDateFormatToDb` (cobexec.c 233-292) -/

/-- The default display template, the initial value of the global `cobDateFormat`. -/
def cobDateFormat : List Char := "YYYY-MM-dd-hh.mm.ss.uuuuu".toList

/-- The database template, the value of the global `dbDateFormat`. -/
def dbDateFormat : List Char := "dd-MM-YYYY hh:mm:ss.uuu".toList

/-- The test for a separator of a template: `-`, blank, `:` or `.`. -/
def isDateSep (c : Char) : Bool :=
  c = '-' ∨ c = ' ' ∨ c = ':' ∨ c = '.'

/-- The body of the loop `Check if str is date` at position `i`: true when it executes
`return str`. Only the separator positions of the template are compared. -/
def adjustDate_mismatch (cob str : List Char) (i : Nat) : Bool :=
  if isDateSep (cob.getD i NUL) then
    if cob.getD i NUL ≠ str.getD i NUL then
      if i = 10 ∧ cob.getD i NUL = '-' ∧ str.getD i NUL = ' ' then false
      else if i = 13 ∧ cob.getD i NUL = '.' ∧ str.getD i NUL = ':' then false
      else if i = 16 ∧ cob.getD i NUL = '.' ∧ str.getD i NUL = ':' then false
      else true
    else false
  else false

/-- The locals of the second loop: the buffer `result`, `lastc`, `pos`, and whether the
loop has left through `return result`. -/
structure DateFill where
  result : CharBuf
  lastc : Char
  pos : Nat
  returned : Bool

/-- The search `while (j < l) { if (dbDateFormat[i] == cobDateFormat[j]) break; j++; }`. -/
def adjustDate_find (cob : List Char) (c : Char) : Nat :=
  ((List.range cob.length).find? (fun j => cob.getD j NUL = c)).getD cob.length

/-- The body of the loop over the database template at position `i`; `none` when it
writes behind the 30 bytes of `result`. -/
def adjustDate_step (cob db str : List Char) (o : Option DateFill) (i : Nat) :
    Option DateFill :=
  o.bind (fun s =>
    if s.returned then some s
    else if 30 ≤ i then none
    else if isDateSep (db.getD i NUL) then
      some { s with result := bufSet s.result i (db.getD i NUL) }
    else
      let s1 : DateFill :=
        if s.lastc ≠ db.getD i NUL then
          let j := adjustDate_find cob (db.getD i NUL)
          if j < cob.length then { s with pos := j, lastc := db.getD i NUL }
          else { s with returned := true }
        else s
      if s1.returned then some s1
      else some { s1 with result := bufSet s1.result i (str.getD s1.pos NUL),
                          pos := s1.pos + 1 })

/-- The function `adjustDateFormatToDb(str, len)` for the templates `cob` and `db` held
by the globals: the `len` bytes behind the pointer it returns (`str` itself when the
text is not taken for a date), `none` when `result[len] = 0x00` or the second loop
writes behind the 30 bytes of `result`. -/
def adjustDateFormatToDb (cob db str : List Char) (len : Int) : Option (List Char) :=
  if len < cob.length then some str
  else if (List.range cob.length).any (adjustDate_mismatch cob str) then some str
  else if len > 29 then none
  else
    let init : DateFill :=
      { result := fun j => if j < len.toNat then ' ' else NUL, lastc := ' ', pos := 0,
        returned := false }
    ((List.range db.length).foldl (adjustDate_step cob db str) (some init)).map
      (fun s => (List.range len.toNat).map s.result)

/-! ## `writeJson` (cobexec.c 339-382) -/

/-- The locals of the scan of `writeJson`: `n`, `found`, `brackets`, whether the loop has
left through `break`, and the bytes written to the client so far. -/
structure JsonScan where
  n : Nat
  found : Nat
  brackets : Int
  stopped : Bool
  out : List Char

/-- The body of the loop `while (1)` of `writeJson` for the byte `c` of the file. -/
def writeJson_step (map : List Char) (s : JsonScan) (c : Char) : JsonScan :=
  if s.stopped then s
  else
    let s1 : JsonScan :=
      if s.found = 0 then
        let n1 := if cstrAt map s.n = c then s.n + 1 else 0
        if n1 = map.length then { s with n := n1, found := 1 } else { s with n := n1 }
      else s
    let s2 : JsonScan :=
      if s1.found = 1 then (if c = '{' then { s1 with found := 2 } else s1) else s1
    if s2.found = 2 then
      let b1 := if c = '{' then s2.brackets + 1 else s2.brackets
      let b2 := if c = '}' then b1 - 1 else b1
      { s2 with out := s2.out ++ [c], brackets := b2, stopped := decide (b2 ≤ 0) }
    else s2

/-- The bytes `writeJson` copies from the file content to the client. -/
def writeJson_scan (map content : List Char) : List Char :=
  (content.foldl (writeJson_step map)
    { n := 0, found := 0, brackets := 0, stopped := false, out := [] }).out

/-- The function `writeJson(map, mapset, childfd)`. The file system is the function
`fopen` from a path to the content of the file (`none` when it cannot be opened), `jsDir`
is the configured directory; the path is built in `jsonFile[255]`. -/
def writeJson (fopen : List Char → Option (List Char)) (jsDir map mapset : List Char)
    (t : Task) : Outcome Task :=
  let t1 := t.write "JSON=".toList
  let jsonFile := jsDir ++ "/".toList ++ mapset ++ ".js".toList
  if jsonFile.length ≥ 255 then .undefined t1
  else
    let t2 := match fopen jsonFile with
      | some content => t1.write (writeJson_scan map content)
      | none => t1
    .ret (t2.write ['\n'])

/-- A file system with the one copybook `../copybooks/MS1.js`. -/
def copybooks (content : List Char) (path : List Char) : Option (List Char) :=
  if path = "../copybooks/MS1.js".toList then some content else none

/-! ## The read loops, pass by pass -/

/-- The channel and the locals of the loop of `readLine` (cobexec.c 732-744). -/
structure ReadLineLoop where
  inp : List Char
  c : Char
  pos : Nat
  buf : List Char

/-- One pass through the body of `while (c != '\n')` in `readLine`: `read` hands out the
next byte of the channel, or returns 0 at the end of the input and leaves `c` as it is. -/
def readLine_body (s : ReadLineLoop) : ReadLineLoop :=
  match s.inp with
  | [] => s
  | c :: rest =>
    if s.pos < 2047 ∧ c ≠ '\n' ∧ c ≠ '\r' ∧ c ≠ APOS then
      { inp := rest, c := c, pos := s.pos + 1, buf := s.buf ++ [c] }
    else { s with inp := rest, c := c }

/-- The loop of `readLine` after at most `k` passes. -/
def readLine_passes : Nat → ReadLineLoop → ReadLineLoop
  | 0, s => s
  | k + 1, s => if s.c ≠ '\n' then readLine_passes k (readLine_body s) else s

/-- The channel and the locals of a block read `while (i < l) { n = read(childfd,&c,1);
if (n == 1) { data[i] = c; i++; } }` (cobexec.c 1496-1504 and its siblings). -/
structure ReadBlockLoop where
  inp : List Char
  i : Nat
  data : List Char

/-- One pass through the body of a block read. -/
def readBlock_body (s : ReadBlockLoop) : ReadBlockLoop :=
  match s.inp with
  | [] => s
  | c :: rest => { inp := rest, i := s.i + 1, data := s.data ++ [c] }

/-- A block read of `l` bytes after at most `k` passes. -/
def readBlock_passes (l : Nat) : Nat → ReadBlockLoop → ReadBlockLoop
  | 0, s => s
  | k + 1, s => if s.i < l then readBlock_passes l k (readBlock_body s) else s

/-- Whether a piece of code waits for ever. -/
def Outcome.hangs {α : Type} : Outcome α → Bool
  | .hang => true
  | _ => false

/-- Whether a piece of code runs into undefined behaviour of C. -/
def Outcome.isUndefined {α : Type} : Outcome α → Bool
  | .undefined _ => true
  | _ => false

/-! ## More sample tasks -/

/-- A task whose client has sent `12` and closed the channel. -/
def Task.eof : Task :=
  { Task.start 4 with inp := "12".toList }

/-- The state at the END-EXEC of a RECEIVE into field 0 (4 bytes) whose client has sent
`12` and closed the channel. -/
def Task.receiveEof : Task :=
  { Task.eof with
    cmdState := -2, memParamsState := 10, memParam := -1,
    memParams := fun i => if i = 1 then .field 0 else Ptr.null }

/-- The state at the END-EXEC of a SOAPFAULT, no RESP field bound and no NOHANDLE; the
client answers resp 122 and resp2 0. -/
def Task.soapfault122 : Task :=
  { Task.start 2 with cmdState := -21, inp := "122\n0\n".toList }

/-- Collaborators whose `malloc` refuses every request. -/
def Env.refusing : Env :=
  { Env.sample (fun t => .ret t) with malloc := fun _ _ => 0 }

/-- Collaborators with a task pool of capacity 0. -/
def Env.noRoom : Env :=
  { Env.sample (fun t => .ret t) with MEM_POOL_SIZE := 0 }

/-- The state at the END-EXEC of `GETMAIN SET(field 0) LENGTH(8)` with no RESP field and
no NOHANDLE; field 0 is the pointer field, 8 bytes at address 2000. -/
def Task.getmain8 : Task :=
  { Task.start 8 with
    cmdState := -6, memParamsState := 10, memParam := 8,
    memParams := fun i => if i = 1 then .field 0 else Ptr.null }

/-- The same state with RESP bound to field 1. -/
def Task.getmain8Bound : Task :=
  { Task.getmain8 with
    respFieldsState := 1,
    respFields := fun i => if i = 0 then .field 1 else Ptr.null }

/-- An artifact that commits an explicit `ABEND` command. -/
def abendingProgram (t : Task) : Outcome Task :=
  execCallback_endExec (Env.sample (fun u => .ret u)) { t with cmdState := -17 }

/-- An artifact that commits `LINK PROGRAM('SUB1')`, where SUB1 is `abendingProgram`. -/
def linkingProgram (t : Task) : Outcome Task :=
  execCallback_endExec (Env.sample abendingProgram)
    { t with cmdState := -5, xctlState := 10, progname := "SUB1".toList,
             xctlParams1 := Ptr.null }

/-! ## `execCallback`: the verbs of a CICS command (cobexec.c 1180-1479) -/

/-- The token `CICS`: a command begins. -/
def execCallback_CICS (t : Task) : Task :=
  { t with cmdbuf := [], cmdState := -1 }

/-- What every verb does: the verb is sent to the client, the command buffer is emptied
and the resp binding is reset. -/
def execCallback_verbOpen (cmd : List Char) (t : Task) : Task :=
  { t.write (cmd ++ ['\n']) with
    cmdbuf := [], respFieldsState := 0,
    respFields := ptrSet (ptrSet t.respFields 0 Ptr.null) 1 Ptr.null }

/-- The assignments `memParams[i] = NULL` for the slots in `l`. -/
def clearParams (slots : Nat → Ptr) (l : List Nat) : Nat → Ptr :=
  l.foldl (fun s i => ptrSet s i Ptr.null) slots

/-- The chain of tests `if (strcmp(cmd, VERB) == 0) { ...; return 1; }` that
`execCallback` runs on every token while `cmdState < 0`: the state after the verb, or
`none` when the token is no verb. The tests do not look at the verb already open. -/
def execCallback_verb (cmd : List Char) (t : Task) : Option Task :=
  let o := execCallback_verbOpen cmd t
  if cmd = "SEND".toList then some o
  else if cmd = "RECEIVE".toList then
    some { o with cmdState := -2, memParamsState := 0, memParam := -1 }
  else if cmd = "XCTL".toList then some { o with cmdState := -3, xctlState := 0 }
  else if cmd = "RETRIEVE".toList then some { o with cmdState := -4, retrieveState := 0 }
  else if cmd = "LINK".toList then
    some { o with cmdState := -5, xctlState := 0, xctlParams1 := Ptr.null }
  else if cmd = "GETMAIN".toList ∨ cmd = "GETMAIN64".toList then
    some { o with cmdState := -6, memParamsState := 0,
                  memParams := clearParams o.memParams [2, 3] }
  else if cmd = "FREEMAIN".toList ∨ cmd = "FREEMAIN64".toList then
    some { o with cmdState := -7, memParamsState := 0,
                  memParams := clearParams o.memParams [2] }
  else if cmd = "ADDRESS".toList then some { o with cmdState := -8, memParamsState := 0 }
  else if cmd = "PUT".toList then
    some { o with cmdState := -9, memParamsState := 0, memParam := -1 }
  else if cmd = "GET".toList then
    some { o with cmdState := -10, memParamsState := 0, memParam := -1,
                  memParams := clearParams o.memParams [1, 2, 3, 4] }
  else if cmd = "ENQ".toList then
    some { o with cmdState := -11, memParamsState := 0, memParam := -1,
                  memParams := clearParams o.memParams [2, 3, 4] }
  else if cmd = "DEQ".toList then
    some { o with cmdState := -12, memParamsState := 0, memParam := -1,
                  memParams := clearParams o.memParams [2, 3, 4] }
  else if cmd = "SYNCPOINT".toList then some { o with cmdState := -13, memParamsState := 0 }
  else if cmd = "WRITEQ".toList then
    some { o with cmdState := -14, memParamsState := 0, memParam := -1,
                  memParams := clearParams o.memParams [3] }
  else if cmd = "READQ".toList then
    some { o with cmdState := -15, memParamsState := 0, memParam := -1,
                  memParams := clearParams o.memParams [3] }
  else if cmd = "DELETEQ".toList then
    some { o with cmdState := -16, memParamsState := 0, memParam := -1 }
  else if cmd = "ABEND".toList then some { o with cmdState := -17 }
  else if cmd = "ASKTIME".toList ∨ cmd = "INQUIRE".toList ∨ cmd = "ASSIGN".toList
      ∨ cmd = "FORMATTIME".toList then
    some { o with cmdState := -18, memParamsState := 0, memParam := -1 }
  else if cmd = "START".toList ∨ cmd = "CANCEL".toList then
    some { o with cmdState := -19, memParamsState := 0, memParam := -1,
                  memParams := clearParams o.memParams [1, 2] }
  else if cmd = "RETURN".toList then
    some { o with cmdState := -20, memParamsState := 0, memParam := -1,
                  memParams := clearParams o.memParams [1, 2], runState := 2 }
  else if cmd = "SOAPFAULT".toList then
    some { o with cmdState := -21, memParamsState := 0, memParam := -1 }
  else if cmd = "INVOKE".toList then
    some { o with cmdState := -22, memParamsState := 0, memParam := -1 }
  else if cmd = "QUERY".toList then
    some { o with cmdState := -23, memParamsState := 0, memParam := -1,
                  memParams := clearParams o.memParams [1, 2, 3, 4] }
  else none

/-- The tag a verb keyword leaves in `cmdState` (read off `execCallback_verb` on an idle
task): `none` when the token is no verb. For SEND, which leaves `cmdState` as it is, this
is the 0 of the idle task. -/
def verbTag (cmd : List Char) : Option Int :=
  (execCallback_verb cmd (Task.start 0)).map (fun u => u.cmdState)

/-- The keyword branch (cobexec.c 2001-2420) for a token that arrives in command state
-17, for which the branch has no block of its own: the token goes to the command buffer,
the resp binding is handled, and the buffer is sent. -/
def execCallback_keyword_ABEND (cmd : List Char) (var : Ptr) (t : Task) : Outcome Task :=
  let t0 : Task := { t with cmdbuf := t.cmdbuf ++ cmd ++ ['\n'] }
  (execCallback_respBinding cmd var t0).bind (fun t1 =>
    .ret (execCallback_keyword_send (execCallback_keyword_length cmd t1)))

/-- Whether the text of a token meets one of the tests that `execCallback` makes before
it looks for `CICS` (cobexec.c 980-1178: the SET tokens of the artifact's prologue). -/
def execCallback_isPrologue (cmd : List Char) : Bool :=
  strstr cmd "SET SQLCODE".toList || strstr cmd "SET EIBCALEN".toList
    || strstr cmd "SET EIBAID".toList || strstr cmd "SET DFHEIBLK".toList
    || strstr cmd "SETL1 1 ".toList || strstr cmd "SETL0 1 ".toList
    || strstr cmd "SETL0 77".toList || strstr cmd "DFHCOMMAREA".toList
    || strstr cmd "SETL0".toList || strstr cmd "SETL1".toList

/-- The field branch (cobexec.c 2421-2937) for a token that arrives in command state
-17: of its blocks only the one for the command states below -5 applies (cobexec.c
2576-2616), which sends `cmd=` and the displayed value of the field to the client; the
command buffer is emptied at the end of the branch. -/
def execCallback_field_ABEND (env : Env) (cmd : List Char) (var : Ptr) (t : Task) :
    Outcome Task :=
  derefField t var (fun cobvar =>
    let quote : List Char := if cobvar.type = CobType.alphanumeric then [APOS] else []
    let shown := if t.mem cobvar.data ≠ NUL
          ∨ getCobType cobvar = CobType.numericBinary
          ∨ getCobType cobvar = CobType.numericComp5
          ∨ getCobType cobvar = CobType.numeric
          ∨ getCobType cobvar = CobType.numericPacked
      then env.display cobvar t.mem else []
    let cmdbuf := t.cmdbuf ++ cmd ++ ['='] ++ quote ++ shown ++ quote
    let t1 : Task := ({ t with cmdbuf := cmdbuf }.write cmdbuf).write ['\n']
    -- cmdbuf[0] = 0x00;  (the end of the field branch)
    .ret { t1 with cmdbuf := [] })

/-- The dispatch of `execCallback` for one token of a CICS command, in the order of the
source: `CICS`, then, while `cmdState < 0`, the verbs, END-EXEC, and the keyword or field
branch. The result is `none` for the tokens and command states whose handling is not
part of this development (the prologue tokens, the SQL statements, and parameter tokens
outside command state -17). -/
def execCallback_cics (env : Env) (cmd : List Char) (var : Ptr) (t : Task) :
    Option (Outcome Task) :=
  if execCallback_isPrologue cmd then none
  else if cmd = "CICS".toList then some (.ret (execCallback_CICS t))
  else if t.cmdState < 0 then
    match execCallback_verb cmd t with
    | some t1 => some (.ret t1)
    | none =>
      if strstr cmd "END-EXEC".toList then some (execCallback_endExec env t)
      else if t.cmdState = -17 then
        if isKeywordToken cmd var then some (execCallback_keyword_ABEND cmd var t)
        else some (execCallback_field_ABEND env cmd var t)
      else none
  else none

/-- The calls of `execCallback` for a sequence of tokens: the next token is handled when
the callback has returned to the artifact. -/
def execCallback_run (env : Env) : List (List Char × Ptr) → Task → Option (Outcome Task)
  | [], t => some (.ret t)
  | tok :: rest, t =>
    match execCallback_cics env tok.1 tok.2 t with
    | some (.ret t1) => execCallback_run env rest t1
    | other => other

/-- The tokens of `EXEC CICS ABEND ABCODE('X') CANCEL END-EXEC`. -/
def abendCancel : List (List Char × Ptr) :=
  [("CICS".toList, Ptr.null), ("ABEND".toList, Ptr.null), ("ABCODE".toList, Ptr.null),
   ("'X'".toList, Ptr.null), ("CANCEL".toList, Ptr.null), ("END-EXEC".toList, Ptr.null)]

/-- The tokens of `EXEC CICS ABEND ABCODE('X') END-EXEC`. -/
def abendPlain : List (List Char × Ptr) :=
  [("CICS".toList, Ptr.null), ("ABEND".toList, Ptr.null), ("ABCODE".toList, Ptr.null),
   ("'X'".toList, Ptr.null), ("END-EXEC".toList, Ptr.null)]

/-- A task whose client answers the next command with resp 0 and resp2 0. -/
def Task.answered : Task :=
  { Task.start 2 with inp := "0\n0\n".toList }

/-- The task after the tokens CICS, ABEND, ABCODE, 'X': an ABEND command is open. -/
def Task.abendOpen : Task :=
  (((execCallback_run (Env.sample subProgram) (abendCancel.take 4) Task.answered).map
    (fun o => o.getD Task.answered))).getD Task.answered

/-- The task after the token CANCEL has arrived in that ABEND command. -/
def Task.abendCancelled : Task :=
  (execCallback_verb "CANCEL".toList Task.abendOpen).getD Task.abendOpen

/-! ## `execCallback`: the PROGRAM argument of XCTL and LINK -/

/-- The characters dropped from the end of a program name: blank, quote, line feed and
carriage return. -/
def isNameEnd (c : Char) : Bool :=
  c = ' ' ∨ c = APOS ∨ c = Char.ofNat 10 ∨ c = Char.ofNat 13

/-- The loop `while ((i > 0) && (progname[i] is blank, quote, LF or CR)) i--;`: the
final `i`. The first argument bounds the passes (`i` starts at 8 at most). -/
def programName_trim (progname : List Char) : Nat → Int → Int
  | 0, i => i
  | n + 1, i =>
    if i > 0 ∧ isNameEnd (cstrAt progname i) then programName_trim progname n (i - 1) else i

/-- The name that the keyword branch copies into `xctlParams[0]` for the literal token
`cmd` of PROGRAM (cobexec.c 2032-2049 for XCTL, 2067-2084 for LINK): the text after the
opening quote, cut to 9 characters, trimmed, and cut to 8. -/
def programName_literal (cmd : List Char) : List Char :=
  let progname := cmd.drop 1
  let l : Int := if progname.length > 9 then 9 else progname.length
  let i := programName_trim progname 9 (l - 1)
  let l1 : Int := i + 1
  let l2 : Int := if l1 > 8 then 8 else l1
  progname.take l2.toNat

/-- The name that the field branch hands to `sprintf(xctlParams[0],"%s",progname)` for
the command buffer `cmdbuf` that holds `=` and the display text of the field (cobexec.c
2504-2516 for XCTL, 2552-2564 for LINK): the text from offset 2, cut to 9 characters and
trimmed. There is no cut to 8. -/
def programName_field (cmdbuf : List Char) : List Char :=
  let progname := cmdbuf.drop 2
  let l : Int := if progname.length > 9 then 9 else progname.length
  let i := programName_trim progname 9 (l - 1)
  progname.take (i + 1).toNat

/-- The block `if ((*cmdState) == -5)` of the field branch (cobexec.c 2539-2566), and
with tag -3 its twin for XCTL (2491-2518): the field is shown to the client and, when a
PROGRAM is awaited (`xctlState` 1), its display text becomes the program name. The name
buffer `progname[9]` holds 8 characters and the terminator; a longer name is written
behind it. `display` stands for `display_cobfield` of the COBOL runtime. -/
def execCallback_field_program (display : CobField → Mem → List Char) (tag : Int)
    (cmd : List Char) (var : Ptr) (t : Task) : Outcome Task :=
  if t.cmdState = tag then
    derefField t var (fun cobvar =>
      let quote : List Char := if cobvar.type = CobType.alphanumeric then [APOS] else []
      let shown := if t.mem cobvar.data ≠ NUL
            ∨ getCobType cobvar = CobType.numericBinary
            ∨ getCobType cobvar = CobType.numericComp5
            ∨ getCobType cobvar = CobType.numeric
            ∨ getCobType cobvar = CobType.numericPacked
        then display cobvar t.mem else []
      let cmdbuf := t.cmdbuf ++ cmd ++ ['='] ++ quote ++ shown ++ quote
      let t1 : Task := ({ t with cmdbuf := cmdbuf }.write cmdbuf).write ['\n']
      if t1.xctlState = 1 then
        let name := programName_field cmdbuf
        if name.length > 8 then .undefined t1
        else .ret { t1 with cmdbuf := cmdbuf.take (2 + name.length), progname := name,
                            xctlState := 10 }
      else .ret t1)
  else .ret t

/-- A display routine for the sample: the bytes of an alphanumeric field. -/
def displayText (f : CobField) (mem : Mem) : List Char :=
  memRead mem f.data f.size

/-- The state when the field token of `LINK PROGRAM(field 0)` arrives, for a field of 9
bytes that holds `ABCDEFGHI`. -/
def Task.linkProgramField : Task :=
  { Task.start 9 with
    cmdState := -5, xctlState := 1,
    mem := memWrite (Task.start 9).mem 2000 "ABCDEFGHI".toList }

/-- The same state for a field that holds `SUB1` and five blanks. -/
def Task.linkProgramShort : Task :=
  { Task.start 9 with
    cmdState := -5, xctlState := 1,
    mem := memWrite (Task.start 9).mem 2000 "SUB1     ".toList }

/-! ## `execCallback`: a host variable of an SQL statement (cobexec.c 2951-3029) -/

/-- The bytes written for one byte of a host variable: `\0` for NUL, the byte itself
below 0x80, and two bytes above (`0xC0 | ((c & 0xC0) >> 6)`, `0x80 | (c & 0x3F)`). -/
def sqlEncodeByte (c : Char) : List Char :=
  if c = NUL then ['\\', '0']
  else if c.toNat &&& 0x80 = 0 then [c]
  else [Char.ofNat (0xC0 ||| ((c.toNat &&& 0xC0) >>> 6)),
        Char.ofNat (0x80 ||| (c.toNat &&& 0x3F))]

/-- The text appended to the statement for the bytes of a host variable: a quote, the
encoded bytes, a quote and a blank. -/
def sqlQuote (bytes : List Char) : List Char :=
  [APOS] ++ (bytes.map sqlEncodeByte).flatten ++ [APOS, ' ']

/-- The bytes of a VARCHAR host variable: a 16-bit big-endian length followed by the
text; a length above `size - 2` is cut (the subtraction is unsigned, 64 bit). -/
def varcharBytes (f : CobField) (mem : Mem) : List Char :=
  let l := (mem f.data).toNat % 256 * 256 + (mem (f.data + 1)).toNat % 256
  let room := (f.size + 2 ^ 64 - 2) % 2 ^ 64
  memRead mem (f.data + 2) (if l > room then room else l)

/-- The handling of a token with an empty text and a field while an SQL statement is
assembled (`cmdState >= 0`): below state 2 the field is an input host variable and its
value is appended to the statement; from state 2 on it is an output variable (the list
of output variables is not part of the state). `display` stands for `display_cobfield`
of the COBOL runtime. -/
def execCallback_sqlHostVar (display : CobField → Mem → List Char) (var : Ptr) (t : Task) :
    Outcome Task :=
  derefField t var (fun cobvar =>
    if t.cmdState < 2 then
      if cobvar.type = CobType.group then
        -- Treat as VARCHAR field
        .ret { t with cmdbuf := t.cmdbuf ++ sqlQuote (varcharBytes cobvar t.mem) }
      else if cobvar.type = CobType.alphanumeric then
        match adjustDateFormatToDb cobDateFormat dbDateFormat
            (memRead t.mem cobvar.data cobvar.size) (intOfSize cobvar.size) with
        | some str =>
          .ret { t with cmdbuf := t.cmdbuf ++
                  sqlQuote ((List.range cobvar.size).map (fun i => str.getD i NUL)) }
        | none => .undefined t
      else
        let shown := if getCobType cobvar = CobType.numericBinary
              ∨ getCobType cobvar = CobType.numericComp5
              ∨ getCobType cobvar = CobType.numeric
              ∨ getCobType cobvar = CobType.numericPacked
          then display cobvar t.mem else []
        .ret { t with cmdbuf := t.cmdbuf ++ shown ++ [' '] }
    else .ret { t with cmdState := t.cmdState + 1 })

/-- The state when the host variable of `SELECT * FROM T WHERE NAME = :field0` arrives,
for a field of 12 bytes that holds the text `x' OR '1'='1`. -/
def Task.sqlInjection : Task :=
  { Task.start 12 with
    cmdState := 1, cmdbuf := "SELECT * FROM T WHERE NAME = ".toList,
    mem := memWrite (Task.start 12).mem 2000 "x' OR '1'='1".toList }

/-- The state when a VARCHAR host variable arrives: field 0 becomes a group of 12 bytes
that holds the length 5 in two bytes and the text `SMITH`. -/
def Task.sqlVarchar : Task :=
  { Task.start 12 with
    cmdState := 1, cmdbuf := "SELECT * FROM T WHERE NAME = ".toList,
    fields := fun id => { (Task.start 12).fields id with type := CobType.group },
    mem := memWrite (Task.start 12).mem 2000 ([NUL, Char.ofNat 5] ++ "SMITH".toList) }

/-! # Theorems -/

/-- C1 (the failing input): an ENQ with NOSUSPEND on a resource that another task holds,
with no RESP field bound and no NOHANDLE.  The commit sets resp 55, writes it to the EIB
and returns to the artifact: `abend` is not invoked, nothing but the empty line of the
commit is written to the client.  A DELETEQ that the client answers with resp 44 returns in
the same way, while the SOAPFAULT block, fed the same answer, does call `abend`: it writes
the ABEND lines and leaves through `longjmp`. -/
theorem endExec_ENQ_conflict_returns :
    Task.enqNosuspend.respFieldsState = 0 ∧
    (execCallback_endExec (Env.sample subProgram) Task.enqNosuspend).check (fun t =>
      t.out == ['\n'] && (memRead t.mem (t.eibbuf + 76) 4).map Char.toNat == [0, 0, 0, 55]
        && t.cmdState == 0) = true ∧
    (execCallback_endExec (Env.sample subProgram) Task.deleteq).check (fun t =>
      t.out == ['\n'] && (memRead t.mem (t.eibbuf + 76) 4).map Char.toNat == [0, 0, 0, 44]
        && t.cmdState == 0) = true ∧
    (execCallback_endExec (Env.sample subProgram) Task.soapfault).checkAnchor (fun t =>
      t.out == "\nABEND\nABCODE\n='AEYH'\n\n".toList) = true := by
  refine ⟨rfl, ?_, ?_, ?_⟩ <;> decide!

theorem abend_longjmp_not_returns (resp : Int) (t : Task) :
    (abend_longjmp resp t).returns = false := by
  unfold abend_longjmp
  split
  · split <;> rfl
  · rfl

theorem abend_cases (resp resp2 : Int) (t : Task) :
    ((t.cmdState ≠ -17 ∧ t.respFieldsState > 0) → abend resp resp2 t = .ret t) ∧
    (¬ (t.cmdState ≠ -17 ∧ t.respFieldsState > 0) → (abend resp resp2 t).returns = false) := by
  constructor
  · rintro ⟨hc, hr⟩
    simp only [abend, hc, ne_eq, not_false_eq_true, if_true, hr]
  · intro h
    unfold abend
    by_cases hc : t.cmdState ≠ -17
    · have hr : ¬ t.respFieldsState > 0 := fun hr => h ⟨hc, hr⟩
      rw [if_pos hc, if_neg hr]
      exact abend_longjmp_not_returns _ _
    · rw [if_neg hc]
      exact abend_longjmp_not_returns _ _

/-- C2: `abend(resp, resp2)` returns to its caller, with the task unchanged (nothing is
written to the client channel, control goes nowhere else), exactly when the current verb is
not ABEND (`cmdState` is not -17) and the resp binding is active (`respFieldsState > 0`);
in every other case it does not return.  The binding is active exactly after a RESP or
RESP2 token with a field (state 1 or 2) or a NOHANDLE token (state 3) since the verb was
opened with state 0. -/
theorem abend_returns_iff (resp resp2 : Int) (t : Task) :
    ((t.cmdState ≠ -17 ∧ t.respFieldsState > 0) → abend resp resp2 t = .ret t) ∧
    (¬ (t.cmdState ≠ -17 ∧ t.respFieldsState > 0) → (abend resp resp2 t).returns = false) ∧
    ((abend resp resp2 t).returns = true ↔ (t.cmdState ≠ -17 ∧ t.respFieldsState > 0)) ∧
    (∀ (id : Nat) (t1 : Task),
      execCallback_respBinding "RESP".toList (.field id) t = .ret t1 →
        t1.respFieldsState = 1 ∧ t1.respFields 0 = .field id) ∧
    (∀ (id : Nat) (t1 : Task),
      execCallback_respBinding "RESP2".toList (.field id) t = .ret t1 →
        t1.respFieldsState = 2 ∧ t1.respFields 1 = .field id) ∧
    (∀ (t1 : Task), t.respFieldsState = 0 →
      execCallback_respBinding "NOHANDLE".toList Ptr.null t = .ret t1 →
        t1.respFieldsState = 3) ∧
    (∀ (cmd : List Char) (t1 : Task), cmd ≠ "NOHANDLE".toList →
      execCallback_respBinding cmd Ptr.null t = .ret t1 →
        t1.respFieldsState = t.respFieldsState) := by
  obtain ⟨h1, h2⟩ := abend_cases resp resp2 t
  refine ⟨h1, h2, ?_, ?_, ?_, ?_, ?_⟩
  · constructor
    · intro hret
      by_contra hn
      rw [h2 hn] at hret
      exact absurd hret (by decide)
    · intro h
      rw [h1 h]; rfl
  · intro id t1 h
    have e1 : ("RESP".toList = "NOHANDLE".toList) = False := by decide
    have e2 : ("RESP".toList = "RESP2".toList) = False := by decide
    have e3 : (Ptr.field id ≠ Ptr.null) := by simp [Ptr.null]
    simp only [execCallback_respBinding, e1, false_and, if_false, e3, ne_eq, not_false_eq_true,
      if_true, derefField, e2] at h
    cases h
    simp [ptrSet]
  · intro id t1 h
    have e1 : ("RESP2".toList = "NOHANDLE".toList) = False := by decide
    have e2 : ("RESP2".toList = "RESP".toList) = False := by decide
    have e3 : (Ptr.field id ≠ Ptr.null) := by simp [Ptr.null]
    simp only [execCallback_respBinding, e1, false_and, if_false, e3, ne_eq, not_false_eq_true,
      if_true, derefField, e2] at h
    cases h
    simp [ptrSet]
  · intro t1 h0 h
    simp only [execCallback_respBinding, h0, and_self, if_true, ne_eq, not_true_eq_false,
      if_false] at h
    cases h
    rfl
  · intro cmd t1 hcmd h
    simp only [execCallback_respBinding, hcmd, false_and, if_false, ne_eq, not_true_eq_false] at h
    cases h
    rfl

/-- C3 (the failing input): a FREEMAIN of an address that is in no pool, with RESP bound to
field 1 and RESP2 bound to field 2.  The command ends with resp 16 and resp2 1; the EIB
receives 16 at offset 76 and 1 at offset 80 (big-endian, 4 bytes each) and the RESP field
receives 16, but the RESP2 field receives 16 as well (the resp, not the resp2). -/
theorem endExec_RESP2_receives_resp :
    (execCallback_endExec (Env.sample subProgram) Task.freemainBound).check (fun t =>
      (memRead t.mem (t.eibbuf + 76) 4).map Char.toNat == [0, 0, 0, 16]
        && (memRead t.mem (t.eibbuf + 80) 4).map Char.toNat == [0, 0, 0, 1]
        && (memRead t.mem (t.fields 1).data 4).map Char.toNat == [0, 0, 0, 16]
        && (memRead t.mem (t.fields 2).data 4).map Char.toNat == [0, 0, 0, 16]) = true := by
  decide

theorem Outcome.bind_eq_ret {α β : Type} (o : Outcome α) (f : α → Outcome β) (b : β)
    (h : o.bind f = .ret b) : ∃ a, o = .ret a ∧ f a = .ret b := by
  cases o with
  | ret a => exact ⟨a, rfl, h⟩
  | jump c t => simp [Outcome.bind] at h
  | hang => simp [Outcome.bind] at h
  | exit => simp [Outcome.bind] at h
  | undefined => simp [Outcome.bind] at h

theorem Option.eq_some_getD_of_isSome {α : Type} (o : Option α) (d : α)
    (h : o.isSome = true) : o = some (o.getD d) := by
  cases o with
  | none => simp at h
  | some a => rfl

theorem Outcome.eq_ret_getD {α : Type} (o : Outcome α) (d : α) (h : o.returns = true) :
    o = .ret (o.getD d) := by
  cases o <;> simp [Outcome.returns, Outcome.getD] at h ⊢

theorem abend_ret (resp resp2 : Int) (t t1 : Task) (h : abend resp resp2 t = .ret t1) :
    t1 = t := by
  by_cases hc : t.cmdState ≠ -17 ∧ t.respFieldsState > 0
  · rw [(abend_cases resp resp2 t).1 hc] at h
    cases h; rfl
  · have := (abend_cases resp resp2 t).2 hc
    rw [h] at this
    simp [Outcome.returns] at this

theorem abendIfResp_ret (s s1 : EndExec) (h : abendIfResp s = .ret s1) : s1 = s := by
  unfold abendIfResp at h
  split at h
  · obtain ⟨t1, h1, h2⟩ := Outcome.bind_eq_ret _ _ _ h
    have := abend_ret _ _ _ _ h1
    subst this
    cases h2; rfl
  · cases h; rfl

theorem segv_handler_ne_ret {α : Type} (t : Task) (a : α) : segv_handler t ≠ Outcome.ret a := by
  intro h
  unfold segv_handler at h
  obtain ⟨t1, _, h2⟩ := Outcome.bind_eq_ret _ _ _ h
  cases h2

theorem derefField_ret {α : Type} (t : Task) (p : Ptr) (k : CobField → Outcome α) (a : α)
    (h : derefField t p k = .ret a) : ∃ id, p = .field id ∧ k (t.fields id) = .ret a := by
  unfold derefField at h
  split at h
  · exact ⟨_, rfl, h⟩
  · exact absurd h (segv_handler_ne_ret _ _)
  · cases h

theorem endExec_LINK_call_ret (env : Env) (s s1 : EndExec)
    (h : endExec_LINK_call env s = .ret s1) :
    s1.t.respFieldsState = s.t.respFieldsState ∧ s1.t.respFields 0 = s.t.respFields 0 ∧
      s1.t.respFields 1 = s.t.respFields 1 ∧ s1.t.cmdState = -5 := by
  unfold endExec_LINK_call at h
  obtain ⟨r, _, h2⟩ := Outcome.bind_eq_ret _ _ _ h
  simp only at h2
  by_cases hr : r.1 < 0
  · simp only [hr, if_true] at h2
    rw [if_neg (by simp)] at h2
    cases h2
    simp [ptrSet]
  · simp only [hr, if_false] at h2
    split at h2
    · obtain ⟨id, _, h3⟩ := derefField_ret _ _ _ _ h2
      cases h3
      simp [ptrSet]
    · cases h2
      simp [ptrSet]

theorem endExec_LINK_push_frame (t : Task) :
    (endExec_LINK_push t).respFieldsState = t.respFieldsState ∧
      (endExec_LINK_push t).respFields = t.respFields ∧
      (endExec_LINK_push t).cmdState = t.cmdState := by
  unfold endExec_LINK_push
  simp only
  split <;> simp

theorem endExec_LINK_check_ret (s s1 : EndExec) (h : endExec_LINK_check s = .ret s1) :
    s1.t = s.t := by
  unfold endExec_LINK_check at h
  split at h
  · obtain ⟨id, _, h5⟩ := derefField_ret _ _ _ _ h
    split at h5 <;> (cases h5; rfl)
  · cases h; rfl

theorem endExec_LINK_pop_frame (s : EndExec) :
    (endExec_LINK_pop s).t.respFieldsState = s.t.respFieldsState ∧
      (endExec_LINK_pop s).t.respFields = s.t.respFields ∧
      (endExec_LINK_pop s).t.cmdState = s.t.cmdState ∧
      (endExec_LINK_pop s).resp = s.resp ∧ (endExec_LINK_pop s).resp2 = s.resp2 := by
  unfold endExec_LINK_pop
  split <;> simp

theorem endExec_LINK_ret (env : Env) (s s1 : EndExec) (hc : s.t.cmdState = -5)
    (hx : s.t.xctlState ≥ 1) (h : endExec_LINK env s = .ret s1) :
    s1.t.respFieldsState = s.t.respFieldsState ∧ s1.t.respFields 0 = s.t.respFields 0 ∧
      s1.t.respFields 1 = s.t.respFields 1 ∧ (s1.t.cmdState = -5 ∨ s1.t.cmdState = 0) := by
  unfold endExec_LINK at h
  rw [if_pos ⟨hc, hx⟩] at h
  simp only at h
  split at h
  · obtain ⟨a, hchk, h2⟩ := Outcome.bind_eq_ret _ _ _ h
    obtain ⟨b, hcall, h3⟩ := Outcome.bind_eq_ret _ _ _ h2
    have h4 := abendIfResp_ret _ _ h3
    subst h4
    have ha := endExec_LINK_check_ret _ _ hchk
    simp only at ha
    obtain ⟨p1, p2, p3⟩ := endExec_LINK_push_frame
      { s.t with xctlState := 0, cmdState := 0 }
    simp only at p1 p2 p3
    obtain ⟨q1, q2, q3, _, _⟩ := endExec_LINK_pop_frame b
    rw [q1, q2, q3]
    split at hcall
    · obtain ⟨c1, c2, c3, c4⟩ := endExec_LINK_call_ret env a b hcall
      rw [c1, c2, c3, ha, p1, p2]
      exact ⟨rfl, rfl, rfl, Or.inl c4⟩
    · cases hcall
      rw [ha, p1, p2, p3]
      exact ⟨rfl, rfl, rfl, Or.inr rfl⟩
  · cases h

/-- A block of the commit that tests for another verb tag leaves the state as it is. -/
theorem endExec_rest_skip (env : Env) (s : EndExec)
    (hc : s.t.cmdState = -5 ∨ s.t.cmdState = 0) :
    endExec_GETMAIN env s = .ret s ∧ endExec_FREEMAIN s = .ret s ∧ endExec_PUT s = .ret s ∧
    endExec_GET env s = .ret s ∧ endExec_ENQ env s = .ret s ∧ endExec_DEQ s = .ret s ∧
    endExec_SYNCPOINT env s = .ret s ∧ endExec_WRITEQ s = .ret s ∧ endExec_READQ s = .ret s ∧
    endExec_DELETEQ s = .ret s ∧ endExec_ABEND s = .ret s ∧ endExec_READONLY s = .ret s ∧
    endExec_START s = .ret s ∧ endExec_SOAPFAULT s = .ret s ∧ endExec_INVOKE s = .ret s ∧
    endExec_QUERY env s = .ret s := by
  rcases hc with hc | hc <;>
    simp [endExec_GETMAIN, endExec_FREEMAIN, endExec_PUT, endExec_GET, endExec_ENQ, endExec_DEQ,
      endExec_SYNCPOINT, endExec_WRITEQ, endExec_READQ, endExec_DELETEQ, endExec_ABEND,
      endExec_READONLY, endExec_START, endExec_SOAPFAULT, endExec_INVOKE, endExec_QUERY, hc]

theorem Outcome.ret_bind {α β : Type} (a : α) (f : α → Outcome β) :
    (Outcome.ret a).bind f = f a := rfl

theorem endExec_finish_RESP (env : Env) (eibbuf : Nat) (s : EndExec) (t1 : Task) (id : Nat)
    (h1 : s.t.respFieldsState = 1) (h2 : s.t.respFields 0 = .field id)
    (h : endExec_finish env eibbuf s = .ret t1) :
    t1.mem = setNumericValue env.stack s.resp (s.t.fields id)
      (cob_put_u64_compx (cob_put_u64_compx s.t.mem s.resp (eibbuf + 76) 4) s.resp2
        (eibbuf + 80) 4) ∧ t1.cmdState = 0 ∧ t1.respFieldsState = 0 := by
  unfold endExec_finish at h
  simp only [h1, if_true, setRespField, h2, derefField, Outcome.ret_bind] at h
  rw [if_neg (by decide)] at h
  simp only [Outcome.ret_bind] at h
  cases h
  exact ⟨rfl, rfl, rfl⟩

/-- C4: a LINK commit that returns to the artifact ends with the resp binding the command
had before its commit, whatever the linked program did.  The nested call itself
(`endExec_LINK_call`: the target is loaded and called in mode 1, it may run any sequence
of commands) returns with `respFieldsState` and both field references equal to their
values immediately before it and with the command state equal to the LINK tag -5; the end
of the commit then stores the resp of the LINK into the RESP field the caller bound. -/
theorem link_preserves_resp_binding (env : Env) (t t1 : Task)
    (hc : t.cmdState = -5) (hx : t.xctlState ≥ 1)
    (hret : execCallback_endExec env t = .ret t1) :
    (∀ s s1 : EndExec, endExec_LINK_call env s = .ret s1 →
      s1.t.respFieldsState = s.t.respFieldsState ∧ s1.t.respFields 0 = s.t.respFields 0 ∧
        s1.t.respFields 1 = s.t.respFields 1 ∧ s1.t.cmdState = -5) ∧
    ∃ s : EndExec,
      endExec_LINK env { t := { t with cmdbuf := [] }.write ['\n'], resp := 0, resp2 := 0 }
        = .ret s ∧
      s.t.respFieldsState = t.respFieldsState ∧ s.t.respFields 0 = t.respFields 0 ∧
      s.t.respFields 1 = t.respFields 1 ∧
      endExec_finish env t.eibbuf s = .ret t1 ∧
      (∀ id, s.t.respFieldsState = 1 → s.t.respFields 0 = .field id →
        t1.mem = setNumericValue env.stack s.resp (s.t.fields id)
          (cob_put_u64_compx (cob_put_u64_compx s.t.mem s.resp (t.eibbuf + 76) 4) s.resp2
            (t.eibbuf + 80) 4)) := by
  refine ⟨fun s s1 h => endExec_LINK_call_ret env s s1 h, ?_⟩
  unfold execCallback_endExec at hret
  have hc0 : ({ t with cmdbuf := [] }.write ['\n']).cmdState = -5 := hc
  have hx0 : ({ t with cmdbuf := [] }.write ['\n']).xctlState ≥ 1 := hx
  have e1 : endExec_RECEIVE { t := { t with cmdbuf := [] }.write ['\n'], resp := 0, resp2 := 0 }
      = .ret { t := { t with cmdbuf := [] }.write ['\n'], resp := 0, resp2 := 0 } := by
    simp [endExec_RECEIVE, hc0]
  have e2 : endExec_XCTL env
      { t := { t with cmdbuf := [] }.write ['\n'], resp := 0, resp2 := 0 }
      = .ret { t := { t with cmdbuf := [] }.write ['\n'], resp := 0, resp2 := 0 } := by
    simp [endExec_XCTL, hc0]
  have e3 : endExec_RETRIEVE
      { t := { t with cmdbuf := [] }.write ['\n'], resp := 0, resp2 := 0 }
      = .ret { t := { t with cmdbuf := [] }.write ['\n'], resp := 0, resp2 := 0 } := by
    simp [endExec_RETRIEVE, hc0]
  simp only at hret
  rw [e1, Outcome.ret_bind, e2, Outcome.ret_bind, e3, Outcome.ret_bind] at hret
  obtain ⟨s, hlink, hrest⟩ := Outcome.bind_eq_ret _ _ _ hret
  obtain ⟨b1, b2, b3, b4⟩ := endExec_LINK_ret env _ s hc0 hx0 hlink
  obtain ⟨k1, k2, k3, k4, k5, k6, k7, k8, k9, k10, k11, k12, k13, k14, k15, k16⟩ :=
    endExec_rest_skip env s b4
  rw [k1, Outcome.ret_bind, k2, Outcome.ret_bind, k3, Outcome.ret_bind, k4, Outcome.ret_bind,
    k5, Outcome.ret_bind, k6, Outcome.ret_bind, k7, Outcome.ret_bind, k8, Outcome.ret_bind,
    k9, Outcome.ret_bind, k10, Outcome.ret_bind, k11, Outcome.ret_bind, k12, Outcome.ret_bind,
    k13, Outcome.ret_bind, k14, Outcome.ret_bind, k15, Outcome.ret_bind, k16,
    Outcome.ret_bind] at hrest
  refine ⟨s, hlink, b1, b2, b3, hrest, ?_⟩
  intro id h1 h2
  exact (endExec_finish_RESP env t.eibbuf s t1 id h1 h2 hrest).1

/-- C4 (witness): `LINK PROGRAM('SUB1') COMMAREA(field 0)` with RESP bound to field 1; the
program SUB1 runs a command of its own, which clears the binding.  After the commit the
RESP field holds the resp 0 of the LINK and the COMMAREA field holds `RESULT!!`. -/
theorem link_preserves_resp_binding_witness :
    (execCallback_endExec (Env.sample subProgram) Task.linkBound).check (fun t =>
      (memRead t.mem (t.fields 1).data 4).map Char.toNat == [0, 0, 0, 0]
        && memRead t.mem (t.fields 0).data 8 == "RESULT!!".toList
        && t.out == "\nSEND\n\n".toList && t.linkStackPtr == 0) = true ∧
    ((∀ s s1 : EndExec, endExec_LINK_call (Env.sample subProgram) s = .ret s1 →
      s1.t.respFieldsState = s.t.respFieldsState ∧ s1.t.respFields 0 = s.t.respFields 0 ∧
        s1.t.respFields 1 = s.t.respFields 1 ∧ s1.t.cmdState = -5) ∧
    ∃ s : EndExec,
      endExec_LINK (Env.sample subProgram)
        { t := { Task.linkBound with cmdbuf := [] }.write ['\n'], resp := 0, resp2 := 0 }
        = .ret s ∧
      s.t.respFieldsState = Task.linkBound.respFieldsState ∧
      s.t.respFields 0 = Task.linkBound.respFields 0 ∧
      s.t.respFields 1 = Task.linkBound.respFields 1 ∧
      endExec_finish (Env.sample subProgram) Task.linkBound.eibbuf s
        = .ret Task.linkBoundDone ∧
      (∀ id, s.t.respFieldsState = 1 → s.t.respFields 0 = .field id →
        Task.linkBoundDone.mem = setNumericValue (Env.sample subProgram).stack s.resp
          (s.t.fields id)
          (cob_put_u64_compx
            (cob_put_u64_compx s.t.mem s.resp (Task.linkBound.eibbuf + 76) 4) s.resp2
            (Task.linkBound.eibbuf + 80) 4))) :=
  ⟨by decide!, link_preserves_resp_binding (Env.sample subProgram) Task.linkBound
    Task.linkBoundDone (by decide) (by decide)
    (Outcome.eq_ret_getD _ _ (by decide))⟩

/-- C5 (the failing input): a LINK with a COMMAREA field of exactly 32768 bytes.  When the
field token arrives the field is recorded but its bytes are not copied (the guard is
`size < 32768`): the communication area keeps its old content.  The commit does not reject
the field (its guard is `size > 32768`): the target is loaded and called, and the command
ends with resp 0. -/
theorem link_commarea_32768_not_copied :
    (execCallback_linkCommarea (.field 0) Task.linkCommarea32768).check (fun t =>
      t.xctlParams1 == .field 0 && t.xctlState == 10
        && t.mem t.commArea == 'O' && t.mem (t.fields 0).data == 'N'
        && (execCallback_endExec (Env.sample subProgram) t).check (fun t1 =>
          t1.events == [.dlopen "SUB1".toList, .dlclose "SUB1".toList]
            && t1.out == "\nSEND\n\n".toList
            && (memRead t1.mem (t1.eibbuf + 76) 4).map Char.toNat == [0, 0, 0, 0])) = true := by
  decide

/-- C6 (counterexample): the END-EXEC of `XCTL PROGRAM('SUB1')`, with a target that runs
to completion, returns normally to the artifact that issued the XCTL. -/
theorem xctl_returns_to_caller :
    (execCallback_endExec (Env.sample subProgram) Task.xctl).returns = true ∧
    (execCallback_endExec (Env.sample subProgram) Task.xctl).check (fun t =>
      t.out == "\nSEND\n\n".toList && t.cmdState == 0
        && t.events == [.dlopen "SUB1".toList, .dlclose "SUB1".toList]) = true := by
  constructor <;> decide

/-- In the idle command state no block of the commit after XCTL does anything. -/
theorem endExec_idle_skip (env : Env) (s : EndExec) (hc : s.t.cmdState = 0) :
    endExec_RETRIEVE s = .ret s ∧ endExec_LINK env s = .ret s := by
  simp [endExec_RETRIEVE, endExec_LINK, hc]

theorem execLoadModule_nested (env : Env) (name : NamePtr) (t : Task)
    (entry : Task → Outcome Task) (reg : ModuleRegistry)
    (hload : env.load (name.read t) = .ok entry)
    (hstart : startModule t.registry (String.mk (name.read t)) = some reg) :
    execLoadModule env name 1 0 t
      = (entry (execLoadModule_callState (name.read t) reg t)).bind
          (execLoadModule_finish (name.read t) name 1) := by
  have h10 : ((1 : Int) = 0) = False := by decide
  unfold execLoadModule
  simp only [hload, h10, if_false, Task.log, hstart]
  rfl

theorem execLoadModule_finish_nested (opened : List Char) (name : NamePtr) (t : Task) :
    execLoadModule_finish opened name 1 t
      = .ret (0, ({ t with registry := endModule t.registry (String.mk (name.read t)) }).log
          (.dlclose opened)) := by
  have h10 : ((1 : Int) = 0) = False := by decide
  unfold execLoadModule_finish
  simp only [h10, false_and, if_false]

theorem endExec_finish_unbound (env : Env) (eibbuf : Nat) (s : EndExec)
    (h : s.t.respFieldsState = 0) :
    endExec_finish env eibbuf s
      = .ret { s.t with
          mem := cob_put_u64_compx (cob_put_u64_compx s.t.mem s.resp (eibbuf + 76) 4)
            s.resp2 (eibbuf + 80) 4,
          cmdState := 0, respFieldsState := 0 } := by
  simp [endExec_finish, h, Outcome.bind]

/-- C6 (amended): when an XCTL command with a PROGRAM argument is committed and the target
program runs to completion (it is loaded, its name is not running yet, its entry returns
with the command state idle and no resp binding active), control is handed back: the
END-EXEC callback returns normally to the artifact that issued the XCTL, with the command
state idle, the resp binding reset and nothing written after the output of the target.
Before it returns, `execLoadModule` calls `endModule` with the name that the name buffer
`xctlParams[0]` holds after the target has run, and the commit stores resp 0 and resp2 0
into the EIB block that was bound when the callback was entered. -/
theorem xctl_commit_returns (env : Env) (t : Task) (entry : Task → Outcome Task)
    (reg : ModuleRegistry)
    (hc : t.cmdState = -3) (hx : t.xctlState ≥ 1)
    (hload : env.load t.progname = .ok entry)
    (hstart : startModule t.registry (String.mk t.progname) = some reg)
    (hrun : (entry (execLoadModule_callState t.progname reg (endExec_XCTL_state t))).check
      (fun t3 => decide (t3.cmdState = 0 ∧ t3.respFieldsState = 0)) = true) :
    (execCallback_endExec env t).returns = true ∧
    ∃ t3 t1 : Task,
      entry (execLoadModule_callState t.progname reg (endExec_XCTL_state t)) = .ret t3 ∧
      execCallback_endExec env t = .ret t1 ∧
      t1.out = t3.out ∧ t1.cmdState = 0 ∧ t1.respFieldsState = 0 ∧
      t1.registry = endModule t3.registry (String.mk t3.progname) ∧
      t1.mem = cob_put_u64_compx (cob_put_u64_compx t3.mem 0 (t.eibbuf + 76) 4) 0
        (t.eibbuf + 80) 4 := by
  -- the target returns
  cases hent : entry (execLoadModule_callState t.progname reg (endExec_XCTL_state t)) with
  | ret t3 =>
    rw [hent] at hrun
    simp only [Outcome.check, decide_eq_true_eq] at hrun
    obtain ⟨hidle, hbind⟩ := hrun
    have hc0 : ({ t with cmdbuf := [] }.write ['\n']).cmdState = -3 := hc
    have hx0 : ({ t with cmdbuf := [] }.write ['\n']).xctlState ≥ 1 := hx
    have e1 : endExec_RECEIVE { t := { t with cmdbuf := [] }.write ['\n'], resp := 0, resp2 := 0 }
        = .ret { t := { t with cmdbuf := [] }.write ['\n'], resp := 0, resp2 := 0 } := by
      simp [endExec_RECEIVE, hc0]
    -- the XCTL block returns with the state the target left, deregistered
    have e2 : endExec_XCTL env
        { t := { t with cmdbuf := [] }.write ['\n'], resp := 0, resp2 := 0 }
        = .ret { t := ({ t3 with registry := endModule t3.registry (String.mk t3.progname) }).log
                    (.dlclose t.progname), resp := 0, resp2 := 0 } := by
      unfold endExec_XCTL
      rw [if_pos ⟨hc0, hx0⟩]
      show (execLoadModule env .xctlParams0 1 0 (endExec_XCTL_state t)).bind _ = _
      have hread : NamePtr.xctlParams0.read (endExec_XCTL_state t) = t.progname := rfl
      rw [execLoadModule_nested env .xctlParams0 (endExec_XCTL_state t) entry reg hload hstart,
        hread, hent, Outcome.ret_bind, execLoadModule_finish_nested, Outcome.ret_bind]
      rfl
    unfold execCallback_endExec
    simp only
    rw [e1, Outcome.ret_bind, e2, Outcome.ret_bind]
    have hidle0 : (({ t3 with registry := endModule t3.registry (String.mk t3.progname) }).log
        (.dlclose t.progname)).cmdState = 0 := hidle
    obtain ⟨r1, r2⟩ := endExec_idle_skip env
      { t := ({ t3 with registry := endModule t3.registry (String.mk t3.progname) }).log
          (.dlclose t.progname), resp := 0, resp2 := 0 } hidle0
    obtain ⟨k1, k2, k3, k4, k5, k6, k7, k8, k9, k10, k11, k12, k13, k14, k15, k16⟩ :=
      endExec_rest_skip env
        { t := ({ t3 with registry := endModule t3.registry (String.mk t3.progname) }).log
            (.dlclose t.progname), resp := 0, resp2 := 0 } (Or.inr hidle0)
    rw [r1, Outcome.ret_bind, r2, Outcome.ret_bind]
    rw [k1, Outcome.ret_bind, k2, Outcome.ret_bind, k3, Outcome.ret_bind, k4, Outcome.ret_bind,
      k5, Outcome.ret_bind, k6, Outcome.ret_bind, k7, Outcome.ret_bind, k8, Outcome.ret_bind,
      k9, Outcome.ret_bind, k10, Outcome.ret_bind, k11, Outcome.ret_bind, k12, Outcome.ret_bind,
      k13, Outcome.ret_bind, k14, Outcome.ret_bind, k15, Outcome.ret_bind, k16,
      Outcome.ret_bind]
    have hb0 : (({ t3 with registry := endModule t3.registry (String.mk t3.progname) }).log
        (.dlclose t.progname)).respFieldsState = 0 := hbind
    rw [endExec_finish_unbound env _ _ hb0]
    exact ⟨rfl, t3, _, rfl, rfl, rfl, rfl, rfl, rfl, rfl⟩
  | jump c t3 => rw [hent] at hrun; simp [Outcome.check] at hrun
  | hang => rw [hent] at hrun; simp [Outcome.check] at hrun
  | exit => rw [hent] at hrun; simp [Outcome.check] at hrun
  | undefined => rw [hent] at hrun; simp [Outcome.check] at hrun

/-- C6 (witness): `XCTL PROGRAM('SUB1')` where SUB1 runs a SEND and returns. -/
theorem xctl_commit_returns_witness :
    (execCallback_endExec (Env.sample subProgram) Task.xctl).returns = true ∧
    ∃ t3 t1 : Task,
      subProgram (execLoadModule_callState Task.xctl.progname ModuleRegistry.sub1
        (endExec_XCTL_state Task.xctl)) = .ret t3 ∧
      execCallback_endExec (Env.sample subProgram) Task.xctl = .ret t1 ∧
      t1.out = t3.out ∧ t1.cmdState = 0 ∧ t1.respFieldsState = 0 ∧
      t1.registry = endModule t3.registry (String.mk t3.progname) ∧
      t1.mem = cob_put_u64_compx (cob_put_u64_compx t3.mem 0 (Task.xctl.eibbuf + 76) 4) 0
        (Task.xctl.eibbuf + 80) 4 :=
  xctl_commit_returns (Env.sample subProgram) Task.xctl subProgram ModuleRegistry.sub1
    (by decide) (by decide) rfl rfl (by decide!)

theorem cstrAt_nat (s : List Char) (m : Nat) : cstrAt s (m : Int) = s.getD m NUL := by
  simp [cstrAt]

theorem convertNumeric_copyFrac_spec (val : List Char) (digits scale : Int)
    (hs : 0 ≤ scale) (hd : scale ≤ digits) :
    ∀ (n : Nat) (F : List Char) (pos i : Int) (buf : CharBuf),
      (∀ c ∈ F, c ≠ NUL) → 0 ≤ i → i ≤ scale → (scale - i).toNat ≤ n →
      (∀ m : Nat, cstrAt val (pos + m) = F.getD m NUL) →
      (convertNumeric_copyFrac val digits scale n pos i buf).1 = min scale (i + F.length) ∧
      ∀ j : Nat, (convertNumeric_copyFrac val digits scale n pos i buf).2 j =
        if digits - scale + i ≤ j ∧ (j : Int) < digits - scale + min scale (i + F.length)
        then F.getD (j - (digits - scale + i)).toNat NUL else buf j := by
  intro n
  induction n with
  | zero =>
    intro F pos i buf _ h0 h1 h2 _
    have : i = scale := by omega
    subst this
    simp only [convertNumeric_copyFrac]
    refine ⟨by omega, fun j => ?_⟩
    rw [if_neg]; omega
  | succ n ih =>
    intro F pos i buf hF h0 h1 h2 hv
    simp only [convertNumeric_copyFrac]
    have hv0 := hv 0
    simp only [Nat.cast_zero, add_zero] at hv0
    cases F with
    | nil =>
      simp only [List.getD_nil] at hv0
      simp only [hv0, ne_eq, not_true_eq_false, false_and, if_false, List.length_nil,
        Nat.cast_zero, add_zero]
      refine ⟨by omega, fun j => ?_⟩
      rw [if_neg]; omega
    | cons c F' =>
      simp only [List.getD_cons_zero] at hv0
      have hc : c ≠ NUL := hF c (List.mem_cons_self _ _)
      by_cases hi : i < scale
      · rw [if_pos ⟨by rw [hv0]; exact hc, hi⟩]
        have hv' : ∀ m : Nat, cstrAt val (pos + 1 + m) = F'.getD m NUL := by
          intro m
          have := hv (m + 1)
          simp only [List.getD_cons_succ] at this
          rw [← this]; congr 1; push_cast; ring
        obtain ⟨e1, e2⟩ := ih F' (pos + 1) (i + 1)
          (bufSet buf (digits - scale + i).toNat (cstrAt val pos))
          (fun c hc => hF c (List.mem_cons_of_mem _ hc)) (by omega) (by omega) (by omega) hv'
        refine ⟨by rw [e1]; simp only [List.length_cons]; push_cast; omega, fun j => ?_⟩
        rw [e2 j]
        simp only [List.length_cons, Nat.cast_add, Nat.cast_one]
        by_cases hj : (j : Int) = digits - scale + i
        · rw [if_neg (by omega), if_pos (by omega)]
          have : (↑j - (digits - scale + i)).toNat = 0 := by omega
          rw [this, List.getD_cons_zero, hv0]
          simp [bufSet]; omega
        · by_cases hj2 : digits - scale + (i + 1) ≤ ↑j ∧ (j:Int) < digits - scale + min scale (i + 1 + ↑F'.length)
          · rw [if_pos hj2, if_pos (by omega)]
            have : (↑j - (digits - scale + i)).toNat = (↑j - (digits - scale + (i + 1))).toNat + 1 := by omega
            rw [this, List.getD_cons_succ]
          · rw [if_neg hj2, if_neg (by omega)]
            simp only [bufSet]
            rw [if_neg]; omega
      · have : i = scale := by omega
        subst this
        rw [if_neg (by omega)]
        refine ⟨by simp only [List.length_cons]; omega, fun j => ?_⟩
        rw [if_neg]; simp only [List.length_cons]; omega

theorem convertNumeric_padRight_spec (digits scale : Int) (hd : scale ≤ digits) :
    ∀ (n : Nat) (i : Int) (buf : CharBuf), 0 ≤ i → i ≤ scale → (scale - i).toNat ≤ n →
      ∀ j : Nat, convertNumeric_padRight digits scale n i buf j =
        if digits - scale + i ≤ j ∧ (j : Int) < digits then '0' else buf j := by
  intro n
  induction n with
  | zero =>
    intro i buf h0 h1 h2 j
    simp only [convertNumeric_padRight]
    rw [if_neg]; omega
  | succ n ih =>
    intro i buf h0 h1 h2 j
    simp only [convertNumeric_padRight]
    by_cases hi : i < scale
    · rw [if_pos hi, ih (i + 1) _ (by omega) (by omega) (by omega) j]
      by_cases hj : (j : Int) = digits - scale + i
      · rw [if_neg (by omega), if_pos (by omega)]
        simp [bufSet]; omega
      · by_cases hj2 : digits - scale + (i + 1) ≤ ↑j ∧ (j : Int) < digits
        · rw [if_pos hj2, if_pos (by omega)]
        · rw [if_neg hj2, if_neg (by omega)]
          simp only [bufSet]
          rw [if_neg]; omega
    · rw [if_neg hi, if_neg]; omega

theorem convertNumeric_copyInt_spec (val : List Char) :
    ∀ (n : Nat) (pos i : Int) (buf : CharBuf), -1 ≤ pos → -1 ≤ i → (i + 1).toNat ≤ n →
      (convertNumeric_copyInt val n pos i buf).1 = i - min (pos + 1) (i + 1) ∧
      ∀ j : Nat, (convertNumeric_copyInt val n pos i buf).2 j =
        if i - min (pos + 1) (i + 1) < j ∧ (j : Int) ≤ i
        then cstrAt val (pos - (i - j)) else buf j := by
  intro n
  induction n with
  | zero =>
    intro pos i buf h0 h1 h2
    simp only [convertNumeric_copyInt]
    refine ⟨by omega, fun j => ?_⟩
    rw [if_neg]; omega
  | succ n ih =>
    intro pos i buf h0 h1 h2
    simp only [convertNumeric_copyInt]
    by_cases hc : pos ≥ 0 ∧ i ≥ 0
    · rw [if_pos hc]
      obtain ⟨e1, e2⟩ := ih (pos - 1) (i - 1) (bufSet buf i.toNat (cstrAt val pos))
        (by omega) (by omega) (by omega)
      refine ⟨by rw [e1]; omega, fun j => ?_⟩
      rw [e2 j]
      by_cases hj : (j : Int) = i
      · rw [if_neg (by omega), if_pos (by omega)]
        have : pos - (i - ↑j) = pos := by omega
        rw [this]
        simp [bufSet]; omega
      · by_cases hj2 : i - 1 - min (pos - 1 + 1) (i - 1 + 1) < ↑j ∧ (j : Int) ≤ i - 1
        · rw [if_pos hj2, if_pos (by omega)]
          congr 1; omega
        · rw [if_neg hj2, if_neg (by omega)]
          simp only [bufSet]
          rw [if_neg]; omega
    · rw [if_neg hc]
      refine ⟨by omega, fun j => ?_⟩
      rw [if_neg]; omega

theorem convertNumeric_padLeft_spec :
    ∀ (n : Nat) (i : Int) (buf : CharBuf), -1 ≤ i → (i + 1).toNat ≤ n →
      ∀ j : Nat, convertNumeric_padLeft n i buf j = if (j : Int) ≤ i then '0' else buf j := by
  intro n
  induction n with
  | zero =>
    intro i buf h1 h2 j
    simp only [convertNumeric_padLeft]
    rw [if_neg]; omega
  | succ n ih =>
    intro i buf h1 h2 j
    simp only [convertNumeric_padLeft]
    by_cases hi : i ≥ 0
    · rw [if_pos hi, ih (i - 1) _ (by omega) (by omega) j]
      by_cases hj : (j : Int) = i
      · rw [if_neg (by omega), if_pos (by omega)]
        simp [bufSet]; omega
      · by_cases hj2 : (j : Int) ≤ i - 1
        · rw [if_pos hj2, if_pos (by omega)]
        · rw [if_neg hj2, if_neg (by omega)]
          simp only [bufSet]
          rw [if_neg]; omega
    · rw [if_neg hi, if_neg]; omega

theorem convertNumeric_cell (val : List Char) (hval : ∀ c ∈ val, c ≠ NUL) (k s : Nat)
    (buf : CharBuf) (j : Nat) :
    convertNumeric val ((k + s : Nat) : Int) (s : Int) buf j =
      if j < k then
        (if k - j ≤ (intPart val).length then (intPart val).getD ((intPart val).length - (k - j)) NUL
         else '0')
      else if j < k + s then
        (if j - k < (fracPart val).length then (fracPart val).getD (j - k) NUL else '0')
      else if j = k + s then NUL else buf j := by
  have hsep : ∃ (sepK : Nat) (p : Int), sepK ≤ val.length ∧
      ((match strchr val '.' with | some k => (k : Int) | none => (val.length : Int) - 1) + 1 = p) ∧
      ((match strchr val '.' with | some k => (k : Int) | none => (val.length : Int)) - 1
        = (sepK : Int) - 1) ∧
      intPart val = val.take sepK ∧ (∀ m : Nat, cstrAt val (p + m) = (fracPart val).getD m NUL) := by
    unfold intPart fracPart strchr
    by_cases hdot : '.' ∈ val
    · simp only [hdot, if_true]
      refine ⟨val.indexOf '.', _, (List.indexOf_lt_length.mpr hdot).le, rfl, rfl, rfl, ?_⟩
      intro m
      have : ((val.indexOf '.' : Nat) : Int) + 1 + (m : Int) = ((val.indexOf '.' + 1 + m : Nat) : Int) := by
        push_cast; ring
      rw [this, cstrAt_nat, List.getD_eq_getElem?_getD, List.getD_eq_getElem?_getD,
        List.getElem?_drop]
    · simp only [hdot, if_false]
      refine ⟨val.length, _, le_refl _, rfl, rfl, by simp, ?_⟩
      intro m
      have : (val.length : Int) - 1 + 1 + (m : Int) = ((val.length + m : Nat) : Int) := by
        push_cast; ring
      rw [this, cstrAt_nat, List.getD_eq_getElem?_getD, List.getD_eq_getElem?_getD,
        List.getElem?_eq_none (by omega)]
      simp
  obtain ⟨sepK, p, hsepK, hp, hp2, hI, hFv⟩ := hsep
  have hFn : ∀ c ∈ fracPart val, c ≠ NUL := by
    intro c hc
    apply hval
    unfold fracPart at hc
    split at hc
    · exact List.mem_of_mem_drop hc
    · simp at hc
  have hIlen : (intPart val).length = sepK := by rw [hI]; simp [hsepK]
  simp only [convertNumeric, hp, hp2]
  obtain ⟨f1, f2⟩ := convertNumeric_copyFrac_spec val ((k + s : Nat) : Int) (s : Int)
    (by omega) (by omega) (s : Int).toNat (fracPart val) p 0 buf hFn (le_refl _) (by omega)
    (by omega) hFv
  have g := convertNumeric_padRight_spec ((k + s : Nat) : Int) (s : Int) (by omega)
  obtain ⟨c1, c2⟩ := convertNumeric_copyInt_spec val (((k + s : Nat) : Int) - (s : Int)).toNat
    ((sepK : Int) - 1) (((k + s : Nat) : Int) - (s : Int) - 1)
    (convertNumeric_padRight ((k + s : Nat) : Int) (s : Int)
      ((s : Int) - (convertNumeric_copyFrac val ((k + s : Nat) : Int) (s : Int) (s : Int).toNat p 0 buf).1).toNat
      (convertNumeric_copyFrac val ((k + s : Nat) : Int) (s : Int) (s : Int).toNat p 0 buf).1
      (convertNumeric_copyFrac val ((k + s : Nat) : Int) (s : Int) (s : Int).toNat p 0 buf).2)
    (by omega) (by omega) (by omega)
  simp only [bufSet]
  by_cases hj0 : j = k + s
  · subst hj0
    rw [if_pos (by omega), if_neg (by omega), if_neg (by omega)]
    simp
  rw [if_neg (by omega)]
  rw [convertNumeric_padLeft_spec _ _ _ (by rw [c1]; omega) (le_refl _) j, c1, c2 j,
    g _ _ _ (by rw [f1]; omega) (by rw [f1]; omega) (by omega) j, f1, f2 j]
  by_cases hjk : j < k
  · rw [if_pos hjk]
    by_cases hjI : k - j ≤ (intPart val).length
    · rw [if_pos hjI, if_neg (by omega), if_pos (by omega)]
      have : (sepK : Int) - 1 - (((k + s : Nat) : Int) - (s : Int) - 1 - (j : Int))
          = ((sepK - (k - j) : Nat) : Int) := by omega
      rw [this, cstrAt_nat, hIlen, hI, List.getD_eq_getElem?_getD, List.getD_eq_getElem?_getD,
        List.getElem?_take_of_lt (by omega)]
    · rw [if_neg hjI, if_pos (by omega)]
  · rw [if_neg hjk, if_neg (by omega), if_neg (by omega)]
    by_cases hjs : j < k + s
    · rw [if_pos hjs]
      by_cases hjF : j - k < (fracPart val).length
      · rw [if_pos hjF, if_neg (by omega), if_pos (by omega)]
        congr 1; omega
      · rw [if_neg hjF, if_pos (by omega)]
    · rw [if_neg hjs, if_neg hj0, if_neg (by omega), if_neg (by omega)]

theorem zonedLayout_length (I F : List Char) (k s : Nat) :
    (zonedLayout I F k s).length = k + s := by
  simp only [zonedLayout, List.length_append, List.length_replicate, List.length_drop,
    List.length_take]
  omega

theorem zonedLayout_getElem? (I F : List Char) (k s j : Nat) (hj : j < k + s) :
    (zonedLayout I F k s)[j]? = some (
      if j < k then
        (if k - j ≤ I.length then I.getD (I.length - (k - j)) NUL else '0')
      else (if j - k < F.length then F.getD (j - k) NUL else '0')) := by
  have hlen1 : (List.replicate (k - I.length) '0' ++ I.drop (I.length - k)).length = k := by
    simp only [List.length_append, List.length_replicate, List.length_drop]; omega
  unfold zonedLayout
  by_cases hjk : j < k
  · rw [if_pos hjk, List.getElem?_append_left (by omega)]
    by_cases hjI : k - j ≤ I.length
    · rw [if_pos hjI, List.getElem?_append_right (by simp only [List.length_replicate]; omega),
        List.getElem?_drop, List.length_replicate, List.getD_eq_getElem?_getD]
      have e : I.length - k + (j - (k - I.length)) = I.length - (k - j) := by omega
      rw [e, List.getElem?_eq_getElem (by omega)]
      simp
    · rw [if_neg hjI, List.getElem?_append_left (by simp only [List.length_replicate]; omega),
        List.getElem?_replicate, if_pos (by omega)]
  · rw [if_neg hjk, List.getElem?_append_right (by omega), hlen1]
    by_cases hjF : j - k < F.length
    · rw [if_pos hjF, List.getElem?_append_left (by simp only [List.length_take]; omega),
        List.getElem?_take_of_lt (by omega), List.getD_eq_getElem?_getD,
        List.getElem?_eq_getElem (by omega)]
      simp
    · rw [if_neg hjF, List.getElem?_append_right (by simp only [List.length_take]; omega),
        List.getElem?_replicate, if_pos (by simp only [List.length_take]; omega)]

theorem takeWhile_ne_append_self (l : List Char) (c : Char) (h : ∀ x ∈ l, x ≠ c) :
    (l ++ [c]).takeWhile (fun x => x != c) = l := by
  induction l with
  | nil => simp
  | cons a t ih =>
    have ha : a ≠ c := h a (List.mem_cons_self _ _)
    simp only [List.cons_append, List.takeWhile_cons, bne_iff_ne, ne_eq, ha, not_false_eq_true,
      if_true]
    rw [ih (fun x hx => h x (List.mem_cons_of_mem _ hx))]

theorem zonedLayout_ne_NUL (I F : List Char) (k s : Nat) (hI : ∀ c ∈ I, c ≠ NUL)
    (hF : ∀ c ∈ F, c ≠ NUL) : ∀ c ∈ zonedLayout I F k s, c ≠ NUL := by
  intro c hc
  have h0 : ('0' : Char) ≠ NUL := by decide
  simp only [zonedLayout, List.mem_append, List.mem_replicate] at hc
  rcases hc with (⟨_, rfl⟩ | hc) | hc | ⟨_, rfl⟩
  · exact h0
  · exact hI c (List.mem_of_mem_drop hc)
  · exact hF c (List.mem_of_mem_take hc)
  · exact h0

theorem convertNumericStr_eq_zonedLayout (val : List Char) (hval : ∀ c ∈ val, c ≠ NUL)
    (k s : Nat) (buf : CharBuf) :
    convertNumericStr val ((k + s : Nat) : Int) (s : Int) buf
      = zonedLayout (intPart val) (fracPart val) k s := by
  have hI : ∀ c ∈ intPart val, c ≠ NUL := by
    intro c hc
    apply hval
    unfold intPart at hc
    split at hc
    · exact List.mem_of_mem_take hc
    · exact hc
  have hF : ∀ c ∈ fracPart val, c ≠ NUL := by
    intro c hc
    apply hval
    unfold fracPart at hc
    split at hc
    · exact List.mem_of_mem_drop hc
    · simp at hc
  have hmap : (List.range (((k + s : Nat) : Int).toNat + 1)).map
      (convertNumeric val ((k + s : Nat) : Int) (s : Int) buf)
      = zonedLayout (intPart val) (fracPart val) k s ++ [NUL] := by
    apply List.ext_getElem?
    intro j
    by_cases hj : j < k + s
    · rw [List.getElem?_append_left (by rw [zonedLayout_length]; exact hj),
        zonedLayout_getElem? _ _ _ _ _ hj, List.getElem?_map,
        List.getElem?_range (by simp only [Int.toNat_ofNat]; omega)]
      simp only [Option.map_some']
      rw [convertNumeric_cell val hval]
      by_cases hjk : j < k
      · simp only [hjk, if_true]
      · simp only [hjk, if_false, hj, if_true]
    · by_cases hj2 : j = k + s
      · subst hj2
        rw [List.getElem?_append_right (by rw [zonedLayout_length]), zonedLayout_length,
          List.getElem?_map, List.getElem?_range (by simp only [Int.toNat_ofNat]; omega)]
        simp only [Option.map_some']
        rw [convertNumeric_cell val hval]
        simp
      · rw [List.getElem?_eq_none (by simp only [List.length_map, List.length_range, Int.toNat_ofNat]; omega),
          List.getElem?_eq_none (by simp only [List.length_append, zonedLayout_length, List.length_singleton]; omega)]
  unfold convertNumericStr readCStr
  rw [hmap]
  exact takeWhile_ne_append_self _ _ (zonedLayout_ne_NUL _ _ _ _ hI hF)

theorem digitChar_spec (m : Nat) (h : m < 10) :
    (Nat.digitChar m).isDigit = true ∧ (Nat.digitChar m).toNat - 48 = m := by
  interval_cases m <;> exact ⟨by decide, by decide⟩

theorem parseDigits_append (l1 l2 : List Char) :
    parseDigits (l1 ++ l2) = l2.foldl (fun a c => 10 * a + (c.toNat - 48)) (parseDigits l1) := by
  simp [parseDigits, List.foldl_append]

theorem parseDigits_append_singleton (l : List Char) (c : Char) :
    parseDigits (l ++ [c]) = 10 * parseDigits l + (c.toNat - 48) := by
  simp [parseDigits_append]

theorem foldl_zeros (m a : Nat) :
    (List.replicate m '0').foldl (fun a c => 10 * a + (c.toNat - 48)) a = a * 10 ^ m := by
  induction m generalizing a with
  | zero => simp
  | succ m ih =>
    simp only [List.replicate_succ, List.foldl_cons]
    rw [ih]
    have : ('0' : Char).toNat - 48 = 0 := by decide
    rw [this, pow_succ]; ring

theorem parseDigits_zeros_append (m : Nat) (l : List Char) :
    parseDigits (List.replicate m '0' ++ l) = parseDigits l := by
  rw [parseDigits_append]
  have : parseDigits (List.replicate m '0') = 0 := by
    unfold parseDigits; rw [foldl_zeros]; simp
  rw [this]; rfl

theorem parseDigits_append_zeros (l : List Char) (m : Nat) :
    parseDigits (l ++ List.replicate m '0') = parseDigits l * 10 ^ m := by
  rw [parseDigits_append, foldl_zeros]

theorem toDigitsCore_spec : ∀ (fuel n : Nat) (ds : List Char), n < fuel →
    ∃ l, Nat.toDigitsCore 10 fuel n ds = l ++ ds ∧ (∀ c ∈ l, c.isDigit = true) ∧
      parseDigits l = n ∧ (∀ e, 0 < e → n < 10 ^ e → l.length ≤ e) ∧ 0 < l.length := by
  intro fuel
  induction fuel with
  | zero => intro n ds h; omega
  | succ fuel ih =>
    intro n ds h
    have hd := digitChar_spec (n % 10) (Nat.mod_lt _ (by decide))
    simp only [Nat.toDigitsCore]
    by_cases h0 : n / 10 = 0
    · rw [if_pos h0]
      refine ⟨[Nat.digitChar (n % 10)], rfl, ?_, ?_, ?_, by simp⟩
      · intro c hc
        simp only [List.mem_singleton] at hc
        rw [hc]; exact hd.1
      · have : parseDigits [Nat.digitChar (n % 10)] = (Nat.digitChar (n % 10)).toNat - 48 := by
          simp [parseDigits]
        rw [this, hd.2]; omega
      · intro e he _
        simpa using he
    · rw [if_neg h0]
      obtain ⟨l, e1, e2, e3, e4, _⟩ := ih (n / 10) (Nat.digitChar (n % 10) :: ds) (by omega)
      refine ⟨l ++ [Nat.digitChar (n % 10)], by rw [e1]; simp, ?_, ?_, ?_, by simp⟩
      · intro c hc
        rcases List.mem_append.mp hc with hc | hc
        · exact e2 c hc
        · simp only [List.mem_singleton] at hc
          rw [hc]; exact hd.1
      · rw [parseDigits_append_singleton, e3, hd.2]; omega
      · intro e he hlt
        rw [List.length_append, List.length_singleton]
        cases e with
        | zero => omega
        | succ e =>
          have he2 : 0 < e := by
            rcases Nat.eq_zero_or_pos e with h | h
            · subst h; simp at hlt; omega
            · exact h
          have := e4 e he2 (by rw [pow_succ] at hlt; omega)
          omega

theorem toDigits_spec (n : Nat) :
    (∀ c ∈ Nat.toDigits 10 n, c.isDigit = true) ∧ parseDigits (Nat.toDigits 10 n) = n ∧
      (∀ e, 0 < e → n < 10 ^ e → (Nat.toDigits 10 n).length ≤ e) ∧
      0 < (Nat.toDigits 10 n).length := by
  obtain ⟨l, e1, e2, e3, e4, e5⟩ := toDigitsCore_spec (n + 1) n [] (by omega)
  have : Nat.toDigits 10 n = l := by simp [Nat.toDigits, e1]
  rw [this]
  exact ⟨e2, e3, e4, e5⟩

theorem isDigit_ne (c : Char) (h : c.isDigit = true) : c ≠ NUL ∧ c ≠ '.' := by
  constructor
  · rintro rfl; revert h; decide
  · rintro rfl; revert h; decide

theorem intPart_of_digits (I : List Char) (hI : ∀ c ∈ I, c.isDigit = true) :
    intPart I = I ∧ fracPart I = [] := by
  have : '.' ∉ I := fun h => (isDigit_ne _ (hI _ h)).2 rfl
  simp [intPart, fracPart, strchr, this]

theorem intPart_of_dot (I F : List Char) (hI : ∀ c ∈ I, c.isDigit = true) :
    intPart (I ++ '.' :: F) = I ∧ fracPart (I ++ '.' :: F) = F := by
  have hn : '.' ∉ I := fun h => (isDigit_ne _ (hI _ h)).2 rfl
  have hidx : (I ++ '.' :: F).indexOf '.' = I.length := by
    rw [List.indexOf_append_of_not_mem hn]; simp
  simp [intPart, fracPart, strchr, hidx]

/-- C7: for `0 ≤ scale ≤ digits < 256` and every integer `v` with `0 ≤ v < 10^(digits-scale)`,
`convertNumeric` applied to the decimal text of `v` (as `setNumericValue` prints it with
`%ld`) returns a string of exactly `digits` decimal digits whose value, read back as a
number, is `v * 10^scale`: with `scale` implied fraction digits it reads as `v` exactly. -/
theorem convertNumeric_roundtrip (digits scale v : Int) (buf : CharBuf)
    (hs : 0 ≤ scale) (hd : scale ≤ digits) (_hdig : digits < 256)
    (hv0 : 0 ≤ v) (hv : v < 10 ^ (digits - scale).toNat) :
    ((convertNumericStr (sprintf_ld v) digits scale buf).length : Int) = digits ∧
    (∀ c ∈ convertNumericStr (sprintf_ld v) digits scale buf, c.isDigit = true) ∧
    (parseDigits (convertNumericStr (sprintf_ld v) digits scale buf) : Int)
      = v * 10 ^ scale.toNat := by
  obtain ⟨s, rfl⟩ := Int.eq_ofNat_of_zero_le hs
  obtain ⟨k, hk⟩ : ∃ k : Nat, digits = ((k + s : Nat) : Int) :=
    ⟨(digits - s).toNat, by push_cast; omega⟩
  subst hk
  obtain ⟨n, rfl⟩ := Int.eq_ofNat_of_zero_le hv0
  have hk2 : (((k + s : Nat) : Int) - (s : Int)).toNat = k := by push_cast; omega
  rw [hk2] at hv
  have hn : n < 10 ^ k := by exact_mod_cast hv
  have htext : sprintf_ld (n : Int) = Nat.toDigits 10 n := by
    simp [sprintf_ld]
  obtain ⟨t1, t2, t3, t4⟩ := toDigits_spec n
  have hnul : ∀ c ∈ Nat.toDigits 10 n, c ≠ NUL := fun c hc => (isDigit_ne c (t1 c hc)).1
  obtain ⟨i1, i2⟩ := intPart_of_digits _ t1
  rw [htext, convertNumericStr_eq_zonedLayout _ hnul, i1, i2]
  refine ⟨by rw [zonedLayout_length], ?_, ?_⟩
  · intro c hc
    simp only [zonedLayout, List.mem_append, List.mem_replicate, List.take_nil,
      List.not_mem_nil, false_or] at hc
    rcases hc with (⟨_, rfl⟩ | hc) | ⟨_, rfl⟩
    · decide
    · exact t1 c (List.mem_of_mem_drop hc)
    · decide
  · have hp : parseDigits (zonedLayout (Nat.toDigits 10 n) [] k s) = n * 10 ^ s := by
      simp only [zonedLayout, List.take_nil, List.nil_append, List.length_nil, Nat.sub_zero]
      rw [parseDigits_append_zeros, parseDigits_zeros_append]
      congr 1
      rcases Nat.eq_zero_or_pos k with h0 | hpos
      · subst h0
        have : n = 0 := by simpa using hn
        subst this
        simp [parseDigits]
      · have := t3 k hpos hn
        rw [Nat.sub_eq_zero_of_le this, List.drop_zero, t2]
    rw [hp]; simp

/-- C7 (witness): the value 1234 in a field of 7 digits with 2 fraction digits. -/
theorem convertNumeric_roundtrip_witness :
    convertNumericStr (sprintf_ld 1234) 7 2 (fun _ => 'x') = "0123400".toList ∧
    (((convertNumericStr (sprintf_ld 1234) 7 2 (fun _ => 'x')).length : Int) = 7 ∧
    (∀ c ∈ convertNumericStr (sprintf_ld 1234) 7 2 (fun _ => 'x'), c.isDigit = true) ∧
    (parseDigits (convertNumericStr (sprintf_ld 1234) 7 2 (fun _ => 'x')) : Int)
      = 1234 * 10 ^ (2 : Int).toNat) :=
  ⟨by decide, convertNumeric_roundtrip 7 2 1234 (fun _ => 'x') (by decide) (by decide)
    (by decide) (by decide) (by decide)⟩

/-- C8: for `0 ≤ scale ≤ digits` and a text `I.F` or `I` (`I`, `F` strings of digits),
`convertNumeric` returns a string of length `digits` whose last `scale` characters are the
first `scale` characters of `F` padded on the right with '0' (all '0' when the text has no
fraction) and whose first `digits - scale` characters are the last `digits - scale`
characters of `I` padded on the left with '0'. -/
theorem convertNumeric_layout (digits scale : Int) (I F : List Char) (buf : CharBuf)
    (hs : 0 ≤ scale) (hd : scale ≤ digits)
    (hI : ∀ c ∈ I, c.isDigit = true) (hF : ∀ c ∈ F, c.isDigit = true) :
    (((convertNumericStr (I ++ '.' :: F) digits scale buf).length : Int) = digits ∧
      (convertNumericStr (I ++ '.' :: F) digits scale buf).drop (digits - scale).toNat
        = F.take scale.toNat ++ List.replicate (scale.toNat - F.length) '0' ∧
      (convertNumericStr (I ++ '.' :: F) digits scale buf).take (digits - scale).toNat
        = List.replicate ((digits - scale).toNat - I.length) '0'
            ++ I.drop (I.length - (digits - scale).toNat)) ∧
    (((convertNumericStr I digits scale buf).length : Int) = digits ∧
      (convertNumericStr I digits scale buf).drop (digits - scale).toNat
        = List.replicate scale.toNat '0' ∧
      (convertNumericStr I digits scale buf).take (digits - scale).toNat
        = List.replicate ((digits - scale).toNat - I.length) '0'
            ++ I.drop (I.length - (digits - scale).toNat)) := by
  obtain ⟨s, rfl⟩ := Int.eq_ofNat_of_zero_le hs
  obtain ⟨k, hk⟩ : ∃ k : Nat, digits = ((k + s : Nat) : Int) :=
    ⟨(digits - s).toNat, by push_cast; omega⟩
  subst hk
  have hk2 : (((k + s : Nat) : Int) - (s : Int)).toNat = k := by push_cast; omega
  have hlen1 : ∀ J : List Char,
      (List.replicate (k - J.length) '0' ++ J.drop (J.length - k)).length = k := by
    intro J
    simp only [List.length_append, List.length_replicate, List.length_drop]; omega
  have hval : ∀ c ∈ I ++ '.' :: F, c ≠ NUL := by
    intro c hc
    rcases List.mem_append.mp hc with h | h
    · exact (isDigit_ne c (hI c h)).1
    · rcases List.mem_cons.mp h with h | h
      · rw [h]; decide
      · exact (isDigit_ne c (hF c h)).1
  have hvalI : ∀ c ∈ I, c ≠ NUL := fun c hc => (isDigit_ne c (hI c hc)).1
  obtain ⟨d1, d2⟩ := intPart_of_dot I F hI
  obtain ⟨i1, i2⟩ := intPart_of_digits I hI
  rw [hk2, convertNumericStr_eq_zonedLayout _ hval, convertNumericStr_eq_zonedLayout _ hvalI,
    d1, d2, i1, i2]
  simp only [Int.toNat_ofNat]
  refine ⟨⟨by rw [zonedLayout_length], ?_, ?_⟩, ⟨by rw [zonedLayout_length], ?_, ?_⟩⟩
  · unfold zonedLayout
    rw [List.drop_append_of_le_length (by rw [hlen1]), List.drop_of_length_le (by rw [hlen1]),
      List.nil_append]
  · unfold zonedLayout
    rw [List.take_append_of_le_length (by rw [hlen1]), List.take_of_length_le (by rw [hlen1])]
  · unfold zonedLayout
    rw [List.drop_append_of_le_length (by rw [hlen1]), List.drop_of_length_le (by rw [hlen1])]
    simp
  · unfold zonedLayout
    rw [List.take_append_of_le_length (by rw [hlen1]), List.take_of_length_le (by rw [hlen1])]

/-- C8 (witness): the text `1234.5` in a field of 7 digits with 2 fraction digits gives
`0123450`, and the text `1234` gives `0123400`. -/
theorem convertNumeric_layout_witness :
    convertNumericStr "1234.5".toList 7 2 (fun _ => 'x') = "0123450".toList ∧
    ((((convertNumericStr (['1', '2', '3', '4'] ++ '.' :: ['5']) 7 2 (fun _ => 'x')).length : Int)
        = 7 ∧
      (convertNumericStr (['1', '2', '3', '4'] ++ '.' :: ['5']) 7 2 (fun _ => 'x')).drop
          ((7 : Int) - 2).toNat
        = ['5'].take (2 : Int).toNat ++ List.replicate ((2 : Int).toNat - ['5'].length) '0' ∧
      (convertNumericStr (['1', '2', '3', '4'] ++ '.' :: ['5']) 7 2 (fun _ => 'x')).take
          ((7 : Int) - 2).toNat
        = List.replicate (((7 : Int) - 2).toNat - ['1', '2', '3', '4'].length) '0'
            ++ ['1', '2', '3', '4'].drop (['1', '2', '3', '4'].length - ((7 : Int) - 2).toNat)) ∧
    (((convertNumericStr ['1', '2', '3', '4'] 7 2 (fun _ => 'x')).length : Int) = 7 ∧
      (convertNumericStr ['1', '2', '3', '4'] 7 2 (fun _ => 'x')).drop ((7 : Int) - 2).toNat
        = List.replicate (2 : Int).toNat '0' ∧
      (convertNumericStr ['1', '2', '3', '4'] 7 2 (fun _ => 'x')).take ((7 : Int) - 2).toNat
        = List.replicate (((7 : Int) - 2).toNat - ['1', '2', '3', '4'].length) '0'
            ++ ['1', '2', '3', '4'].drop
              (['1', '2', '3', '4'].length - ((7 : Int) - 2).toNat))) :=
  ⟨by decide, convertNumeric_layout 7 2 ['1', '2', '3', '4'] ['5'] (fun _ => 'x')
    (by decide) (by decide) (by decide) (by decide)⟩

theorem moduleFound_iff (r : ModuleRegistry) (name : String) :
    moduleFound r name = true ↔ name ∈ r.names := by
  simp only [moduleFound, ModuleRegistry.names, List.any_eq_true, List.mem_range, beq_iff_eq,
    List.mem_map]
  constructor
  · rintro ⟨i, hi, h⟩
    exact ⟨i, hi, by rw [h]⟩
  · rintro ⟨i, hi, h⟩
    exact ⟨i, hi, by rw [← h]⟩

/-- A C string read from a buffer holds no NUL. -/
theorem cstrFrom_no_nul (buf : CharBuf) : ∀ (n a : Nat), NUL ∉ cstrFrom buf a n := by
  intro n
  induction n with
  | zero => intro a; simp [cstrFrom]
  | succ n ih =>
    intro a
    unfold cstrFrom
    split
    · simp
    · rename_i h
      intro hm
      rcases List.mem_cons.mp hm with hm | hm
      · exact h hm.symm
      · exact ih (a + 1) hm

theorem cstrFrom_succ (buf : CharBuf) (a n : Nat) :
    cstrFrom buf a (n + 1) = if buf a = NUL then [] else buf a :: cstrFrom buf (a + 1) n := rfl

/-- The read of a C string depends on the bytes up to its NUL only. -/
theorem cstrFrom_congr (buf1 buf : CharBuf) : ∀ (n a : Nat),
    (∀ k, k ≤ (cstrFrom buf a n).length → k < n → buf1 (a + k) = buf (a + k)) →
    cstrFrom buf1 a n = cstrFrom buf a n := by
  intro n
  induction n with
  | zero => intro a _; rfl
  | succ n ih =>
    intro a h
    have h0 : buf1 a = buf a := by simpa using h 0 (Nat.zero_le _) (Nat.succ_pos _)
    rw [cstrFrom_succ, cstrFrom_succ, h0]
    rw [cstrFrom_succ] at h
    by_cases hn : buf a = NUL
    · rw [if_pos hn, if_pos hn]
    · rw [if_neg hn, if_neg hn]
      rw [if_neg hn] at h
      congr 1
      apply ih
      intro k hk hkn
      have := h (k + 1) (by simpa using hk) (by omega)
      rw [Nat.add_assoc, Nat.add_comm 1 k]
      exact this

/-- A buffer that holds the characters of `s` and then a NUL reads as `s`. -/
theorem cstrFrom_eq (buf : CharBuf) : ∀ (s : List Char) (a n : Nat),
    (∀ k, k < s.length → buf (a + k) = s.getD k NUL) → NUL ∉ s →
    buf (a + s.length) = NUL → s.length < n → cstrFrom buf a n = s := by
  intro s
  induction s with
  | nil =>
    intro a n _ _ h0 hn
    cases n with
    | zero => rfl
    | succ n =>
      unfold cstrFrom
      rw [if_pos (by simpa using h0)]
  | cons c s ih =>
    intro a n hs hnul h0 hn
    cases n with
    | zero => simp at hn
    | succ n =>
      have hc : buf a = c := by simpa using hs 0 (by simp)
      have hcn : c ≠ NUL := fun h => hnul (by simp [h])
      unfold cstrFrom
      rw [hc, if_neg hcn]
      congr 1
      apply ih
      · intro k hk
        have := hs (k + 1) (by simpa using hk)
        simpa [Nat.add_assoc, Nat.add_comm 1 k] using this
      · exact fun h => hnul (List.mem_cons_of_mem _ h)
      · simpa [Nat.add_assoc, Nat.add_comm 1] using h0
      · simpa using hn

/-- A string shorter than the bytes searched ends at a NUL. -/
theorem cstrFrom_nul_at (buf : CharBuf) : ∀ (n a : Nat),
    (cstrFrom buf a n).length < n → buf (a + (cstrFrom buf a n).length) = NUL := by
  intro n
  induction n with
  | zero => intro a h; simp at h
  | succ n ih =>
    intro a h
    unfold cstrFrom at h ⊢
    by_cases hn : buf a = NUL
    · rw [if_pos hn]; simpa using hn
    · rw [if_neg hn] at h ⊢
      have := ih (a + 1) (by simpa using h)
      simpa [Nat.add_assoc, Nat.add_comm 1] using this

theorem slotGet_slotSet_same (rows : CharBuf) (i : Nat) (s : List Char) (hi : i < 500)
    (hs : s.length ≤ 8) (hnul : NUL ∉ s) : slotGet (slotSet rows i s) i = s := by
  unfold slotGet slotSet
  apply cstrFrom_eq
  · intro k hk
    simp only [storeStr]
    rw [if_pos (by omega)]
    congr 1
    omega
  · exact hnul
  · simp [storeStr]
  · omega

theorem slotGet_slotSet_other (rows : CharBuf) (i j : Nat) (s : List Char) (hi : i < 500)
    (hij : i ≠ j) (hs : s.length ≤ 8) (hrow : (slotGet rows i).length ≤ 8) :
    slotGet (slotSet rows j s) i = slotGet rows i := by
  unfold slotGet slotSet at *
  apply cstrFrom_congr
  intro k hk _
  simp only [storeStr]
  rw [if_neg (by omega), if_neg (by omega)]

theorem startModule_names (r r1 : ModuleRegistry) (name : String)
    (hfit : r.RowsFit) (hlen : name.data.length ≤ 8) (hnul : NUL ∉ name.data)
    (hlt : r.runningModuleCnt < 500) (h : startModule r name = some r1) :
    name ∉ r.names ∧ r1.names = r.names ++ [name] ∧ r1.RowsFit := by
  unfold startModule at h
  by_cases hf : moduleFound r name = true
  · rw [if_pos hf] at h; cases h
  · rw [if_neg hf, if_pos hlt] at h
    cases h
    refine ⟨fun hm => hf ((moduleFound_iff r name).mpr hm), ?_, ?_⟩
    · simp only [ModuleRegistry.names, List.range_succ, List.map_append, List.map_cons,
        List.map_nil]
      congr 1
      · apply List.map_congr_left
        intro i hi
        have hi2 := List.mem_range.mp hi
        rw [slotGet_slotSet_other _ _ _ _ (by omega) (by omega) hlen (hfit.2 i hi2)]
      · rw [slotGet_slotSet_same _ _ _ hlt hlen hnul]
    · refine ⟨by simp only; omega, ?_⟩
      intro i hi
      simp only at hi ⊢
      by_cases hic : i = r.runningModuleCnt
      · subst hic
        rw [slotGet_slotSet_same _ _ _ hlt hlen hnul]
        exact hlen
      · rw [slotGet_slotSet_other _ _ _ _ (by omega) hic hlen (hfit.2 i (by omega))]
        exact hfit.2 i (by omega)

/-- The state of the loop of `endModule` after the indices below `n`, where `p` is the
index of the first row that holds `name` (any `p ≥ n` when there is none below `n`). -/
theorem endModule_loop (name : String) (rows : CharBuf) (N p : Nat) (hN : N ≤ 500)
    (hfit : ∀ i, i < N → (slotGet rows i).length ≤ 8)
    (hbefore : ∀ i, i < p → slotGet rows i ≠ name.data) :
    ∀ n, n ≤ N → (p < n → slotGet rows p = name.data) →
      ((List.range n).foldl (endModule_step name) (false, rows)).1 = decide (p < n) ∧
      ∀ j, j < N → slotGet ((List.range n).foldl (endModule_step name) (false, rows)).2 j
        = if p ≤ j ∧ j + 1 < n then slotGet rows (j + 1) else slotGet rows j := by
  intro n
  induction n with
  | zero =>
    intro _ _
    refine ⟨by simp, fun j _ => ?_⟩
    rw [if_neg (by omega)]; rfl
  | succ n ih =>
    intro hn h2
    obtain ⟨f, g⟩ := ih (by omega) (fun hp => h2 (by omega))
    rw [List.range_succ, List.foldl_append]
    simp only [List.foldl_cons, List.foldl_nil, endModule_step]
    rw [f]
    have gn : slotGet ((List.range n).foldl (endModule_step name) (false, rows)).2 n
        = slotGet rows n := by
      rw [g n (by omega), if_neg (by omega)]
    by_cases hpn : p < n
    · have hpn1 : p < n + 1 := by omega
      simp only [hpn, hpn1, decide_True, if_true, Bool.not_true, Bool.false_and,
        Bool.false_eq_true, if_false, true_and]
      intro j hj
      rw [gn]
      by_cases hjn : j = n - 1
      · subst hjn
        rw [slotGet_slotSet_same _ _ _ (by omega) (hfit n (by omega))
          (cstrFrom_no_nul _ _ _), if_pos (by omega)]
        congr 1; omega
      · have hrow : (slotGet ((List.range n).foldl (endModule_step name) (false, rows)).2 j).length
            ≤ 8 := by
          rw [g j hj]
          split
          · exact hfit (j + 1) (by omega)
          · exact hfit j hj
        rw [slotGet_slotSet_other _ _ _ _ (by omega) hjn (hfit n (by omega)) hrow, g j hj]
        by_cases hj2 : p ≤ j ∧ j + 1 < n
        · rw [if_pos hj2, if_pos (by omega)]
        · rw [if_neg hj2, if_neg (by omega)]
    · have hd : decide (p < n) = false := decide_eq_false hpn
      rw [hd]
      simp only [Bool.false_eq_true, if_false, Bool.not_false, Bool.true_and]
      rw [gn]
      constructor
      · by_cases hpe : p = n
        · subst hpe
          have hp1 : p < p + 1 := by omega
          simp [h2 (by omega), hp1]
        · have hne : slotGet rows n ≠ name.data := hbefore n (by omega)
          have hp1 : ¬ p < n + 1 := by omega
          simp [hne, hp1]
      · intro j hj
        rw [g j hj, if_neg (by omega), if_neg (by omega)]

theorem exists_first_index (name : String) :
    ∀ (L : List String), name ∈ L →
      ∃ p, p < L.length ∧ (∀ i, i < p → L.getD i "" ≠ name) ∧ L.getD p "" = name ∧
        L.erase name = L.eraseIdx p := by
  intro L
  induction L with
  | nil => intro h; simp at h
  | cons a t ih =>
    intro h
    by_cases ha : a = name
    · subst ha
      exact ⟨0, by simp, fun i hi => by omega, by simp, by simp⟩
    · have ht : name ∈ t := by
        rcases List.mem_cons.mp h with h | h
        · exact absurd h.symm ha
        · exact h
      obtain ⟨p, hp, hb, hp2, he⟩ := ih ht
      refine ⟨p + 1, by simpa using hp, ?_, by simpa using hp2, ?_⟩
      · intro i hi
        cases i with
        | zero => simpa using ha
        | succ i => simpa using hb i (by omega)
      · rw [List.erase_cons_tail (by simpa using ha), List.eraseIdx_cons_succ, he]

theorem names_getD (r : ModuleRegistry) (i : Nat) (hi : i < r.runningModuleCnt) :
    r.names.getD i "" = String.mk (slotGet r.runningModules i) := by
  simp [ModuleRegistry.names, List.getD_eq_getElem?_getD, List.getElem?_range hi]

theorem String.mk_ne_iff (l : List Char) (name : String) :
    String.mk l ≠ name ↔ l ≠ name.data := by
  constructor
  · intro h h2; exact h (by rw [h2])
  · intro h h2; exact h (by rw [← h2])

theorem endModule_names_of_mem (r : ModuleRegistry) (name : String) (hfit : r.RowsFit)
    (h : name ∈ r.names) :
    (endModule r name).names = r.names.erase name ∧ (endModule r name).RowsFit := by
  have hlen : r.names.length = r.runningModuleCnt := by simp [ModuleRegistry.names]
  obtain ⟨p, hp, hb, hp2, he⟩ := exists_first_index name r.names h
  rw [hlen] at hp
  have hpos : r.runningModuleCnt > 0 := by omega
  obtain ⟨_, g⟩ := endModule_loop name r.runningModules r.runningModuleCnt p hfit.1 hfit.2
    (fun i hi => by
      have := hb i hi
      rw [names_getD r i (by omega)] at this
      exact (String.mk_ne_iff _ _).mp this)
    r.runningModuleCnt (Nat.le_refl _) (fun _ => by
      have := hp2
      rw [names_getD r p hp] at this
      rw [← this])
  constructor
  · rw [he]
    apply List.ext_getElem?
    intro j
    simp only [endModule, ModuleRegistry.names, if_pos hpos, List.getElem?_map]
    rw [List.getElem?_eraseIdx]
    by_cases hj : j < r.runningModuleCnt - 1
    · rw [List.getElem?_range hj, Option.map_some', g j (by omega)]
      by_cases hjp : j < p
      · rw [if_neg (by omega), if_pos hjp, List.getElem?_map, List.getElem?_range (by omega)]
        rfl
      · rw [if_pos (by omega), if_neg hjp, List.getElem?_map, List.getElem?_range (by omega)]
        rfl
    · rw [List.getElem?_eq_none (by simp only [List.length_range]; omega), Option.map_none']
      rw [if_neg (by omega), List.getElem?_eq_none (by simp only [List.length_map, List.length_range]; omega)]
  · refine ⟨by simp only [endModule, if_pos hpos]; have := hfit.1; omega, ?_⟩
    intro j hj
    simp only [endModule, if_pos hpos] at hj ⊢
    rw [g j (by omega)]
    split
    · exact hfit.2 (j + 1) (by omega)
    · exact hfit.2 j (by omega)

theorem endModule_names_of_not_mem (r : ModuleRegistry) (name : String) (hfit : r.RowsFit)
    (h : name ∉ r.names) :
    (endModule r name).names = r.names.dropLast := by
  obtain ⟨_, g⟩ := endModule_loop name r.runningModules r.runningModuleCnt
    r.runningModuleCnt hfit.1 hfit.2
    (fun i hi heq => h (by
      have hi2 : i < r.names.length := by simpa [ModuleRegistry.names] using hi
      have hg := names_getD r i hi
      rw [List.getD_eq_getElem?_getD, List.getElem?_eq_getElem hi2, Option.getD_some] at hg
      have : r.names[i] = name := by rw [hg, heq]
      rw [← this]; exact List.getElem_mem _))
    r.runningModuleCnt (Nat.le_refl _) (fun hlt => absurd hlt (by omega))
  rw [List.dropLast_eq_take]
  apply List.ext_getElem?
  intro j
  simp only [endModule, ModuleRegistry.names, List.getElem?_map, List.length_map,
    List.length_range]
  have hcnt : (if r.runningModuleCnt > 0 then r.runningModuleCnt - 1 else r.runningModuleCnt)
      = r.runningModuleCnt - 1 := by split <;> omega
  rw [hcnt]
  by_cases hj : j < r.runningModuleCnt - 1
  · rw [List.getElem?_range hj, Option.map_some', g j (by omega), if_neg (by omega),
      List.getElem?_take_of_lt hj, List.getElem?_map, List.getElem?_range (by omega)]
    rfl
  · rw [List.getElem?_eq_none (by simp only [List.length_range]; omega), Option.map_none',
      List.getElem?_eq_none (by simp only [List.length_take, List.length_map, List.length_range]; omega)]

theorem Serializer.step_invariant (s s1 : Serializer) (op : SerializerOp)
    (hop : ∀ name, op = .enter name → name.length ≤ 8 ∧ NUL ∉ name.data)
    (hfit : s.reg.RowsFit) (hn : s.reg.names.Nodup) (hp : s.reg.names.Perm s.held)
    (h : s.step op = some s1) :
    s1.reg.RowsFit ∧ s1.reg.names.Nodup ∧ s1.reg.names.Perm s1.held := by
  cases op with
  | enter name =>
    obtain ⟨hlen, hnul⟩ := hop name rfl
    simp only [Serializer.step] at h
    by_cases hlt : s.reg.runningModuleCnt < 500
    · rw [if_pos hlt] at h
      cases hst : startModule s.reg name with
      | none => rw [hst] at h; cases h
      | some r =>
        rw [hst] at h
        cases h
        obtain ⟨hnot, hnames, hfit1⟩ := startModule_names s.reg r name hfit hlen hnul hlt hst
        simp only [hnames]
        refine ⟨hfit1, ?_, ?_⟩
        · rw [List.nodup_append]
          refine ⟨hn, List.nodup_singleton _, ?_⟩
          intro a ha hb
          rw [List.mem_singleton] at hb
          subst hb
          exact hnot ha
        · exact (List.perm_append_comm).trans (List.Perm.cons name hp)
    · rw [if_neg hlt] at h; cases h
  | leave name =>
    simp only [Serializer.step] at h
    by_cases hm : name ∈ s.held
    · rw [if_pos hm] at h
      cases h
      have hm2 : name ∈ s.reg.names := hp.mem_iff.mpr hm
      obtain ⟨hnames, hfit1⟩ := endModule_names_of_mem s.reg name hfit hm2
      simp only [hnames]
      exact ⟨hfit1, hn.erase name, hp.erase name⟩
    · rw [if_neg hm] at h; cases h

theorem Serializer.run_invariant : ∀ (ops : List SerializerOp) (s s1 : Serializer),
    (∀ name, SerializerOp.enter name ∈ ops → name.length ≤ 8 ∧ NUL ∉ name.data) →
    s.reg.RowsFit → s.reg.names.Nodup → s.reg.names.Perm s.held → s.run ops = some s1 →
    s1.reg.RowsFit ∧ s1.reg.names.Nodup ∧ s1.reg.names.Perm s1.held := by
  intro ops
  induction ops with
  | nil =>
    intro s s1 _ hfit hn hp h
    simp only [Serializer.run] at h
    cases h
    exact ⟨hfit, hn, hp⟩
  | cons op ops ih =>
    intro s s1 hops hfit hn hp h
    simp only [Serializer.run] at h
    cases hst : s.step op with
    | none => rw [hst] at h; cases h
    | some s2 =>
      rw [hst] at h
      obtain ⟨hfit2, hn2, hp2⟩ := Serializer.step_invariant s s2 op
        (fun name hname => hops name (by rw [hname]; exact List.mem_cons_self _ _)) hfit hn hp hst
      exact ih s2 s1 (fun name hname => hops name (List.mem_cons_of_mem _ hname)) hfit2 hn2 hp2 h

/-- C9 (as stated): a program name of nine characters.  `startModule("ABCDEFGHI")` stores
the nine characters in row 0 and the NUL in the first byte of row 1; `startModule("SUB1")`
overwrites that NUL, and row 0 now reads `ABCDEFGHISUB1`.  A second
`startModule("ABCDEFGHI")` finds no row equal to the name and completes, before any
`endModule`: two tasks hold the same name, with fewer than 500 names registered. -/
theorem serializer_nine_characters_twice :
    (Serializer.init.run [.enter "ABCDEFGHI"]).map (fun s => s.reg.names)
      = some ["ABCDEFGHI"] ∧
    (Serializer.init.run [.enter "ABCDEFGHI", .enter "SUB1"]).map (fun s => s.reg.names)
      = some ["ABCDEFGHISUB1", "SUB1"] ∧
    (Serializer.init.run [.enter "ABCDEFGHI", .enter "SUB1", .enter "ABCDEFGHI"]).map
        (fun s => (s.reg.names, s.held, s.reg.runningModuleCnt))
      = some (["ABCDEFGHISUB1", "SUB1", "ABCDEFGHI"], ["ABCDEFGHI", "SUB1", "ABCDEFGHI"], 3) ∧
    (Serializer.init.run [.enter "ABCDEFGHI", .enter "SUB1"]).map
        (fun s => decide ("ABCDEFGHI" ∈ s.held) && (startModule s.reg "ABCDEFGHI").isSome)
      = some true := by
  refine ⟨by decide!, by decide!, by decide!, by decide!⟩

/-- C9 (amended): for program names of at most 8 characters (C strings, so without a NUL),
the length a row of `runningModules[500][9]` has room for: in every serializer state reached
from the empty registry by `startModule` and `endModule` calls made while fewer than 500
names are registered (`endModule(name)` only by a task that completed `startModule(name)`),
no program name occurs twice in the registry, the registry holds exactly the names that
are held, and `startModule(name)` cannot complete for a name that a task still holds.  In
such a state the two functions act on the registry as on a list of names: a
`startModule(name)` that completes finds the name absent and appends it, and the
`endModule(name)` of a holder removes the name. -/
theorem serializer_no_duplicate (ops : List SerializerOp) (s : Serializer)
    (hnames : ∀ name, SerializerOp.enter name ∈ ops → name.length ≤ 8 ∧ NUL ∉ name.data)
    (h : Serializer.init.run ops = some s) :
    s.reg.names.Nodup ∧ s.reg.names.Perm s.held ∧
    (∀ name ∈ s.held, startModule s.reg name = none) ∧
    (∀ (name : String) (r : ModuleRegistry), name.length ≤ 8 → NUL ∉ name.data →
      s.reg.runningModuleCnt < 500 → startModule s.reg name = some r →
      name ∉ s.reg.names ∧ r.names = s.reg.names ++ [name]) ∧
    (∀ name ∈ s.held, (endModule s.reg name).names = s.reg.names.erase name) := by
  obtain ⟨hfit, hn, hp⟩ := Serializer.run_invariant ops Serializer.init s hnames
    ⟨by simp [Serializer.init, ModuleRegistry.empty], fun i hi => by
      simp [Serializer.init, ModuleRegistry.empty] at hi⟩
    (by simp [Serializer.init, ModuleRegistry.empty, ModuleRegistry.names])
    (by simp [Serializer.init, ModuleRegistry.empty, ModuleRegistry.names]) h
  refine ⟨hn, hp, fun name hname => ?_, fun name r hlen hnul hlt hst => ?_,
    fun name hname => ?_⟩
  · have : moduleFound s.reg name = true :=
      (moduleFound_iff s.reg name).mpr (hp.mem_iff.mpr hname)
    simp [startModule, this]
  · obtain ⟨h1, h2, _⟩ := startModule_names s.reg r name hfit hlen hnul hlt hst
    exact ⟨h1, h2⟩
  · exact (endModule_names_of_mem s.reg name hfit (hp.mem_iff.mpr hname)).1

/-- C9 (witness): after enter A, enter B, leave A, enter A the registry is `B, A`; a
second enter A does not complete while A is held. -/
theorem serializer_no_duplicate_witness :
    (Serializer.init.run [.enter "A", .enter "B", .leave "A", .enter "A"]).map
        (fun s => (s.reg.names, s.held)) = some (["B", "A"], ["A", "B"]) ∧
    (Serializer.init.run [.enter "A", .enter "B", .enter "A"]).isNone = true ∧
    (Serializer.sample.reg.names.Nodup ∧ Serializer.sample.reg.names.Perm Serializer.sample.held ∧
      ∀ name ∈ Serializer.sample.held, startModule Serializer.sample.reg name = none) :=
  ⟨by decide!, by decide!,
    (serializer_no_duplicate [.enter "A", .enter "B", .leave "A", .enter "A"]
      Serializer.sample
      (fun name hname => by
        simp only [List.mem_cons, SerializerOp.enter.injEq, List.mem_singleton, reduceCtorEq,
          false_or, or_false, List.not_mem_nil] at hname
        rcases hname with h | h | h <;> (subst h; decide))
      (Option.eq_some_getD_of_isSome _ _ (by decide!))).imp_right
      (fun h => ⟨h.1, h.2.1⟩)⟩

/-- When a record equals `name` (and every row in use holds a name that fits its row), the
registry after `endModule(name)` is the registry before with the first such record removed
and every other record kept in its order. -/
theorem endModule_removes_first (r : ModuleRegistry) (name : String) (hfit : r.RowsFit)
    (h : name ∈ r.names) :
    (endModule r name).names = r.names.erase name ∧
    (endModule r name).runningModuleCnt = r.runningModuleCnt - 1 := by
  refine ⟨(endModule_names_of_mem r name hfit h).1, ?_⟩
  simp only [endModule]
  split <;> omega

theorem toDigits_below_500 :
    ∀ i, i < 500 → ((Nat.toDigits 10 i).length ≤ 3 ∧ NUL ∉ Nat.toDigits 10 i) := by
  decide!

/-- Row `i` of the full registry reads `M` followed by the digits of `i`. -/
theorem ModuleRegistry.full_slotGet (i : Nat) (hi : i < 500) :
    slotGet ModuleRegistry.full.runningModules i = 'M' :: Nat.toDigits 10 i := by
  obtain ⟨hl, hn⟩ := toDigits_below_500 i hi
  unfold slotGet
  apply cstrFrom_eq
  · intro k hk
    simp only [List.length_cons] at hk
    have h1 : (9 * i + k) / 9 = i := by omega
    have h2 : (9 * i + k) % 9 = k := by omega
    simp only [ModuleRegistry.full, h1, h2]
  · intro h
    rcases List.mem_cons.mp h with h | h
    · exact absurd h (by decide)
    · exact hn h
  · simp only [List.length_cons]
    have h1 : (9 * i + ((Nat.toDigits 10 i).length + 1)) / 9 = i := by omega
    have h2 : (9 * i + ((Nat.toDigits 10 i).length + 1)) % 9
        = (Nat.toDigits 10 i).length + 1 := by omega
    simp only [ModuleRegistry.full, h1, h2]
    simp [List.getD_eq_getElem?_getD]
  · simp only [List.length_cons]
    omega

theorem ModuleRegistry.full_rowsFit : ModuleRegistry.full.RowsFit := by
  refine ⟨Nat.le_refl _, fun i hi => ?_⟩
  have hi2 : i < 500 := hi
  rw [ModuleRegistry.full_slotGet i hi2]
  have := (toDigits_below_500 i hi2).1
  simp only [List.length_cons]
  omega

theorem ModuleRegistry.full_not_mem : "LATE" ∉ ModuleRegistry.full.names := by
  intro h
  simp only [ModuleRegistry.names, List.mem_map, List.mem_range] at h
  obtain ⟨i, hi, heq⟩ := h
  have hi2 : i < 500 := hi
  rw [ModuleRegistry.full_slotGet i hi2] at heq
  have := congrArg String.data heq
  simp at this

/-- C10 (the failing input): with all 500 slots in use, `startModule("LATE")` completes
without recording the name; the `endModule("LATE")` of that task then finds no record equal
to the name, and still decrements `runningModuleCnt`: the record `M499` of a module that is
running is dropped, the registry is not unchanged. -/
theorem endModule_absent_drops_last :
    (startModule ModuleRegistry.full "LATE").map (fun r => r.names) = some ModuleRegistry.full.names ∧
    "LATE" ∉ ModuleRegistry.full.names ∧
    (endModule ModuleRegistry.full "LATE").runningModuleCnt = 499 ∧
    (endModule ModuleRegistry.full "LATE").names = ModuleRegistry.full.names.dropLast ∧
    (endModule ModuleRegistry.full "LATE").names ≠ ModuleRegistry.full.names := by
  have hnot := ModuleRegistry.full_not_mem
  have hf : moduleFound ModuleRegistry.full "LATE" = false := by
    rw [Bool.eq_false_iff]
    exact fun h => hnot ((moduleFound_iff _ _).mp h)
  have hdrop := endModule_names_of_not_mem ModuleRegistry.full "LATE"
    ModuleRegistry.full_rowsFit hnot
  refine ⟨?_, hnot, ?_, hdrop, ?_⟩
  · have hcnt : ¬ ModuleRegistry.full.runningModuleCnt < 500 := by decide
    simp only [startModule, hf, Bool.false_eq_true, if_false, hcnt, Option.map_some']
  · have hcnt : ModuleRegistry.full.runningModuleCnt = 500 := rfl
    simp only [endModule, hcnt]
    decide
  · intro heq
    have h1 := congrArg List.length heq
    rw [hdrop, List.length_dropLast] at h1
    have hlen : ModuleRegistry.full.names.length = 500 := by
      rw [ModuleRegistry.names, List.length_map, List.length_range]
      rfl
    rw [hlen] at h1
    omega

/-! ## C11: matched getmain / freemain sequences -/

/-- C14 (the failing input): `ENQ RESOURCE('R1') NOSUSPEND` with a bare literal and no
LENGTH, RESP bound to field 1, while the lock manager reports a conflict on every call.
The commit calls `enq` with the captured name and drops its answer: the command ends with
resp 0 in the EIB and in the RESP field. The same command on a field with LENGTH(2) ends
with resp 55 in both. Whatever the lock manager answers, the branch without a positive
LENGTH leaves resp as it was. -/
theorem endExec_ENQ_literal_conflict_ignored :
    (∀ events key len nosuspend type,
      (Env.sample subProgram).enq events key len nosuspend type = -1) ∧
    (execCallback_endExec (Env.sample subProgram) Task.enqLiteralBound).check (fun t =>
      (memRead t.mem (t.eibbuf + 76) 4).map Char.toNat == [0, 0, 0, 0]
        && (memRead t.mem (t.fields 1).data 4).map Char.toNat == [0, 0, 0, 0]
        && t.events == [.enq (.name "R1".toList) 0 1 0]
        && t.out == ['\n'] && t.cmdState == 0) = true ∧
    (execCallback_endExec (Env.sample subProgram) Task.enqFieldBound).check (fun t =>
      (memRead t.mem (t.eibbuf + 76) 4).map Char.toNat == [0, 0, 0, 55]
        && (memRead t.mem (t.fields 1).data 4).map Char.toNat == [0, 0, 0, 55]
        && t.events == [.enq (.bytes "NN".toList) 2 1 0]
        && t.out == ['\n'] && t.cmdState == 0) = true ∧
    (∀ (env : Env) (s s1 : EndExec), s.t.memParam ≤ 0 →
      endExec_ENQ env s = .ret s1 → s1.resp = s.resp) := by
  refine ⟨fun _ _ _ _ _ => rfl, by decide!, by decide!, ?_⟩
  intro env s s1 hlen h
  unfold endExec_ENQ at h
  split at h
  · simp only [if_pos hlen] at h
    obtain ⟨key, _, hk⟩ := Outcome.bind_eq_ret _ _ _ h
    simp only [Outcome.ret.injEq] at hk
    rw [← hk]
  · simp only [Outcome.ret.injEq] at h
    rw [h]

/-! ## C15: commits, rollbacks and the release of the locks -/

theorem execTransaction_last_event (env : Env) (name : List Char) (setCommArea parCount : Int)
    (t t1 : Task) (h : execTransaction env name setCommArea parCount t = .ret t1) :
    t1.events.getLast? = some (.returnDBConnection 1) := by
  unfold execTransaction at h
  obtain ⟨a, _, h⟩ := Outcome.bind_eq_ret _ _ _ h
  obtain ⟨b, _, h⟩ := Outcome.bind_eq_ret _ _ _ h
  obtain ⟨r, _, h⟩ := Outcome.bind_eq_ret _ _ _ h
  simp only [Outcome.ret.injEq] at h
  rw [← h]
  simp [Task.log]

/-- C15 (the failing input): a standalone task whose artifact takes a lock in UOW scope
and returns. The log of the task ends with the release of the TASK locks, the cleanup
and then the commit `returnDBConnection(conn, 1)`: no release of the UOW locks follows
that commit (none is logged at all), and the only release there is precedes it. Every
run of `execTransaction` that returns ends with that commit as its last call, and a
COMMIT or ROLLBACK statement handled by `_execSql` logs the commit or rollback and
nothing after it. -/
theorem task_end_commit_without_uow_release :
    (execTransaction (Env.sample enqUowAndReturn) "PROG1".toList 0 0 (Task.start 2)).check
      (fun t =>
        t.events == [.getDBConnection, .dlopen "PROG1".toList,
          .enq (.name "R1".toList) 0 0 0, .dlclose "PROG1".toList,
          .releaseLocks .TASK, .globalCallCleanup, .returnDBConnection 1]) = true ∧
    (∀ (env : Env) (name : List Char) (setCommArea parCount : Int) (t t1 : Task),
      execTransaction env name setCommArea parCount t = .ret t1 →
      t1.events.getLast? = some (.returnDBConnection 1)) ∧
    (∀ (env : Env) (t : Task),
      (_execSql env "COMMIT".toList 1 0 t).events = t.events ++ [.returnDBConnection 1]) ∧
    (∀ (env : Env) (t : Task),
      (_execSql env "ROLLBACK".toList 1 0 t).events
        = t.events ++ [.returnDBConnection 0]) := by
  refine ⟨by decide!, execTransaction_last_event, ?_, ?_⟩
  · intro env t
    have h1 : strstr "COMMIT".toList "BEGIN".toList = false := by decide
    have h2 : strstr "COMMIT".toList "COMMIT".toList = true := by decide
    unfold _execSql
    simp only [h1, h2, Bool.false_eq_true, if_false, if_true]
    split_ifs <;> first | contradiction | simp [Task.log, Task.write]
  · intro env t
    have h1 : strstr "ROLLBACK".toList "BEGIN".toList = false := by decide
    have h2 : strstr "ROLLBACK".toList "COMMIT".toList = false := by decide
    have h3 : strstr "ROLLBACK".toList "ROLLBACK".toList = true := by decide
    unfold _execSql
    simp only [h1, h2, h3, Bool.false_eq_true, if_false, if_true]
    split_ifs <;> first | contradiction | simp [Task.log, Task.write]

/-! ## C16: SYNCPOINT and the ROLLBACK token -/

theorem syncpoint_line_append (line rest : List Char) (hl : '\n' ∉ line) :
    ∀ (pos : Nat) (acc : List Char),
      syncpoint_line (line ++ '\n' :: rest) pos acc =
        some (((syncpoint_line (line ++ ['\n']) pos acc).map Prod.fst).getD [], rest) := by
  induction line with
  | nil =>
    intro pos acc
    simp [syncpoint_line]
  | cons c line ih =>
    intro pos acc
    have hc : c ≠ '\n' := fun e => hl (e ▸ List.mem_cons_self _ _)
    have hl2 : '\n' ∉ line := fun m => hl (List.mem_cons_of_mem _ m)
    simp only [List.cons_append, syncpoint_line, if_neg hc]
    split
    · exact ih hl2 _ _
    · exact ih hl2 _ _

theorem _execSql_frame (env : Env) (sql : List Char) (sendRes sync : Int) (t : Task) :
    (_execSql env sql sendRes sync t).inp = t.inp ∧
    (_execSql env sql sendRes sync t).memParamsState = t.memParamsState ∧
    (_execSql env sql sendRes sync t).cmdState = t.cmdState := by
  unfold _execSql
  simp only []
  split_ifs <;> (try split) <;> simp [Task.log, Task.write]

theorem syncpoint_loop_step (env : Env) (n : Nat) (bytes : CharBuf) (t : Task)
    (buf rest : List Char) (h : syncpoint_line t.inp 0 [] = some (buf, rest)) :
    ∃ t2 : Task, t2.inp = rest ∧ t2.memParamsState = t.memParamsState ∧
      t2.cmdState = t.cmdState ∧
      syncpoint_loopFrom env (n + 1) bytes t =
        if strstr buf "END-SYNCPOINT".toList then .ret (buf, t2)
        else syncpoint_loopFrom env n (syncpoint_store bytes buf) t2 := by
  simp only [syncpoint_loopFrom, h]
  refine ⟨_, ?_, ?_, ?_, rfl⟩
  · split
    · split
      · exact (_execSql_frame _ _ _ _ _).1
      · rfl
    · rfl
  · split
    · split
      · exact (_execSql_frame _ _ _ _ _).2.1
      · rfl
    · rfl
  · split
    · split
      · exact (_execSql_frame _ _ _ _ _).2.2
      · rfl
    · rfl

theorem dialogue_cons (l : List Char) (ls : List (List Char)) :
    dialogue (l :: ls) = l ++ '\n' :: dialogue ls := by
  simp [dialogue]

theorem dialogue_length (lines : List (List Char)) : lines.length ≤ (dialogue lines).length := by
  induction lines with
  | nil => simp
  | cons l ls ih =>
    rw [dialogue_cons]
    simp only [List.length_append, List.length_cons]
    omega

theorem syncpoint_loop_dialogue (env : Env) (last rest : List Char) (hlast : '\n' ∉ last)
    (hend : strstr (syncpoint_buf last) "END-SYNCPOINT".toList = true) :
    ∀ (lines : List (List Char)) (n : Nat) (bytes : CharBuf) (t : Task),
      (∀ l ∈ lines, '\n' ∉ l ∧ strstr (syncpoint_buf l) "END-SYNCPOINT".toList = false) →
      lines.length + 1 ≤ n →
      t.inp = dialogue lines ++ (last ++ '\n' :: rest) →
      ∃ t1 : Task, syncpoint_loopFrom env n bytes t = .ret (syncpoint_buf last, t1) ∧
        t1.inp = rest ∧
        t1.memParamsState = t.memParamsState ∧ t1.cmdState = t.cmdState := by
  intro lines
  induction lines with
  | nil =>
    intro n bytes t _ hn hinp
    obtain ⟨m, rfl⟩ : ∃ m, n = m + 1 := ⟨n - 1, by omega⟩
    have hline : syncpoint_line t.inp 0 [] = some (syncpoint_buf last, rest) := by
      rw [hinp]
      simp only [dialogue, List.map_nil, List.flatten_nil, List.nil_append]
      exact syncpoint_line_append last rest hlast 0 []
    obtain ⟨t2, h1, h2, h3, h4⟩ := syncpoint_loop_step env m bytes t _ _ hline
    rw [h4, if_pos hend]
    exact ⟨t2, rfl, h1, h2, h3⟩
  | cons l ls ih =>
    intro n bytes t hlines hn hinp
    obtain ⟨m, rfl⟩ : ∃ m, n = m + 1 := ⟨n - 1, by omega⟩
    have hl := hlines l (List.mem_cons_self _ _)
    have hline : syncpoint_line t.inp 0 [] =
        some (syncpoint_buf l, dialogue ls ++ (last ++ '\n' :: rest)) := by
      rw [hinp, dialogue_cons, List.append_assoc, List.cons_append]
      exact syncpoint_line_append l _ hl.1 0 []
    obtain ⟨t2, h1, h2, h3, h4⟩ := syncpoint_loop_step env m bytes t _ _ hline
    rw [h4, if_neg (by rw [hl.2]; simp)]
    obtain ⟨t1, a1, a2, a3, a4⟩ := ih m _ t2
      (fun x hx => hlines x (List.mem_cons_of_mem _ hx))
      (by simp only [List.length_cons] at hn; omega) h1
    exact ⟨t1, a1, a2, a3.trans h2, a4.trans h3⟩

/-- C16 (as stated): a SYNCPOINT without the ROLLBACK option whose dialogue is the line
`sql ROLLBACK` followed by the line `END-SYNCPOINT`. A line of the dialogue contains
ROLLBACK, the rollback is forwarded to the SQL bridge, and yet the command does not
abend: it returns with resp 0 in the EIB. -/
theorem syncpoint_early_rollback_no_abend :
    strstr "sql ROLLBACK".toList "ROLLBACK".toList = true ∧
    Task.syncpointEarlyRollback.memParamsState = 0 ∧
    (execCallback_endExec (Env.sample subProgram) Task.syncpointEarlyRollback).check
      (fun t =>
        (memRead t.mem (t.eibbuf + 76) 4).map Char.toNat == [0, 0, 0, 0]
          && t.events == [.syncDBConnection 0, .releaseLocks .UOW]
          && t.out == "\nOK\n".toList && t.inp == []) = true := by
  refine ⟨by decide!, by decide!, by decide!⟩

/-- C16 (amended): for every SYNCPOINT whose dialogue is a sequence of lines without
END-SYNCPOINT followed by a line that contains END-SYNCPOINT, the dialogue is read to
the end of that line. If that last line contains ROLLBACK and the ROLLBACK option was
not given, the command calls abend with resp 82; otherwise (also when only an earlier
line contains ROLLBACK, and whenever the ROLLBACK option was given) the command goes on
with its resp unchanged, which is 0. The ROLLBACK option sets the parameter state to 1,
and the release of the UOW locks follows the dialogue in both cases. -/
theorem syncpoint_rollback_on_last_line (env : Env) (s : EndExec)
    (lines : List (List Char)) (last rest : List Char)
    (hc : s.t.cmdState = -13)
    (hlines : ∀ l ∈ lines,
      '\n' ∉ l ∧ strstr (syncpoint_buf l) "END-SYNCPOINT".toList = false)
    (hlast : '\n' ∉ last)
    (hend : strstr (syncpoint_buf last) "END-SYNCPOINT".toList = true)
    (hinp : s.t.inp = dialogue lines ++ (last ++ '\n' :: rest)) :
    ∃ t1 : Task,
      syncpoint_loop env (s.t.inp.length + 1) s.t = .ret (syncpoint_buf last, t1) ∧
      t1.inp = rest ∧
      (strstr (syncpoint_buf last) "ROLLBACK".toList = true → s.t.memParamsState = 0 →
        endExec_SYNCPOINT env s =
          (abend 82 s.resp2 (t1.log (.releaseLocks .UOW))).bind
            (fun t2 => .ret { t := t2, resp := 82, resp2 := s.resp2 })) ∧
      (¬ (strstr (syncpoint_buf last) "ROLLBACK".toList = true ∧ s.t.memParamsState = 0) →
        endExec_SYNCPOINT env s = .ret { s with t := t1.log (.releaseLocks .UOW) }) ∧
      (execCallback_syncpointOption "ROLLBACK".toList s.t).memParamsState = 1 := by
  have hfuel : lines.length + 1 ≤ s.t.inp.length + 1 := by
    have := dialogue_length lines
    rw [hinp, List.length_append]
    omega
  obtain ⟨t1, h1, h2, h3, _⟩ :=
    syncpoint_loop_dialogue env last rest hlast hend lines _ (bufSet env.stack 0 NUL) s.t
      hlines hfuel hinp
  replace h1 : syncpoint_loop env (s.t.inp.length + 1) s.t = .ret (syncpoint_buf last, t1) :=
    h1
  refine ⟨t1, h1, h2, ?_, ?_, ?_⟩
  · intro hrb hm
    unfold endExec_SYNCPOINT
    rw [if_pos hc, h1]
    have hm1 : (t1.log (.releaseLocks .UOW)).memParamsState = 0 := by
      simp [Task.log, h3, hm]
    simp only [Outcome.bind, hrb, hm1, and_self, if_true]
  · intro hno
    unfold endExec_SYNCPOINT
    rw [if_pos hc, h1]
    have hm1 : (t1.log (.releaseLocks .UOW)).memParamsState = s.t.memParamsState := by
      simp [Task.log, h3]
    simp only [Outcome.bind, hm1]
    rw [if_neg hno]
  · simp [execCallback_syncpointOption, hc]

theorem syncpoint_rollback_on_last_line_witness :
    Task.syncpointLastRollback.cmdState = -13 ∧
    (∀ l ∈ ["sql COMMIT".toList],
      '\n' ∉ l ∧ strstr (syncpoint_buf l) "END-SYNCPOINT".toList = false) ∧
    '\n' ∉ "END-SYNCPOINT ROLLBACK".toList ∧
    strstr (syncpoint_buf "END-SYNCPOINT ROLLBACK".toList) "END-SYNCPOINT".toList = true ∧
    Task.syncpointLastRollback.inp =
      dialogue ["sql COMMIT".toList] ++ ("END-SYNCPOINT ROLLBACK".toList ++ '\n' :: []) ∧
    ∃ t1 : Task,
      syncpoint_loop (Env.sample subProgram) (Task.syncpointLastRollback.inp.length + 1)
          Task.syncpointLastRollback
        = .ret (syncpoint_buf "END-SYNCPOINT ROLLBACK".toList, t1) ∧
      t1.inp = [] ∧
      (strstr (syncpoint_buf "END-SYNCPOINT ROLLBACK".toList) "ROLLBACK".toList = true →
        Task.syncpointLastRollback.memParamsState = 0 →
        endExec_SYNCPOINT (Env.sample subProgram)
            { t := Task.syncpointLastRollback, resp := 0, resp2 := 0 } =
          (abend 82 0 (t1.log (.releaseLocks .UOW))).bind
            (fun t2 => .ret { t := t2, resp := 82, resp2 := 0 })) :=
  ⟨by decide!, by decide!, by decide!, by decide!, by decide!,
    (syncpoint_rollback_on_last_line (Env.sample subProgram)
      { t := Task.syncpointLastRollback, resp := 0, resp2 := 0 }
      ["sql COMMIT".toList] "END-SYNCPOINT ROLLBACK".toList []
      (by decide!) (by decide!) (by decide!) (by decide!) (by decide!)).imp
      (fun _ h => ⟨h.1, h.2.1, h.2.2.1⟩)⟩

/-! ## C17: the text abend writes -/

/-- C17 (as stated): at the END-EXEC of `ABEND ABCODE('XY01')` the call `abend(0, 0)`
does not return, and it writes nothing: the client has the echoed tokens of the command
and the empty line of the commit, with the code of the command, not a code of the table
(which gives ASRA for resp 0). -/
theorem abend_verb_writes_nothing :
    (abend 0 0 Task.abendVerb).returns = false ∧
    (abend 0 0 Task.abendVerb).checkAnchor (fun t => t.out == Task.abendVerb.out) = true ∧
    abcode 0 = "ASRA".toList ∧
    (execCallback_endExec (Env.sample subProgram) Task.abendVerb).checkAnchor (fun t =>
      t.out == "ABEND\nABCODE\n='XY01'\n\n".toList) = true := by
  refine ⟨by decide!, by decide!, by decide!, by decide!⟩

/-- C17 (amended): whenever `abend` does not return to its caller and the current verb is
not an explicit ABEND (`cmdState` is not -17), it first writes exactly
`ABEND\nABCODE\n='<code>'\n\n`, followed by `\nSTOP\n` exactly when the run state is 3,
and only then looks up `condHandler[resp]`; the code is A47B for resp 16, AEIV for 22,
AEIW for 23, AEIZ for 26, AEI0 for 27, AEI1 for 28, AEYH for 44 and ASRA for every other
resp.  This holds for every resp, also for one that the table `condHandler[100]` cannot
index (110 and 122 of the code table among them): the lines are written before the lookup.
For an explicit ABEND verb it stops without writing anything. -/
theorem abend_writes_lines (resp resp2 : Int) (t : Task)
    (hnr : (abend resp resp2 t).returns = false) :
    (t.cmdState ≠ -17 →
      (abend resp resp2 t).stoppedWith = some
        { t with out := t.out ++ ("ABEND\nABCODE\n='".toList ++ abcode resp ++ "'\n\n".toList
                  ++ (if t.runState = 3 then "\nSTOP\n".toList else [])) }) ∧
    (t.cmdState = -17 → (abend resp resp2 t).stoppedWith = some t) ∧
    (t.cmdState ≠ -17 →
      abend resp resp2 t = abend_longjmp resp
        { t with out := t.out ++ ("ABEND\nABCODE\n='".toList ++ abcode resp ++ "'\n\n".toList
                  ++ (if t.runState = 3 then "\nSTOP\n".toList else [])) }) ∧
    (t.cmdState = -17 → abend resp resp2 t = abend_longjmp resp t) ∧
    (∀ u : Task, (abend_longjmp resp u).stoppedWith = some u) ∧
    (∀ (u v : Task) (c : Option Nat), abend_longjmp resp u = .jump c v → v = u) ∧
    abcode 16 = "A47B".toList ∧ abcode 22 = "AEIV".toList ∧ abcode 23 = "AEIW".toList ∧
    abcode 26 = "AEIZ".toList ∧ abcode 27 = "AEI0".toList ∧ abcode 28 = "AEI1".toList ∧
    abcode 44 = "AEYH".toList ∧
    (resp ≠ 16 → resp ≠ 22 → resp ≠ 23 → resp ≠ 26 → resp ≠ 27 → resp ≠ 28 → resp ≠ 44 →
      abcode resp = "ASRA".toList) := by
  have hstop : ∀ u : Task, (abend_longjmp resp u).stoppedWith = some u := by
    intro u
    unfold abend_longjmp
    split
    · split <;> rfl
    · rfl
  have hlines : t.cmdState ≠ -17 →
      abend resp resp2 t = abend_longjmp resp
        { t with out := t.out ++ ("ABEND\nABCODE\n='".toList ++ abcode resp ++ "'\n\n".toList
                  ++ (if t.runState = 3 then "\nSTOP\n".toList else [])) } := by
    intro hc
    have hr : ¬ t.respFieldsState > 0 := by
      intro hr
      rw [(abend_cases resp resp2 t).1 ⟨hc, hr⟩] at hnr
      simp [Outcome.returns] at hnr
    unfold abend
    rw [if_pos hc, if_neg hr]
    by_cases h3 : t.runState = 3
    · simp [Task.write, h3, List.append_assoc]
    · simp [Task.write, h3, List.append_assoc]
  have hverb : t.cmdState = -17 → abend resp resp2 t = abend_longjmp resp t := by
    intro hc
    unfold abend
    rw [if_neg (by simp [hc])]
  refine ⟨?_, ?_, hlines, hverb, hstop, ?_, rfl, rfl, rfl, rfl, rfl, rfl, rfl, ?_⟩
  · intro hc
    rw [hlines hc, hstop]
  · intro hc
    rw [hverb hc, hstop]
  · intro u v c h
    unfold abend_longjmp at h
    split at h
    · split at h
      · simp only [Outcome.jump.injEq] at h
        exact h.2.symm
      · simp only [Outcome.jump.injEq] at h
        exact h.2.symm
    · simp at h
  · intro h1 h2 h3 h4 h5 h6 h7
    simp [abcode, h1, h2, h3, h4, h5, h6, h7]

/-- C17 (witness): `abend(110, 0)` in the idle command state with no resp binding, resp 110
being a value of the code table that the handler table cannot index: the client has the
lines with the code ASRA when the lookup is reached.  The same for `abend(22, 0)`, which
ends in the jump to the anchor of the task. -/
theorem abend_writes_lines_witness :
    (abend 110 0 (Task.start 2)).returns = false ∧
    ((abend 110 0 (Task.start 2)).stoppedWith.map Task.out
      == some "ABEND\nABCODE\n='ASRA'\n\n".toList) = true ∧
    ((abend 22 0 (Task.start 2)).stoppedWith.map Task.out
      == some "ABEND\nABCODE\n='AEIV'\n\n".toList) = true ∧
    ((Task.start 2).cmdState ≠ -17 →
      (abend 110 0 (Task.start 2)).stoppedWith = some
        { Task.start 2 with
          out := (Task.start 2).out ++ ("ABEND\nABCODE\n='".toList ++ abcode 110
                  ++ "'\n\n".toList
                  ++ (if (Task.start 2).runState = 3 then "\nSTOP\n".toList else [])) }) :=
  ⟨by decide!, by decide!, by decide!,
    (abend_writes_lines 110 0 (Task.start 2) (by decide!)).1⟩

/-! ## C18: a registered condition handler -/

/-- C18 (as stated): a handler is registered for resp 22 and `GETMAIN SET(field 0)
LENGTH(0)` is committed with no RESP field and no NOHANDLE. Control goes to the handler
(context 77), but the ABEND line and the ABCODE line with AEIV have been written to the
client after the empty line of the commit. -/
theorem getmain_zero_handler_lines_written :
    (setJmpAbend 22 77 (Task.start 8)).returns = true ∧
    Task.getmainZeroHandled.condHandler 22 = some 77 ∧
    Task.getmainZeroHandled.respFieldsState = 0 ∧
    (execCallback_endExec (Env.sample subProgram) Task.getmainZeroHandled).checkHandler 77
      (fun t => t.out == "\nABEND\nABCODE\n='AEIV'\n\n".toList) = true := by
  refine ⟨by decide!, by decide!, by decide!, by decide!⟩

/-- C18 (amended): if a condition handler `buf` has been registered with `setJmpAbend`
for resp `r` and is still in the table when a command fails with resp `r` with no RESP
binding and no NOHANDLE (and the verb is not ABEND), then `abend` writes the lines
`ABEND\nABCODE\n='<code>'\n\n` (and `\nSTOP\n` in run state 3) to the client channel and
after that transfers control to that handler. -/
theorem abend_handler_after_lines (r resp2 : Int) (buf : Nat) (t t1 t2 : Task)
    (hreg : setJmpAbend r buf t = .ret t1)
    (hkeep : t2.condHandler r.toNat = t1.condHandler r.toNat)
    (hc : t2.cmdState ≠ -17) (hr : ¬ t2.respFieldsState > 0) :
    abend r resp2 t2 = .jump (some buf)
      { t2 with out := t2.out ++ ("ABEND\nABCODE\n='".toList ++ abcode r ++ "'\n\n".toList
                  ++ (if t2.runState = 3 then "\nSTOP\n".toList else [])) } := by
  unfold setJmpAbend at hreg
  split at hreg
  · rename_i hrange
    simp only [Outcome.ret.injEq] at hreg
    have h1 : t1.condHandler r.toNat = some buf := by
      rw [← hreg]
      simp [handlerSet]
    rw [h1] at hkeep
    unfold abend
    rw [if_pos hc, if_neg hr]
    by_cases h3 : t2.runState = 3
    · simp [Task.write, h3, List.append_assoc, abend_longjmp, hrange, hkeep]
    · simp [Task.write, h3, List.append_assoc, abend_longjmp, hrange, hkeep]
  · simp at hreg

theorem abend_handler_after_lines_witness :
    setJmpAbend 22 77 (Task.start 8) = .ret Task.handler22 ∧
    Task.getmainZeroHandled.condHandler (22 : Int).toNat
      = Task.handler22.condHandler (22 : Int).toNat ∧
    Task.getmainZeroHandled.cmdState ≠ -17 ∧
    ¬ Task.getmainZeroHandled.respFieldsState > 0 ∧
    abend 22 0 Task.getmainZeroHandled = .jump (some 77)
      { Task.getmainZeroHandled with
        out := Task.getmainZeroHandled.out ++ ("ABEND\nABCODE\n='".toList ++ abcode 22
                  ++ "'\n\n".toList
                  ++ (if Task.getmainZeroHandled.runState = 3 then "\nSTOP\n".toList
                      else [])) } :=
  ⟨Outcome.eq_ret_getD _ _ (by decide), rfl, by decide, by decide,
    abend_handler_after_lines 22 0 77 (Task.start 8) Task.handler22 Task.getmainZeroHandled
      (Outcome.eq_ret_getD _ _ (by decide)) rfl (by decide) (by decide)⟩

/-! ## C19: a segmentation fault -/

/-- C19 (the failing input): a segmentation fault caught while an ABEND command is open
(command state -17). The fault handler sets run state 3 and calls `abend(16, 1)`, which
writes nothing for that command state; the outer dispatcher then skips its STOP because
the run state is 3. The client receives `OK`, the echoed verb and nothing else: no
ABCODE line with A47B and no STOP line, although the cleanup steps are all executed.
A fault caught while no command is open gives the three lines once. In every task state
with an ABEND command open and no handler for resp 16 the fault handler leaves for the
task anchor without writing anything. -/
theorem segv_in_abend_verb_no_stop :
    (execTransaction (Env.sample faultInAbendVerb) "PROG1".toList 0 0 (Task.start 2)).check
      (fun t =>
        t.out == "OK\nABEND\n".toList && t.runState == 3
          && t.events == [.getDBConnection, .dlopen "PROG1".toList, .dlclose "PROG1".toList,
            .releaseLocks .TASK, .globalCallCleanup, .returnDBConnection 1]) = true ∧
    (execTransaction (Env.sample faultIdle) "PROG1".toList 0 0 (Task.start 2)).check
      (fun t =>
        t.out == "OK\nABEND\nABCODE\n='A47B'\n\n\nSTOP\n".toList && t.runState == 3
          && t.events == [.getDBConnection, .dlopen "PROG1".toList, .dlclose "PROG1".toList,
            .releaseLocks .TASK, .globalCallCleanup, .returnDBConnection 1]) = true ∧
    (∀ t : Task, t.cmdState = -17 → t.condHandler 16 = none →
      (segv_handler t : Outcome Task)
        = .jump none { t with runState := 3, respFieldsState := 0 }) := by
  refine ⟨by decide!, by decide!, ?_⟩
  intro t hc hh
  have h16 : (16 : Int).toNat = 16 := rfl
  simp [segv_handler, abend, abend_longjmp, hc, h16, hh, Outcome.bind]

/-! ## C20: RECEIVE with LENGTH -/

/-- C20 (the failing input): `RECEIVE INTO(B) LENGTH(10)` for a field B of 20 bytes that
holds 20 times `N`, while the client sends `HELLOWORLD0123456789` and the two resp
lines. The literal 10 is not stored (the block that stores it tests command state 2, the
command state is -2), the length slot keeps the -1 of the verb, and all 20 bytes of B
are overwritten: bytes 10..19 are `0123456789`, not unchanged. With the length in the
numeric field LEN the first 10 bytes are stored and bytes 10..19 keep their `N`. No
literal token that arrives in command state -2 changes the length slot. -/
theorem receive_literal_length_ignored :
    isKeywordToken "10".toList Ptr.null = true ∧
    isKeywordToken "B".toList (.field 0) = false ∧
    isKeywordToken "LEN".toList (.field 1) = false ∧
    memRead Task.receive.mem (Task.receive.fields 0).data 20 = "NNNNNNNNNNNNNNNNNNNN".toList ∧
    (execCallback_command_RECEIVE (Env.sample subProgram) displayBinary receiveLiteral
        Task.receive).check (fun t =>
      memRead t.mem (t.fields 0).data 20 == "HELLOWORLD0123456789".toList
        && t.memParam == -1 && t.inp == []
        && t.out == "RECEIVE\nINTO\nSIZE\n=20\nLENGTH\n10\n\n".toList) = true ∧
    (execCallback_command_RECEIVE (Env.sample subProgram) displayBinary receiveField
        Task.receive).check (fun t =>
      memRead t.mem (t.fields 0).data 20 == "HELLOWORLDNNNNNNNNNN".toList
        && t.memParam == 10 && t.inp == []
        && t.out == "RECEIVE\nINTO\nSIZE\n=20\nLENGTH\nLEN=10\n\n".toList) = true ∧
    (∀ (cmd : List Char) (t t1 : Task), t.cmdState = -2 →
      execCallback_keyword_RECEIVE cmd Ptr.null t = .ret t1 → t1.memParam = t.memParam) := by
  refine ⟨by decide!, by decide!, by decide!, by decide!, by decide!, by decide!, ?_⟩
  intro cmd t t1 hc h
  unfold execCallback_keyword_RECEIVE at h
  obtain ⟨u, hu, h⟩ := Outcome.bind_eq_ret _ _ _ h
  have hu2 : u.cmdState = -2 ∧ u.memParam = t.memParam := by
    unfold execCallback_respBinding at hu
    simp only [ne_eq, not_true_eq_false, if_false, Outcome.ret.injEq] at hu
    rw [← hu]
    split <;> exact ⟨hc, rfl⟩
  have h1 : execCallback_keyword_length cmd u = u := by
    unfold execCallback_keyword_length
    rw [if_neg (by rw [hu2.1]; simp)]
  have h2 : (execCallback_keyword_receive cmd u).memParam = u.memParam := by
    unfold execCallback_keyword_receive
    simp only []
    split_ifs <;> rfl
  have h3 : ∀ v : Task, (execCallback_keyword_send v).memParam = v.memParam := by
    intro v
    unfold execCallback_keyword_send
    simp only []
    split_ifs <;> rfl
  simp only [Outcome.ret.injEq] at h
  rw [← h, h3, h1, h2, hu2.2]

/-! ## C21: the depth of the link stack -/

/-- C21 (the failing input): a LINK committed at link-stack depth 99 whose target returns
normally with the depth it was called with. The push is skipped (`linkStackPtr < 99`
fails) but the pop is not (`linkStackPtr > 0` holds): the command completes with depth
98. At every depth below 99 the push and the pop cancel, and the same command committed
at depth 0 completes with depth 0. -/
theorem link_at_depth_99_pops_without_push :
    Task.linkDeep.linkStackPtr = 99 ∧
    (execCallback_endExec (Env.sample subProgram) Task.linkDeep).check (fun t =>
      t.linkStackPtr == 98
        && (memRead t.mem (t.eibbuf + 76) 4).map Char.toNat == [0, 0, 0, 0]
        && memRead t.mem (t.fields 0).data 8 == "RESULT!!".toList) = true ∧
    (execCallback_endExec (Env.sample subProgram) Task.linkBound).check (fun t =>
      t.linkStackPtr == 0) = true ∧
    (∀ (t : Task) (resp resp2 : Int), t.linkStackPtr = 99 →
      (endExec_LINK_pop
        { t := endExec_LINK_push t, resp := resp, resp2 := resp2 }).t.linkStackPtr
        = 98) ∧
    (∀ (t : Task) (resp resp2 : Int), 0 ≤ t.linkStackPtr → t.linkStackPtr < 99 →
      (endExec_LINK_pop
        { t := endExec_LINK_push t, resp := resp, resp2 := resp2 }).t.linkStackPtr
        = t.linkStackPtr) := by
  refine ⟨by decide!, by decide!, by decide!, ?_, ?_⟩
  · intro t resp resp2 h
    simp [endExec_LINK_pop, endExec_LINK_push, h]
  · intro t resp resp2 h0 h1
    have h2 : (0 : Int) < t.linkStackPtr + 1 := by omega
    simp [endExec_LINK_pop, endExec_LINK_push, h1, h2]

/-! ## C22: adjustDateFormatToDb -/

theorem adjustDate_check (str : List Char) :
    (List.range cobDateFormat.length).any (adjustDate_mismatch cobDateFormat str) = false ↔
      (str.getD 4 NUL = '-' ∧ str.getD 7 NUL = '-' ∧
       (str.getD 10 NUL = '-' ∨ str.getD 10 NUL = ' ') ∧
       (str.getD 13 NUL = '.' ∨ str.getD 13 NUL = ':') ∧
       (str.getD 16 NUL = '.' ∨ str.getD 16 NUL = ':') ∧ str.getD 19 NUL = '.') := by
  have hl : cobDateFormat.length = 25 := rfl
  rw [hl]
  simp only [List.range_succ, List.range_zero, List.nil_append, List.any_append, List.any_cons,
    List.any_nil, Bool.or_false, Bool.or_eq_false_iff]
  simp [adjustDate_mismatch, cobDateFormat, isDateSep, NUL]
  simp only [@eq_comm Char '-', @eq_comm Char '.']
  tauto

theorem adjustDate_fill (str : List Char) (len : Int) (h1 : 25 ≤ len) (h2 : len ≤ 29)
    (hc : (List.range cobDateFormat.length).any (adjustDate_mismatch cobDateFormat str)
      = false) :
    adjustDateFormatToDb cobDateFormat dbDateFormat str len =
      some ([str.getD 8 NUL, str.getD 9 NUL, '-', str.getD 5 NUL, str.getD 6 NUL, '-',
          str.getD 0 NUL, str.getD 1 NUL, str.getD 2 NUL, str.getD 3 NUL, ' ',
          str.getD 11 NUL, str.getD 12 NUL, ':', str.getD 14 NUL, str.getD 15 NUL, ':',
          str.getD 17 NUL, str.getD 18 NUL, '.', str.getD 20 NUL, str.getD 21 NUL,
          str.getD 22 NUL] ++ List.replicate (len.toNat - 23) ' ') := by
  have hl : cobDateFormat.length = 25 := rfl
  unfold adjustDateFormatToDb
  rw [hc, if_neg (by rw [hl]; omega), if_neg (by simp), if_neg (by omega)]
  have fd : adjustDate_find cobDateFormat 'd' = 8 := by decide
  have fM : adjustDate_find cobDateFormat 'M' = 5 := by decide
  have fY : adjustDate_find cobDateFormat 'Y' = 0 := by decide
  have fh : adjustDate_find cobDateFormat 'h' = 11 := by decide
  have fm : adjustDate_find cobDateFormat 'm' = 14 := by decide
  have fs : adjustDate_find cobDateFormat 's' = 17 := by decide
  have fu : adjustDate_find cobDateFormat 'u' = 20 := by decide
  have hdb : dbDateFormat.length = 23 := rfl
  rw [hdb]
  simp only [List.range_succ, List.range_zero, List.nil_append, List.cons_append,
    List.foldl_cons, List.foldl_nil]
  simp only [adjustDate_step, dbDateFormat, isDateSep, fd, fM, fY, fh, fm, fs, fu, hl, NUL,
    Option.bind, String.toList, List.getD_cons_zero, List.getD_cons_succ, Option.map]
  simp only [Bool.false_eq_true, if_false, Char.reduceEq, or_false, false_or, decide_True,
    decide_False, if_true, ne_eq, not_true_eq_false, not_false_eq_true, Nat.reduceLeDiff,
    Nat.reduceLT, Nat.reduceAdd, or_self, or_true, true_or]
  obtain rfl | rfl | rfl | rfl | rfl :
    len = 25 ∨ len = 26 ∨ len = 27 ∨ len = 28 ∨ len = 29 := by omega
  all_goals rfl

/-- C22 (as stated): a text of 25 characters with the template separators in place and
letters, not digits, at the letter positions. It is not returned unchanged: it is
reshaped like a date. -/
theorem adjustDate_reshapes_non_digits :
    ("ABCD-EF-GH-IJ.KL.MN.OPQRS".toList.getD 0 NUL).isDigit = false ∧
    adjustDateFormatToDb cobDateFormat dbDateFormat "ABCD-EF-GH-IJ.KL.MN.OPQRS".toList 25
      = some "GH-EF-ABCD IJ:KL:MN.OPQ  ".toList ∧
    "GH-EF-ABCD IJ:KL:MN.OPQ  ".toList ≠ "ABCD-EF-GH-IJ.KL.MN.OPQRS".toList := by
  refine ⟨by decide!, by decide!, by decide!⟩

/-- C22 (amended): with the default templates and 25 <= len <= 29, if the text has the
template separator at positions 4, 7, 10, 13, 16 and 19 (a blank is accepted at 10 and a
colon at 13 and 16), whatever stands at the letter positions, `adjustDateFormatToDb`
returns the len-character string `DD-MM-YYYY hh:mm:ss.uuu` built from the characters of
the same letter class (the first three of the five fraction characters) and padded with
blanks; with a wrong separator, or with len < 25, it returns the text unchanged. -/
theorem adjustDate_by_separators (str : List Char) (len : Int) (h1 : 25 ≤ len)
    (h2 : len ≤ 29) :
    ((str.getD 4 NUL = '-' ∧ str.getD 7 NUL = '-' ∧
        (str.getD 10 NUL = '-' ∨ str.getD 10 NUL = ' ') ∧
        (str.getD 13 NUL = '.' ∨ str.getD 13 NUL = ':') ∧
        (str.getD 16 NUL = '.' ∨ str.getD 16 NUL = ':') ∧ str.getD 19 NUL = '.') →
      adjustDateFormatToDb cobDateFormat dbDateFormat str len =
        some ([str.getD 8 NUL, str.getD 9 NUL, '-', str.getD 5 NUL, str.getD 6 NUL, '-',
          str.getD 0 NUL, str.getD 1 NUL, str.getD 2 NUL, str.getD 3 NUL, ' ',
          str.getD 11 NUL, str.getD 12 NUL, ':', str.getD 14 NUL, str.getD 15 NUL, ':',
          str.getD 17 NUL, str.getD 18 NUL, '.', str.getD 20 NUL, str.getD 21 NUL,
          str.getD 22 NUL] ++ List.replicate (len.toNat - 23) ' ')) ∧
    (¬ (str.getD 4 NUL = '-' ∧ str.getD 7 NUL = '-' ∧
        (str.getD 10 NUL = '-' ∨ str.getD 10 NUL = ' ') ∧
        (str.getD 13 NUL = '.' ∨ str.getD 13 NUL = ':') ∧
        (str.getD 16 NUL = '.' ∨ str.getD 16 NUL = ':') ∧ str.getD 19 NUL = '.') →
      adjustDateFormatToDb cobDateFormat dbDateFormat str len = some str) ∧
    (∀ short : Int, short < 25 →
      adjustDateFormatToDb cobDateFormat dbDateFormat str short = some str) := by
  have hl : cobDateFormat.length = 25 := rfl
  refine ⟨?_, ?_, ?_⟩
  · intro hs
    exact adjustDate_fill str len h1 h2 ((adjustDate_check str).mpr hs)
  · intro hs
    have hany : (List.range cobDateFormat.length).any (adjustDate_mismatch cobDateFormat str)
        = true := by
      cases h : (List.range cobDateFormat.length).any (adjustDate_mismatch cobDateFormat str)
      · exact absurd ((adjustDate_check str).mp h) hs
      · rfl
    unfold adjustDateFormatToDb
    rw [if_neg (by rw [hl]; omega), if_pos hany]
  · intro short hshort
    unfold adjustDateFormatToDb
    rw [if_pos (by rw [hl]; omega)]

theorem adjustDate_by_separators_witness :
    (25 : Int) ≤ 26 ∧ (26 : Int) ≤ 29 ∧
    adjustDateFormatToDb cobDateFormat dbDateFormat "2024-01-15 10:30:45.12345 ".toList 26
      = some "15-01-2024 10:30:45.123   ".toList :=
  ⟨by decide, by decide,
    ((adjustDate_by_separators "2024-01-15 10:30:45.12345 ".toList 26 (by decide)
      (by decide)).1 (by decide!)).trans (by decide!)⟩

/-! ## C23: writeJson -/

/-- C23 (the failing input): the copybook `var MM1 = {"a":1};` and the map name `M1`. The
name occurs in the content (at offset 5) and the first `{` after it opens the balanced
object `{"a":1}`, but the scan restarts its match at the second `M` without looking at
it again, never sees the name, and writes `JSON=` and a newline only. When a later
occurrence follows, the object after that one is written instead. On a copybook in
which no prefix of the name is repeated before it the object after the first
occurrence is written. -/
theorem writeJson_misses_name_after_its_prefix :
    strstrIdx "var MM1 = \x7b\"a\":1\x7d;".toList "M1".toList = some 5 ∧
    (writeJson (copybooks "var MM1 = \x7b\"a\":1\x7d;".toList) "../copybooks".toList
        "M1".toList "MS1".toList (Task.start 2)).check (fun t =>
      t.out == "JSON=\n".toList) = true ∧
    (writeJson (copybooks "var MM1 = \x7b\"a\":1\x7d; M1 = \x7b\"b\":2\x7d".toList)
        "../copybooks".toList "M1".toList "MS1".toList (Task.start 2)).check (fun t =>
      t.out == "JSON=\x7b\"b\":2\x7d\n".toList) = true ∧
    (writeJson (copybooks "var M1 = \x7b\"a\":\x7b\"b\":1\x7d\x7d; var M2 = \x7b\x7d".toList)
        "../copybooks".toList "M1".toList "MS1".toList (Task.start 2)).check (fun t =>
      t.out == "JSON=\x7b\"a\":\x7b\"b\":1\x7d\x7d\n".toList) = true ∧
    (writeJson (copybooks "var M1 = \x7b\x7d".toList) "../copybooks".toList
        "M1".toList "MS2".toList (Task.start 2)).check (fun t =>
      t.out == "JSON=\n".toList) = true := by
  refine ⟨by decide!, by decide!, by decide!, by decide!, by decide!⟩

/-! ## C24: end of input on the client channel -/

theorem readLine_passes_running (k : Nat) :
    ∀ s : ReadLineLoop, '\n' ∉ s.inp → s.c ≠ '\n' → (readLine_passes k s).c ≠ '\n' := by
  induction k with
  | zero => intro s _ hc; exact hc
  | succ k ih =>
    intro s hin hc
    simp only [readLine_passes, if_pos hc]
    apply ih
    · unfold readLine_body
      cases hs : s.inp with
      | nil => simp [hs]
      | cons c rest =>
        have hrest : '\n' ∉ rest := by
          intro m; exact hin (hs ▸ List.mem_cons_of_mem _ m)
        simp only []
        split <;> exact hrest
    · unfold readLine_body
      cases hs : s.inp with
      | nil => simpa using hc
      | cons c rest =>
        have hne : c ≠ '\n' := by
          intro e; exact hin (hs ▸ e ▸ List.mem_cons_self _ _)
        simp only []
        split <;> exact hne

theorem readLine_passes_eof (k : Nat) (s : ReadLineLoop) (he : s.inp = []) (hc : s.c ≠ '\n') :
    readLine_passes k s = s := by
  induction k with
  | zero => rfl
  | succ k ih =>
    have hb : readLine_body s = s := by
      unfold readLine_body
      rw [he]
    simp only [readLine_passes, if_pos hc, hb, ih]

theorem readLine_loop_none_iff (inp : List Char) :
    ∀ (pos : Nat) (buf : List Char), readLine_loop inp pos buf = none ↔ '\n' ∉ inp := by
  induction inp with
  | nil => intro pos buf; simp [readLine_loop]
  | cons c rest ih =>
    intro pos buf
    simp only [readLine_loop]
    by_cases hc : c = '\n'
    · simp [hc]
    · rw [if_neg hc]
      have hm : '\n' ∉ c :: rest ↔ '\n' ∉ rest := by
        simp only [List.mem_cons, not_or]
        exact ⟨fun h => h.2, fun h => ⟨fun e => hc e.symm, h⟩⟩
      rw [hm]
      split
      · exact ih _ _
      · exact ih _ _

theorem readBlock_passes_short (l k : Nat) :
    ∀ s : ReadBlockLoop, s.i + s.inp.length < l → (readBlock_passes l k s).i < l := by
  induction k with
  | zero => intro s h; simp only [readBlock_passes]; omega
  | succ k ih =>
    intro s h
    have hi : s.i < l := by omega
    simp only [readBlock_passes, if_pos hi]
    apply ih
    unfold readBlock_body
    cases hs : s.inp with
    | nil => simp only [hs, List.length_nil]; rw [hs] at h; simpa using h
    | cons c rest =>
      rw [hs] at h
      simp only [List.length_cons] at h ⊢
      omega

theorem readLine_passes_12 (k : Nat) (hk : 2 ≤ k) :
    readLine_passes k { inp := "12".toList, c := NUL, pos := 0, buf := [] }
      = { inp := [], c := '2', pos := 2, buf := "12".toList } := by
  obtain ⟨m, rfl⟩ : ∃ m, k = m + 2 := ⟨k - 2, by omega⟩
  have h2 : readLine_passes (m + 2) { inp := "12".toList, c := NUL, pos := 0, buf := [] }
      = readLine_passes m { inp := [], c := '2', pos := 2, buf := "12".toList } := by
    rfl
  rw [h2]
  exact readLine_passes_eof m _ rfl (by decide)

/-- C24 (as stated): the client sends `12` and closes the channel. `readLine` then waits
for ever, and so does the data read of a RECEIVE into a field of 4 bytes: the task is
not aborted, no ABEND line is written, and after a thousand passes the loop of
`readLine` is where it was after two. -/
theorem read_at_eof_keeps_running :
    (readLine Task.eof).hangs = true ∧
    (execCallback_endExec (Env.sample subProgram) Task.receiveEof).hangs = true ∧
    readLine_passes 1000 { inp := "12".toList, c := NUL, pos := 0, buf := [] }
      = { inp := [], c := '2', pos := 2, buf := "12".toList } ∧
    readLine_passes 2 { inp := "12".toList, c := NUL, pos := 0, buf := [] }
      = { inp := [], c := '2', pos := 2, buf := "12".toList } := by
  exact ⟨by decide!, by decide!, readLine_passes_12 1000 (by decide),
    readLine_passes_12 2 (by decide)⟩

/-- C24 (amended): if the client channel reaches the end of its input while the monitor
is reading a line or a block of bytes from it, the read does not terminate and the task
is not aborted. Once the input is exhausted a pass of the loop changes nothing (`read`
returns 0, nothing is stored) and the loop condition stays true; for an input without a
newline the loop of `readLine` is still running after any number of passes, and a block
read of more bytes than the client sent is still short after any number of passes. In
the model of the commands such a read is the outcome `hang`. -/
theorem read_at_eof_never_ends :
    (∀ (k : Nat) (s : ReadLineLoop), s.inp = [] → s.c ≠ '\n' → readLine_passes k s = s) ∧
    (∀ (k : Nat) (s : ReadLineLoop), '\n' ∉ s.inp → s.c ≠ '\n' →
      (readLine_passes k s).c ≠ '\n') ∧
    (∀ (l k : Nat) (s : ReadBlockLoop), s.i + s.inp.length < l →
      (readBlock_passes l k s).i < l) ∧
    (∀ t : Task, '\n' ∉ t.inp → readLine t = .hang) ∧
    (∀ (n : Nat) (t : Task), t.inp.length < n → readBytes n t = .hang) := by
  refine ⟨readLine_passes_eof, readLine_passes_running, readBlock_passes_short, ?_, ?_⟩
  · intro t h
    unfold readLine
    rw [(readLine_loop_none_iff t.inp 0 []).mpr h]
  · intro n t h
    unfold readBytes
    rw [if_neg (by omega)]

/-! ## C25: the index into the condition-handler table -/

/-- C25 (the failing input): `abend(110, 0)` with no RESP binding, resp 110 being one of
the values the code table of `abend` names. After the ABEND lines the lookup
`condHandler[110]` reads behind the 100 entries of the table. The same happens for a
SOAPFAULT that the client answers with resp 122, and `setJmpAbend` with the condition
number 100 reads and writes entry 100. Every resp outside 0..99 with which `abend` is
called without a binding ends in that lookup. -/
theorem abend_110_reads_behind_table :
    abcode 110 = "ASRA".toList ∧
    (abend 110 0 (Task.start 2)).isUndefined = true ∧
    (execCallback_endExec (Env.sample subProgram) Task.soapfault122).isUndefined = true ∧
    (setJmpAbend 100 77 (Task.start 2)).isUndefined = true ∧
    (∀ (resp resp2 : Int) (t : Task), ¬ (0 ≤ resp ∧ resp < 100) →
      (abend resp resp2 t).returns = false → (abend resp resp2 t).isUndefined = true) ∧
    (∀ (errcond : Int) (bufVar : Nat) (t : Task), ¬ (0 ≤ errcond ∧ errcond < 100) →
      (setJmpAbend errcond bufVar t).isUndefined = true) := by
  refine ⟨by decide!, by decide!, by decide!, by decide!, ?_, ?_⟩
  · intro resp resp2 t hr hnr
    unfold abend at hnr ⊢
    by_cases hc : t.cmdState ≠ -17
    · rw [if_pos hc] at hnr ⊢
      by_cases hb : t.respFieldsState > 0
      · rw [if_pos hb] at hnr
        simp [Outcome.returns] at hnr
      · rw [if_neg hb]
        simp only [abend_longjmp, if_neg hr, Outcome.isUndefined]
    · rw [if_neg hc]
      simp only [abend_longjmp, if_neg hr, Outcome.isUndefined]
  · intro errcond bufVar t hr
    unfold setJmpAbend
    rw [if_neg hr]
    rfl

/-! ## C26: the verb of a command -/

theorem execCallback_verb_RECEIVE (t : Task) :
    execCallback_verb "RECEIVE".toList t = some (execCallback_RECEIVE t) := by
  rfl

theorem execCallback_verb_map (cmd : List Char) (t : Task) (hs : cmd ≠ "SEND".toList) :
    (execCallback_verb cmd t).map (fun u => u.cmdState) = verbTag cmd := by
  by_cases h0 : cmd = "RECEIVE".toList
  · subst h0; rfl
  by_cases h1 : cmd = "XCTL".toList
  · subst h1; rfl
  by_cases h2 : cmd = "RETRIEVE".toList
  · subst h2; rfl
  by_cases h3 : cmd = "LINK".toList
  · subst h3; rfl
  by_cases h4 : cmd = "GETMAIN".toList
  · subst h4; rfl
  by_cases h5 : cmd = "GETMAIN64".toList
  · subst h5; rfl
  by_cases h6 : cmd = "FREEMAIN".toList
  · subst h6; rfl
  by_cases h7 : cmd = "FREEMAIN64".toList
  · subst h7; rfl
  by_cases h8 : cmd = "ADDRESS".toList
  · subst h8; rfl
  by_cases h9 : cmd = "PUT".toList
  · subst h9; rfl
  by_cases h10 : cmd = "GET".toList
  · subst h10; rfl
  by_cases h11 : cmd = "ENQ".toList
  · subst h11; rfl
  by_cases h12 : cmd = "DEQ".toList
  · subst h12; rfl
  by_cases h13 : cmd = "SYNCPOINT".toList
  · subst h13; rfl
  by_cases h14 : cmd = "WRITEQ".toList
  · subst h14; rfl
  by_cases h15 : cmd = "READQ".toList
  · subst h15; rfl
  by_cases h16 : cmd = "DELETEQ".toList
  · subst h16; rfl
  by_cases h17 : cmd = "ABEND".toList
  · subst h17; rfl
  by_cases h18 : cmd = "ASKTIME".toList
  · subst h18; rfl
  by_cases h19 : cmd = "INQUIRE".toList
  · subst h19; rfl
  by_cases h20 : cmd = "ASSIGN".toList
  · subst h20; rfl
  by_cases h21 : cmd = "FORMATTIME".toList
  · subst h21; rfl
  by_cases h22 : cmd = "START".toList
  · subst h22; rfl
  by_cases h23 : cmd = "CANCEL".toList
  · subst h23; rfl
  by_cases h24 : cmd = "RETURN".toList
  · subst h24; rfl
  by_cases h25 : cmd = "SOAPFAULT".toList
  · subst h25; rfl
  by_cases h26 : cmd = "INVOKE".toList
  · subst h26; rfl
  by_cases h27 : cmd = "QUERY".toList
  · subst h27; rfl
  simp only [execCallback_verb, verbTag, hs, h0, h1, h2, h3, h4, h5, h6, h7, h8, h9, h10,
    h11, h12, h13, h14, h15, h16, h17, h18, h19, h20, h21, h22, h23, h24, h25, h26, h27,
    or_self, if_false, Option.map_none']

theorem execCallback_verb_tag (cmd : List Char) (t u : Task)
    (h : execCallback_verb cmd t = some u) (hs : cmd ≠ "SEND".toList) :
    verbTag cmd = some u.cmdState := by
  rw [← execCallback_verb_map cmd t hs, h]
  rfl

theorem execCallback_respBinding_cmdState (cmd : List Char) (var : Ptr) (t u : Task)
    (h : execCallback_respBinding cmd var t = .ret u) : u.cmdState = t.cmdState := by
  unfold execCallback_respBinding at h
  simp only [] at h
  split at h
  · obtain ⟨f, _, hk⟩ := derefField_ret _ _ _ _ h
    simp only [Outcome.ret.injEq] at hk
    rw [← hk]
    split_ifs <;> rfl
  · simp only [Outcome.ret.injEq] at h
    rw [← h]
    split_ifs <;> rfl

theorem execCallback_keyword_ABEND_cmdState (cmd : List Char) (var : Ptr) (t u : Task)
    (hc : t.cmdState = -17) (h : execCallback_keyword_ABEND cmd var t = .ret u) :
    u.cmdState = -17 := by
  unfold execCallback_keyword_ABEND at h
  obtain ⟨v, hv, h⟩ := Outcome.bind_eq_ret _ _ _ h
  have hv2 : v.cmdState = -17 := by
    rw [execCallback_respBinding_cmdState _ _ _ _ hv]
    exact hc
  have h1 : execCallback_keyword_length cmd v = v := by
    unfold execCallback_keyword_length
    rw [if_neg (by rw [hv2]; simp)]
  have h3 : ∀ w : Task, (execCallback_keyword_send w).cmdState = w.cmdState := by
    intro w
    unfold execCallback_keyword_send
    simp only []
    split_ifs <;> rfl
  simp only [Outcome.ret.injEq] at h
  rw [← h, h3, h1, hv2]

theorem execCallback_cics_verb (env : Env) (cmd : List Char) (var : Ptr) (t u : Task)
    (hp : execCallback_isPrologue cmd = false) (hc : cmd ≠ "CICS".toList)
    (hn : t.cmdState < 0) (hv : execCallback_verb cmd t = some u) :
    execCallback_cics env cmd var t = some (.ret u) := by
  unfold execCallback_cics
  rw [hp]
  simp only [Bool.false_eq_true, if_false, if_neg hc, if_pos hn, hv]

/-- C26 (as stated): the tokens CICS, ABEND, ABCODE, 'X', CANCEL, END-EXEC. With the
fifth token the tag changes from -17 to -19, and the command is committed as a START or
CANCEL: it reads the two resp lines of the client and returns to the artifact with the
command state idle. The task is not abended. -/
theorem abend_cancel_committed_as_cancel :
    ((execCallback_run (Env.sample subProgram) (abendCancel.take 4) Task.answered).map
      (fun o => o.check (fun t => t.cmdState == -17))) = some true ∧
    ((execCallback_run (Env.sample subProgram) (abendCancel.take 5) Task.answered).map
      (fun o => o.check (fun t => t.cmdState == -19))) = some true ∧
    ((execCallback_run (Env.sample subProgram) abendCancel Task.answered).map
      (fun o => o.check (fun t =>
        t.out == "ABEND\nABCODE\n='X'\nCANCEL\n\n".toList && t.cmdState == 0
          && t.inp == []
          && (memRead t.mem (t.eibbuf + 76) 4).map Char.toNat == [0, 0, 0, 0])))
      = some true := by
  refine ⟨by decide!, by decide!, by decide!⟩

/-- C26 (amended): within an ABEND command (tag -17), a later token before END-EXEC that
is a bare verb keyword opens that verb: the tag in `cmdState` becomes the tag of that
keyword, the same whatever verb is open (SEND alone leaves the tag as it is), so the
command is committed as the verb opened last; every other token leaves the tag at
-17. -/
theorem verb_keyword_reopens_command (env : Env) (cmd : List Char) (var : Ptr)
    (t t1 : Task) (hstate : t.cmdState = -17)
    (hstep : execCallback_cics env cmd var t = some (.ret t1))
    (hcics : cmd ≠ "CICS".toList) (hend : strstr cmd "END-EXEC".toList = false) :
    (execCallback_verb cmd t = none → t1.cmdState = -17) ∧
    (∀ u : Task, execCallback_verb cmd t = some u →
      t1 = u ∧
      (cmd ≠ "SEND".toList → verbTag cmd = some t1.cmdState ∧
        ∀ v w : Task, execCallback_verb cmd v = some w → w.cmdState = t1.cmdState)) := by
  have hn : t.cmdState < 0 := by rw [hstate]; decide
  unfold execCallback_cics at hstep
  by_cases hp : execCallback_isPrologue cmd = true
  · rw [if_pos hp] at hstep
    exact absurd hstep (by simp)
  · rw [if_neg hp, if_neg hcics, if_pos hn] at hstep
    constructor
    · intro hv
      rw [hv] at hstep
      simp only [hend, Bool.false_eq_true, if_false, if_pos hstate] at hstep
      split at hstep
      · simp only [Option.some.injEq] at hstep
        exact execCallback_keyword_ABEND_cmdState _ _ _ _ hstate hstep
      · simp only [Option.some.injEq] at hstep
        unfold execCallback_field_ABEND at hstep
        obtain ⟨f, _, hk⟩ := derefField_ret _ _ _ _ hstep
        simp only [Outcome.ret.injEq] at hk
        rw [← hk]
        exact hstate
    · intro u hv
      rw [hv] at hstep
      simp only [Option.some.injEq, Outcome.ret.injEq] at hstep
      refine ⟨hstep.symm, fun hs => ?_⟩
      have htag := execCallback_verb_tag cmd t u hv hs
      rw [← hstep]
      refine ⟨htag, fun v w hw => ?_⟩
      have htag2 := execCallback_verb_tag cmd v w hw hs
      rw [htag] at htag2
      exact (Option.some.inj htag2).symm

theorem verb_keyword_reopens_command_witness :
    Task.abendOpen.cmdState = -17 ∧
    execCallback_cics (Env.sample subProgram) "CANCEL".toList Ptr.null Task.abendOpen
      = some (.ret Task.abendCancelled) ∧
    "CANCEL".toList ≠ "CICS".toList ∧
    strstr "CANCEL".toList "END-EXEC".toList = false ∧
    (∀ u : Task, execCallback_verb "CANCEL".toList Task.abendOpen = some u →
      Task.abendCancelled = u ∧
      ("CANCEL".toList ≠ "SEND".toList →
        verbTag "CANCEL".toList = some Task.abendCancelled.cmdState ∧
        ∀ v w : Task, execCallback_verb "CANCEL".toList v = some w →
          w.cmdState = Task.abendCancelled.cmdState)) ∧
    Task.abendCancelled.cmdState = -19 :=
  ⟨by decide!,
    execCallback_cics_verb _ _ _ _ _ (by decide!) (by decide!) (by decide!)
      (Option.eq_some_getD_of_isSome _ _ (by decide!)),
    by decide!, by decide!,
    (verb_keyword_reopens_command (Env.sample subProgram) "CANCEL".toList Ptr.null
      Task.abendOpen Task.abendCancelled (by decide!)
      (execCallback_cics_verb _ _ _ _ _ (by decide!) (by decide!) (by decide!)
        (Option.eq_some_getD_of_isSome _ _ (by decide!)))
      (by decide!) (by decide!)).2,
    by decide!⟩

/-! ## C27: the program name of XCTL and LINK -/

/-- C27 (the failing input): `LINK PROGRAM(field 0)` for a field of 9 bytes that holds
`ABCDEFGHI`. The command buffer is `='ABCDEFGHI'`, the name is taken from offset 2, cut
to 9 characters and trimmed, and all 9 characters go to the name buffer of 9 bytes with
the terminator behind it; the twin block of XCTL does the same. A field that holds
`SUB1` and blanks gives the name SUB1. For a literal the name is cut to 8 characters
after the trim, whatever the token. -/
theorem program_name_of_field_nine_chars :
    programName_field "='ABCDEFGHI'".toList = "ABCDEFGHI".toList ∧
    (execCallback_field_program displayText (-5) [] (.field 0)
      Task.linkProgramField).isUndefined = true ∧
    (execCallback_field_program displayText (-3) [] (.field 0)
      { Task.linkProgramField with cmdState := -3 }).isUndefined = true ∧
    (execCallback_field_program displayText (-5) [] (.field 0) Task.linkProgramShort).check
      (fun t => t.progname == "SUB1".toList && t.xctlState == 10
        && t.out == "='SUB1     '\n".toList) = true ∧
    programName_literal "'ABCDEFGHIJ'".toList = "ABCDEFGH".toList ∧
    programName_literal "'SUB1'".toList = "SUB1".toList ∧
    (∀ cmd : List Char, (programName_literal cmd).length ≤ 8) := by
  refine ⟨by decide!, by decide!, by decide!, by decide!, by decide!, by decide!, ?_⟩
  intro cmd
  unfold programName_literal
  simp only [List.length_take]
  split <;> omega

/-! ## C28: a host variable in an SQL statement -/

theorem sqlEncodeByte_no_quote (c : Char) (hc : c ≠ APOS) : APOS ∉ sqlEncodeByte c := by
  unfold sqlEncodeByte
  split
  · decide
  · split
    · simp only [List.mem_singleton]
      exact fun e => hc e.symm
    · have h1 : (c.toNat &&& 0xC0) >>> 6 ≤ 3 := by
        have : c.toNat &&& 0xC0 ≤ 0xC0 := Nat.and_le_right
        rw [Nat.shiftRight_eq_div_pow]
        omega
      have h2 : c.toNat &&& 0x3F ≤ 0x3F := Nat.and_le_right
      generalize (c.toNat &&& 0xC0) >>> 6 = x at h1
      generalize c.toNat &&& 0x3F = y at h2
      intro hm
      simp only [List.mem_cons, List.mem_singleton, List.not_mem_nil, or_false] at hm
      rcases hm with e | e
      · interval_cases x <;> revert e <;> decide
      · interval_cases y <;> revert e <;> decide

theorem sqlEncode_no_quote (bytes : List Char) (h : APOS ∉ bytes) :
    APOS ∉ (bytes.map sqlEncodeByte).flatten := by
  intro hm
  rw [List.mem_flatten] at hm
  obtain ⟨l, hl, hq⟩ := hm
  rw [List.mem_map] at hl
  obtain ⟨c, hc, rfl⟩ := hl
  exact sqlEncodeByte_no_quote c (fun e => h (e ▸ hc)) hq

/-- C28 (as stated): an alphanumeric host variable that holds `x' OR '1'='1`. Its bytes
are copied between two quotes as they are, the quotes among them too: the statement
becomes `SELECT * FROM T WHERE NAME = 'x' OR '1'='1' `, in which the literal ends after
`x` and the rest of the variable is SQL text. -/
theorem sql_host_variable_quote_not_escaped :
    memRead Task.sqlInjection.mem (Task.sqlInjection.fields 0).data 12
      = "x' OR '1'='1".toList ∧
    (execCallback_sqlHostVar displayText (.field 0) Task.sqlInjection).check (fun t =>
      t.cmdbuf == "SELECT * FROM T WHERE NAME = 'x' OR '1'='1' ".toList) = true ∧
    sqlEncodeByte APOS = [APOS] := by
  refine ⟨by decide!, by decide!, by decide!⟩

/-- C28 (amended): for every VARCHAR host variable and every alphanumeric host variable
(after the date reshaping) passed into an embedded SQL statement, the text appended to
the statement is a quote, the encoded bytes, a quote and a blank. When the bytes hold no
quote the text between the two quotes holds none either, so the text is one
single-quoted literal; a quote among the bytes is copied as it is, unescaped. -/
theorem sql_host_variable_literal (display : CobField → Mem → List Char) (id : Nat)
    (t : Task) (hs : t.cmdState < 2) :
    ((t.fields id).type = CobType.group →
      execCallback_sqlHostVar display (.field id) t =
        .ret { t with cmdbuf := t.cmdbuf ++ ([APOS]
          ++ ((varcharBytes (t.fields id) t.mem).map sqlEncodeByte).flatten
          ++ [APOS, ' ']) }) ∧
    ((t.fields id).type = CobType.alphanumeric → ∀ str : List Char,
      adjustDateFormatToDb cobDateFormat dbDateFormat
          (memRead t.mem (t.fields id).data (t.fields id).size)
          (intOfSize (t.fields id).size) = some str →
      execCallback_sqlHostVar display (.field id) t =
        .ret { t with cmdbuf := t.cmdbuf ++ ([APOS]
          ++ (((List.range (t.fields id).size).map (fun i => str.getD i NUL)).map
                sqlEncodeByte).flatten
          ++ [APOS, ' ']) }) ∧
    (∀ bytes : List Char, APOS ∉ bytes →
      sqlQuote bytes = [APOS] ++ (bytes.map sqlEncodeByte).flatten ++ [APOS, ' '] ∧
      APOS ∉ (bytes.map sqlEncodeByte).flatten) ∧
    (∀ pre post : List Char,
      sqlQuote (pre ++ [APOS] ++ post)
        = [APOS] ++ (pre.map sqlEncodeByte).flatten ++ [APOS]
            ++ ((post.map sqlEncodeByte).flatten ++ [APOS, ' '])) := by
  refine ⟨?_, ?_, fun bytes h => ⟨rfl, sqlEncode_no_quote bytes h⟩, ?_⟩
  · intro hg
    unfold execCallback_sqlHostVar
    simp only [derefField, if_pos hs, if_pos hg, sqlQuote]
  · intro ha str hstr
    have hng : (t.fields id).type ≠ CobType.group := by rw [ha]; decide
    unfold execCallback_sqlHostVar
    simp only [derefField, if_pos hs, if_neg hng, if_pos ha, hstr, sqlQuote]
  · intro pre post
    have h : sqlEncodeByte APOS = [APOS] := by decide!
    simp [sqlQuote, h]

theorem sql_host_variable_literal_witness :
    Task.sqlVarchar.cmdState < 2 ∧
    (Task.sqlVarchar.fields 0).type = CobType.group ∧
    execCallback_sqlHostVar displayText (.field 0) Task.sqlVarchar =
      .ret { Task.sqlVarchar with cmdbuf := Task.sqlVarchar.cmdbuf ++ ([APOS]
        ++ ((varcharBytes (Task.sqlVarchar.fields 0) Task.sqlVarchar.mem).map
              sqlEncodeByte).flatten ++ [APOS, ' ']) } ∧
    (execCallback_sqlHostVar displayText (.field 0) Task.sqlVarchar).check
      (fun t => t.cmdbuf == "SELECT * FROM T WHERE NAME = 'SMITH' ".toList) = true :=
  ⟨by decide!, by decide!,
    (sql_host_variable_literal displayText 0 Task.sqlVarchar (by decide!)).1 (by decide!),
    by decide!⟩

/-! ## C29: GETMAIN without a handle -/

/-- C29 (the failing input): `GETMAIN SET(field 0) LENGTH(8)` while the allocator
refuses the request, and the same command on a task pool without room. `getmain`
returns no handle, the null pointer is stored in the pointer field, and the command
finishes with resp 0 (in the EIB, and in the RESP field when one is bound): the test
after the call looks at the data pointer of the field, which is not null, not at the
pointer stored there. -/
theorem getmain_null_handle_resp_0 :
    (getmain Env.refusing 8 false Task.getmain8).1 = 0 ∧
    (getmain Env.noRoom 8 false Task.getmain8).1 = 0 ∧
    (execCallback_endExec Env.refusing Task.getmain8).check (fun t =>
      (memRead t.mem (t.eibbuf + 76) 4).map Char.toNat == [0, 0, 0, 0]
        && loadPtr t.mem (t.fields 0).data == 0 && t.out == ['\n']
        && t.allocMemPtr == 0) = true ∧
    (execCallback_endExec Env.noRoom Task.getmain8).check (fun t =>
      (memRead t.mem (t.eibbuf + 76) 4).map Char.toNat == [0, 0, 0, 0]
        && loadPtr t.mem (t.fields 0).data == 0 && t.out == ['\n']) = true ∧
    (execCallback_endExec Env.refusing Task.getmain8Bound).check (fun t =>
      (memRead t.mem (t.eibbuf + 76) 4).map Char.toNat == [0, 0, 0, 0]
        && (memRead t.mem (t.fields 1).data 4).map Char.toNat == [0, 0, 0, 0]
        && loadPtr t.mem (t.fields 0).data == 0) = true := by
  refine ⟨by decide!, by decide!, by decide!, by decide!, by decide!⟩

/-! ## C30: the registry after an abend in a linked program -/

/-- C30 (the failing input): a standalone task runs PROG1, which links to SUB1, which
abends with no handler registered. Control unwinds to the anchor in the outer
`execLoadModule`, which ends the registration of PROG1 only; the `endModule` of the
nested `execLoadModule` is never reached. When the task has ended, with all its cleanup
steps done, SUB1 is still registered as running, and the next `startModule` for SUB1
waits. -/
theorem nested_abend_leaves_name_registered :
    (execTransaction (Env.sample linkingProgram) "PROG1".toList 0 0 (Task.start 2)).check
      (fun t =>
        t.registry.names == ["SUB1"] && t.registry.runningModuleCnt == 1
          && (startModule t.registry "SUB1").isNone
          && t.events == [.getDBConnection, .dlopen "PROG1".toList, .dlopen "SUB1".toList,
            .dlclose "PROG1".toList, .releaseLocks .TASK, .globalCallCleanup,
            .returnDBConnection 1]) = true ∧
    (execTransaction (Env.sample subProgram) "PROG1".toList 0 0 (Task.start 2)).check
      (fun t => t.registry.names == [] && t.registry.runningModuleCnt == 0) = true := by
  refine ⟨by decide!, by decide!⟩

end Qwics
